import Mathlib

/-!
# Interchain-queries keeper: shallow embedding and verified properties

The definitions below embed `x/interchainqueries/keeper/keeper.go`.  The keeper
is a set of functions over a Cosmos-SDK `KVStore`; here the store is passed
explicitly, and every function that can write returns the resulting store next
to its Go return value, so that "what is stored when the call fails" is a
statement about the function and not an assumption of the model.

Conventions:
* `uint64` values are `Nat` (no arithmetic is performed on them in the keeper,
  so no wrap-around can occur); `int64` values are `Int`.
* `[]byte` is `List Nat`.
* a Go `error` result is `Option Error` (`none` is `nil`); a `(value, error)`
  result is `Except Error value`.
* `k.Logger(ctx).Debug(...)` calls have no effect on the store or on the
  result and are left out.
* a call that can panic returns an `Outcome`: the value it returns, or the
  message it panics with.
* the codec, the bank, the IBC client keeper and the constants of package
  `types` are outside the keeper package; they are parameters.  A concrete
  instance of each (namespace `Wire`) runs the keeper on concrete inputs.

The wasm binding `wasmbinding/message_plugin.go` is embedded as well:
`DispatchMsg` and the handlers it routes to.  There the chain state is an
abstract type `σ` that every collaborator (the wrapped messenger, the message
servers, the keepers) takes and returns; the collaborators are the fields of
`Messenger`, and the functions of packages outside the sources (`ValidateBasic`,
JSON coding, address rendering, request constructors) are the fields of
`Externals`.
-/

set_option linter.dupNamespace false

namespace Neutron

/-! ## Data model -/

/-- Go `[]byte`. -/
abbrev Bytes := List Nat

/-- The `ibcclienttypes.Height` pair used by the keeper: a revision number and
a height inside that revision. -/
structure Height where
  RevisionNumber : Nat
  RevisionHeight : Nat
deriving DecidableEq, Repr

/-- Embeds `ibcclienttypes.NewHeight`. -/
def NewHeight (revisionNumber revisionHeight : Nat) : Height :=
  { RevisionNumber := revisionNumber, RevisionHeight := revisionHeight }

/-- Modelled from the spec: the `(module-prefix, key-bytes)` pairs of a KV
query (`types.KVKey`, declared outside the keeper package). -/
structure KVKey where
  Path : String
  Key : Bytes
deriving DecidableEq, Repr

/-- An `sdk.Coin` of the deposit. -/
structure Coin where
  Denom : String
  Amount : Nat
deriving DecidableEq, Repr

/-- Modelled from the spec: `types.RegisteredQuery` is declared outside the
keeper package; its fields are those of the spec's data model (section 3) under
the names the keeper uses.  `LastSubmittedResultRemoteHeight` is a Go pointer,
hence an `Option`. -/
structure RegisteredQuery where
  Id : Nat
  Owner : String
  QueryType : String
  Keys : List KVKey
  TransactionsFilter : String
  ConnectionId : String
  UpdatePeriod : Nat
  LastSubmittedResultLocalHeight : Nat
  LastSubmittedResultRemoteHeight : Option Height
  Deposit : List Coin
  RegisteredAtHeight : Nat
deriving DecidableEq, Repr

/-- The `types.StorageValue` entries of a KV result.  `Proof` is a pointer to
the Merkle proof operations, kept here as the proof bytes. -/
structure StorageValue where
  StoragePrefix : String
  Key : Bytes
  Value : Bytes
  Proof : Option Bytes
deriving DecidableEq, Repr

/-- The `types.QueryResult` of a submission.  `Block` is a pointer to the
block-header payload of a TX submission, kept here as its bytes.  The entries
of `KvResults` are the pointed-to values (a decoded result has no nil entry). -/
structure QueryResult where
  KvResults : List StorageValue
  Block : Option Bytes
  Height : Nat
  Revision : Nat
deriving DecidableEq, Repr

/-! ## Errors -/

/-- Go errors of the keeper and of the wasm binding: the registered errors of
package `types` and of the SDK, the error struct `wasmvmtypes.InvalidRequest`,
plain `fmt.Errorf` errors, and `sdkerrors.Wrap`/`Wrapf` of an error. -/
inductive Error where
  | ErrInvalidQueryID
  | ErrProtoMarshal
  | ErrProtoUnmarshal
  | ErrInvalidHeight
  | ErrNoQueryResult
  | ErrInvalidClientID
  | ErrInvalidClientType
  | ErrInsufficientFunds
  | ErrUnauthorized
  | ErrInvalidRequest
  | ErrUnknownRequest
  | ErrorInvalidSigner
  | ErrNotFound
  | ErrInvalidOrderType
  | InvalidRequest (Err : String)
  | Errorf (msg : String)
  | Wrap (err : Error) (description : String)
deriving DecidableEq, Repr

/-- The registered error at the root of a chain of wraps (what `errors.Is`
compares against). -/
def Error.Cause : Error → Error
  | .Wrap err _ => err.Cause
  | e => e

/-- The `Error()` text.  The texts of the registered errors are declared outside
the keeper package; their identifiers stand for them. -/
def Error.Error : Error → String
  | .ErrInvalidQueryID => "ErrInvalidQueryID"
  | .ErrProtoMarshal => "ErrProtoMarshal"
  | .ErrProtoUnmarshal => "ErrProtoUnmarshal"
  | .ErrInvalidHeight => "ErrInvalidHeight"
  | .ErrNoQueryResult => "ErrNoQueryResult"
  | .ErrInvalidClientID => "ErrInvalidClientID"
  | .ErrInvalidClientType => "ErrInvalidClientType"
  | .ErrInsufficientFunds => "ErrInsufficientFunds"
  | .ErrUnauthorized => "ErrUnauthorized"
  | .ErrInvalidRequest => "ErrInvalidRequest"
  | .ErrUnknownRequest => "ErrUnknownRequest"
  | .ErrorInvalidSigner => "ErrorInvalidSigner"
  | .ErrNotFound => "ErrNotFound"
  | .ErrInvalidOrderType => "ErrInvalidOrderType"
  | .InvalidRequest err => "invalid request: " ++ err
  | .Errorf msg => msg
  | .Wrap err description => description ++ ": " ++ err.Error

/-! ## The height guard -/

/-- Rendering of a `Height` under the `%d` verb. -/
def Height.format (h : Height) : String :=
  "\x7b" ++ toString h.RevisionNumber ++ " " ++ toString h.RevisionHeight ++ "\x7d"

/-- Embeds `Keeper.checkLastRemoteHeight` (keeper.go 254-265). -/
def checkLastRemoteHeight (query : RegisteredQuery) (height : Height) : Option Error :=
  match query.LastSubmittedResultRemoteHeight with
  | none => none
  | some last =>
    if last.RevisionNumber < height.RevisionNumber then
      none
    else if last.RevisionHeight ≥ height.RevisionHeight ∧
        last.RevisionNumber = height.RevisionNumber then
      some (.Errorf ("result's remote height " ++ height.format ++
        " is less than or equal to last result's remote height &" ++ last.format))
    else
      none

/-- Embeds `Keeper.updateLastRemoteHeight` (keeper.go 267-271): the query with its
remote height replaced. -/
def updateLastRemoteHeight (query : RegisteredQuery) (height : Height) : RegisteredQuery :=
  { query with LastSubmittedResultRemoteHeight := some height }

/-- Embeds `Keeper.updateLastLocalHeight` (keeper.go 248-252): the query with its
local height replaced. -/
def updateLastLocalHeight (query : RegisteredQuery) (height : Nat) : RegisteredQuery :=
  { query with LastSubmittedResultLocalHeight := height }

/-! ## The key-value store -/

/-- The module's `KVStore`: an ordered store of byte keys and byte values, kept
as the list of its entries in ascending key order. -/
abbrev KVStore := List (Bytes × Bytes)

/-- The call `store.Get(key)`: the value under `key`, `none` (Go `nil`) when absent. -/
def KVStore.Get : KVStore → Bytes → Option Bytes
  | [], _ => none
  | (k, v) :: rest, key => if k = key then some v else KVStore.Get rest key

/-- The call `store.Has(key)`. -/
def KVStore.Has (store : KVStore) (key : Bytes) : Bool :=
  (store.Get key).isSome

/-- The call `store.Set(key, value)`: overwrite the entry under `key`, or insert it at
its place in key order. -/
def KVStore.Set : KVStore → Bytes → Bytes → KVStore
  | [], key, value => [(key, value)]
  | (k, v) :: rest, key, value =>
    if key < k then (key, value) :: (k, v) :: rest
    else if key = k then (key, value) :: rest
    else (k, v) :: KVStore.Set rest key value

/-- The call `store.Delete(key)`. -/
def KVStore.Delete (store : KVStore) (key : Bytes) : KVStore :=
  store.filter (fun kv => decide (kv.1 ≠ key))

/-! ## Store keys (package `types`) -/

/-- Embeds `sdk.Uint64ToBigEndian`: the 8 bytes of a `uint64`, most significant
first. -/
def Uint64ToBigEndian (i : Nat) : Bytes :=
  [i / 72057594037927936 % 256, i / 281474976710656 % 256, i / 1099511627776 % 256,
   i / 4294967296 % 256, i / 16777216 % 256, i / 65536 % 256, i / 256 % 256, i % 256]

/-- The key-prefix constants of package `types`, which is not part of the
keeper package: they are parameters of the development. -/
structure Types where
  RegisteredQueryKey : Bytes
  RegisteredQueryResultKey : Bytes
  SubmittedTxKey : Bytes
  LastRegisteredQueryIDKey : Bytes

/-- Modelled from the spec: `types.GetRegisteredQueryByIDKey`, the key
`registered_query/{id}` of the persisted layout, built like the replay-marker
key documented in keeper.go (prefix, then the big-endian id). -/
def Types.GetRegisteredQueryByIDKey (types : Types) (id : Nat) : Bytes :=
  types.RegisteredQueryKey ++ Uint64ToBigEndian id

/-- Modelled from the spec: `types.GetRegisteredQueryResultByIDKey`, the key
`query_result/{id}` of the persisted layout. -/
def Types.GetRegisteredQueryResultByIDKey (types : Types) (id : Nat) : Bytes :=
  types.RegisteredQueryResultKey ++ Uint64ToBigEndian id

/-! ## The keeper -/

/-- The part of `codec.BinaryCodec` the keeper uses: `Marshal` and `Unmarshal`
at the two message types it stores.  The codec is a dependency injected into
the keeper, hence a parameter; an error is its message. -/
structure BinaryCodec where
  MarshalQuery : RegisteredQuery → Except String Bytes
  UnmarshalQuery : Bytes → Except String RegisteredQuery
  MarshalResult : QueryResult → Except String Bytes
  UnmarshalResult : Bytes → Except String QueryResult

/-- On registered queries the codec decodes what it encoded (`Unmarshal`
inverts `Marshal`). -/
def BinaryCodec.RoundTripsQuery (cdc : BinaryCodec) : Prop :=
  ∀ q bz, cdc.MarshalQuery q = .ok bz → cdc.UnmarshalQuery bz = .ok q

/-- On query results the codec decodes what it encoded. -/
def BinaryCodec.RoundTripsResult (cdc : BinaryCodec) : Prop :=
  ∀ r bz, cdc.MarshalResult r = .ok bz → cdc.UnmarshalResult bz = .ok r

/-- The `Keeper`: its codec and the key constants it reads from package
`types`. -/
structure Keeper where
  cdc : BinaryCodec
  types : Types

/-- The part of `sdk.Context` the keeper reads: `ctx.BlockHeight()`, an
`int64`. -/
structure Context where
  BlockHeight : Int

/-- The Go conversion `uint64(x)` of an `int64`. -/
def uint64 (x : Int) : Nat :=
  (x % 18446744073709551616).toNat

/-- Embeds `Keeper.SaveQuery` (keeper.go 86-106).  The default height written into
`*query` is visible to the caller only through the stored bytes. -/
def SaveQuery (k : Keeper) (store : KVStore) (query : RegisteredQuery) :
    Option Error × KVStore :=
  let emptyHeight := NewHeight 1 1
  let query :=
    if query.LastSubmittedResultRemoteHeight = none then
      { query with LastSubmittedResultRemoteHeight := some emptyHeight }
    else query
  match k.cdc.MarshalQuery query with
  | .error err =>
    (some (.Wrap .ErrProtoMarshal ("failed to marshal registered query: " ++ err)), store)
  | .ok bz => (none, store.Set (k.types.GetRegisteredQueryByIDKey query.Id) bz)

/-- Embeds `Keeper.GetQueryByID` (keeper.go 108-122). -/
def GetQueryByID (k : Keeper) (store : KVStore) (id : Nat) : Except Error RegisteredQuery :=
  match store.Get (k.types.GetRegisteredQueryByIDKey id) with
  | none => .error (.Wrap .ErrInvalidQueryID ("there is no query with id: " ++ toString id))
  | some bz =>
    match k.cdc.UnmarshalQuery bz with
    | .error err =>
      .error (.Wrap .ErrProtoUnmarshal ("failed to unmarshal registered query: " ++ err))
    | .ok query => .ok query

/-- Embeds `Keeper.getRegisteredQueryByID` (keeper.go 273-286). -/
def getRegisteredQueryByID (k : Keeper) (store : KVStore) (queryID : Nat) :
    Except Error RegisteredQuery :=
  match store.Get (k.types.GetRegisteredQueryByIDKey queryID) with
  | none =>
    .error (.Wrap .ErrInvalidQueryID ("query with ID " ++ toString queryID ++ " not found"))
  | some bz =>
    match k.cdc.UnmarshalQuery bz with
    | .error err =>
      .error (.Wrap .ErrProtoUnmarshal ("failed to unmarshal registered query: " ++ err))
    | .ok query => .ok query

/-- Embeds `Keeper.GetQueryResultByID` (keeper.go 177-192). -/
def GetQueryResultByID (k : Keeper) (store : KVStore) (id : Nat) : Except Error QueryResult :=
  match store.Get (k.types.GetRegisteredQueryResultByIDKey id) with
  | none => .error .ErrNoQueryResult
  | some bz =>
    match k.cdc.UnmarshalResult bz with
    | .error err =>
      .error (.Wrap .ErrProtoUnmarshal ("failed to unmarshal registered query: " ++ err))
    | .ok query => .ok query

/-- Embeds `clearQueryResult` (keeper.go 288-308): the result without proofs and
without block payload. -/
def clearQueryResult (result : QueryResult) : QueryResult :=
  let storageValues := result.KvResults.map fun v =>
    { StoragePrefix := v.StoragePrefix, Key := v.Key, Value := v.Value, Proof := none }
  { KvResults := storageValues, Block := none, Height := result.Height,
    Revision := result.Revision }

/-- Embeds `Keeper.saveKVQueryResult` (keeper.go 226-246). -/
def saveKVQueryResult (k : Keeper) (ctx : Context) (store : KVStore) (query : RegisteredQuery)
    (result : QueryResult) : Option Error × KVStore :=
  let cleanResult := clearQueryResult result
  match k.cdc.MarshalResult cleanResult with
  | .error err =>
    (some (.Wrap .ErrProtoMarshal ("failed to marshal result result: " ++ err)), store)
  | .ok bz =>
    let store := store.Set (k.types.GetRegisteredQueryResultByIDKey query.Id) bz
    let query := updateLastRemoteHeight query (NewHeight result.Revision result.Height)
    let query := updateLastLocalHeight query (uint64 ctx.BlockHeight)
    match SaveQuery k store query with
    | (some err, store) =>
      (some (.Wrap err ("failed to save query " ++ toString query.Id ++ ": " ++ err.Error)),
        store)
    | (none, store) => (none, store)

/-- Embeds `Keeper.SaveKVQueryResult` (keeper.go 148-158). -/
def SaveKVQueryResult (k : Keeper) (ctx : Context) (store : KVStore) (queryID : Nat)
    (result : QueryResult) : Option Error × KVStore :=
  match getRegisteredQueryByID k store queryID with
  | .error err => (some (.Wrap err "failed to get registered query"), store)
  | .ok query => saveKVQueryResult k ctx store query result

/-- Embeds `Keeper.UpdateLastLocalHeight` (keeper.go 199-208). -/
def UpdateLastLocalHeight (k : Keeper) (store : KVStore) (queryID : Nat)
    (newLocalHeight : Nat) : Option Error × KVStore :=
  match getRegisteredQueryByID k store queryID with
  | .error err => (some (.Wrap err "failed to get registered query"), store)
  | .ok query =>
    SaveQuery k store { query with LastSubmittedResultLocalHeight := newLocalHeight }

/-- Embeds `Keeper.UpdateLastRemoteHeight` (keeper.go 210-224). -/
def UpdateLastRemoteHeight (k : Keeper) (store : KVStore) (queryID : Nat)
    (newRemoteHeight : Height) : Option Error × KVStore :=
  match getRegisteredQueryByID k store queryID with
  | .error err => (some (.Wrap err "failed to get registered query"), store)
  | .ok query =>
    match checkLastRemoteHeight query newRemoteHeight with
    | some err => (some (.Wrap .ErrInvalidHeight err.Error), store)
    | none => SaveQuery k store (updateLastRemoteHeight query newRemoteHeight)

/-- The registry records are stored under their own ids: whatever
`GetQueryByID` returns for a `uint64` id carries that id.  `SaveQuery`, the only
writer of registry records, keeps it so. -/
def StoreConsistent (k : Keeper) (store : KVStore) : Prop :=
  ∀ id query, id < 2 ^ 64 → GetQueryByID k store id = .ok query → query.Id = id

/-! ## Panics -/

/-- How a Go call ends: it returns a value, or it panics with a message. -/
inductive Outcome (α : Type) where
  | returned (value : α)
  | panicked (message : String)
deriving DecidableEq, Repr

/-! ## Replay markers, removal, listing -/

/-- Modelled from the spec: `types.GetSubmittedTransactionIDForQueryKey`, the key
`submitted_tx/{id}/{tx_hash}` of the persisted layout; keeper.go documents it as
`SubmittedTxKey + bigEndianBytes(queryID) + tx_hash`. -/
def Types.GetSubmittedTransactionIDForQueryKey (types : Types) (queryID : Nat)
    (txHash : Bytes) : Bytes :=
  types.SubmittedTxKey ++ Uint64ToBigEndian queryID ++ txHash

/-- Neither byte string starts with the other. -/
def Incomparable (p q : Bytes) : Prop :=
  ¬ p <+: q ∧ ¬ q <+: p

/-- The four key prefixes of package `types` open four separate key spaces: no
prefix starts with another one. -/
def Types.PrefixFree (types : Types) : Prop :=
  Incomparable types.RegisteredQueryKey types.RegisteredQueryResultKey ∧
  Incomparable types.RegisteredQueryKey types.SubmittedTxKey ∧
  Incomparable types.RegisteredQueryKey types.LastRegisteredQueryIDKey ∧
  Incomparable types.RegisteredQueryResultKey types.SubmittedTxKey ∧
  Incomparable types.RegisteredQueryResultKey types.LastRegisteredQueryIDKey ∧
  Incomparable types.SubmittedTxKey types.LastRegisteredQueryIDKey

/-- Embeds `Keeper.SetLastRegisteredQueryKey` (keeper.go 81-84). -/
def SetLastRegisteredQueryKey (k : Keeper) (store : KVStore) (id : Nat) : KVStore :=
  store.Set k.types.LastRegisteredQueryIDKey (Uint64ToBigEndian id)

/-- Embeds `Keeper.RemoveQueryByID` (keeper.go 143-146). -/
def RemoveQueryByID (k : Keeper) (store : KVStore) (id : Nat) : KVStore :=
  store.Delete (k.types.GetRegisteredQueryByIDKey id)

/-- Embeds `Keeper.removeQueryResultByID` (keeper.go 194-197). -/
def removeQueryResultByID (k : Keeper) (store : KVStore) (id : Nat) : KVStore :=
  store.Delete (k.types.GetRegisteredQueryResultByIDKey id)

/-- Embeds `Keeper.SaveTransactionAsProcessed` (keeper.go 160-168). -/
def SaveTransactionAsProcessed (k : Keeper) (store : KVStore) (queryID : Nat)
    (txHash : Bytes) : KVStore :=
  let key := k.types.GetSubmittedTransactionIDForQueryKey queryID txHash
  store.Set key []

/-- Embeds `Keeper.CheckTransactionIsAlreadyProcessed` (keeper.go 170-175). -/
def CheckTransactionIsAlreadyProcessed (k : Keeper) (store : KVStore) (queryID : Nat)
    (txHash : Bytes) : Bool :=
  let key := k.types.GetSubmittedTransactionIDForQueryKey queryID txHash
  store.Has key

/-- The iterator of `prefix.NewStore(store, pre)` over all its keys: the entries
of the store whose key starts with `pre`, in ascending key order, the key
without `pre`. -/
def KVStore.PrefixIterator (store : KVStore) (pre : Bytes) : List (Bytes × Bytes) :=
  (store.filter fun kv => pre.isPrefixOf kv.1).map fun kv => (kv.1.drop pre.length, kv.2)

/-- The loop of `GetAllRegisteredQueries`: `MustUnmarshal` of each value, which
panics on the first value that does not decode. -/
def unmarshalQueries (k : Keeper) : List (Bytes × Bytes) → Outcome (List RegisteredQuery)
  | [] => .returned []
  | (_, value) :: rest =>
    match k.cdc.UnmarshalQuery value with
    | .error err => .panicked err
    | .ok query =>
      match unmarshalQueries k rest with
      | .panicked message => .panicked message
      | .returned queries => .returned (query :: queries)

/-- Embeds `Keeper.GetAllRegisteredQueries` (keeper.go 124-141). -/
def GetAllRegisteredQueries (k : Keeper) (store : KVStore) : Outcome (List RegisteredQuery) :=
  unmarshalQueries k (store.PrefixIterator k.types.RegisteredQueryKey)

/-! ## Client resolution -/

/-- The Tendermint light-client state (`tendermintLightClientTypes.ClientState`),
by the fields that identify it. -/
structure TendermintClientState where
  ChainId : String
  LatestHeight : Height
deriving DecidableEq, Repr

/-- A value of the interface `exported.ClientState`: a Tendermint client state or
a client state of another type. -/
inductive ClientState where
  | Tendermint (state : TendermintClientState)
  | Other (clientType : String)
deriving DecidableEq, Repr

/-- Embeds `Keeper.GetClientState` (keeper.go 316-328).  `clientKeeper` is
`k.ibcKeeper.ClientKeeper.GetClientState`: `none` is its `found = false`. -/
def GetClientState (clientKeeper : String → Option ClientState) (clientID : String) :
    Except Error TendermintClientState :=
  match clientKeeper clientID with
  | none =>
    .error (.Wrap .ErrInvalidClientID
      ("could not find a ClientState with client id: " ++ clientID))
  | some clientStateResponse =>
    match clientStateResponse with
    | .Tendermint clientState => .ok clientState
    | .Other _ =>
      .error (.Wrap .ErrInvalidClientType
        "cannot cast ClientState interface into ClientState type")

/-! ## Deposits -/

/-- An `sdk.AccAddress`. -/
abbrev AccAddress := Bytes

/-- The part of `types.BankKeeper` the keeper uses, over a bank state `σ`: each
transfer returns its error and the bank state it leaves.  The bank is a
dependency injected into the keeper, hence a parameter. -/
structure BankKeeper (σ : Type) where
  SendCoinsFromAccountToModule : σ → AccAddress → String → List Coin → Option Error × σ
  SendCoinsFromModuleToAccount : σ → String → AccAddress → List Coin → Option Error × σ

/-- The name `types.ModuleName` of the module, whose account holds the
deposits.  The constant is declared outside the keeper package; the keeper uses
it only to name that one module account. -/
def ModuleName : String := "interchainqueries"

/-- Modelled from the spec: the method `GetOwnerAddress` of
`types.RegisteredQuery`, declared outside the keeper package: the owner string
decoded into an address by the SDK decoder `AccAddressFromBech32`, which is a
parameter. -/
def RegisteredQuery.GetOwnerAddress (AccAddressFromBech32 : String → Except Error AccAddress)
    (query : RegisteredQuery) : Except Error AccAddress :=
  AccAddressFromBech32 query.Owner

/-- Embeds `Keeper.CollectDeposit` (keeper.go 330-342). -/
def CollectDeposit {σ : Type} (bank : BankKeeper σ)
    (AccAddressFromBech32 : String → Except Error AccAddress) (state : σ)
    (queryInfo : RegisteredQuery) : Outcome (Option Error) × σ :=
  match queryInfo.GetOwnerAddress AccAddressFromBech32 with
  | .error err => (.panicked err.Error, state)
  | .ok owner =>
    match bank.SendCoinsFromAccountToModule state owner ModuleName queryInfo.Deposit with
    | (some err, state) => (.returned (some err), state)
    | (none, state) => (.returned none, state)

/-- Embeds `Keeper.MustPayOutDeposit` (keeper.go 344-349). -/
def MustPayOutDeposit {σ : Type} (bank : BankKeeper σ) (state : σ) (deposit : List Coin)
    (sender : AccAddress) : Outcome Unit × σ :=
  match bank.SendCoinsFromModuleToAccount state ModuleName sender deposit with
  | (some err, state) => (.panicked err.Error, state)
  | (none, state) => (.returned (), state)

/-! ## A bank ledger

The bank is outside the repository.  The deposit round trip is stated over
this ledger, in which a transfer moves exactly the given coins or fails with
`ErrInsufficientFunds` and moves nothing. -/

/-- Bank balances: the amount held by each address in each denom. -/
abbrev Ledger := AccAddress → String → Nat

/-- Add one coin to the balance of `addr`. -/
def Ledger.credit (ledger : Ledger) (addr : AccAddress) (c : Coin) : Ledger :=
  fun a d => if a = addr ∧ d = c.Denom then ledger a d + c.Amount else ledger a d

/-- Take one coin from the balance of `addr`; the balance must cover it. -/
def Ledger.debit (ledger : Ledger) (addr : AccAddress) (c : Coin) : Ledger :=
  fun a d => if a = addr ∧ d = c.Denom then ledger a d - c.Amount else ledger a d

/-- Add the coins to the balance of `addr`, one after the other. -/
def Ledger.addCoins (ledger : Ledger) (addr : AccAddress) : List Coin → Ledger
  | [] => ledger
  | c :: rest => Ledger.addCoins (ledger.credit addr c) addr rest

/-- Take the coins from the balance of `addr`, one after the other; `none` when
the balance does not cover one of them. -/
def Ledger.subCoins (ledger : Ledger) (addr : AccAddress) : List Coin → Option Ledger
  | [] => some ledger
  | c :: rest =>
    if c.Amount ≤ ledger addr c.Denom then Ledger.subCoins (ledger.debit addr c) addr rest
    else none

/-- Move the coins from one address to another, or fail and move nothing. -/
def Ledger.SendCoins (ledger : Ledger) (fromAddr toAddr : AccAddress) (amt : List Coin) :
    Option Error × Ledger :=
  match ledger.subCoins fromAddr amt with
  | none => (some .ErrInsufficientFunds, ledger)
  | some debited => (none, debited.addCoins toAddr amt)

/-- The bank over the ledger; `moduleAddress` gives the address of a module
account. -/
def Ledger.bank (moduleAddress : String → AccAddress) : BankKeeper Ledger where
  SendCoinsFromAccountToModule ledger senderAddr recipientModule amt :=
    ledger.SendCoins senderAddr (moduleAddress recipientModule) amt
  SendCoinsFromModuleToAccount ledger senderModule recipientAddr amt :=
    ledger.SendCoins (moduleAddress senderModule) recipientAddr amt

/-- The total amount of `denom` in a list of coins. -/
def totalOf (coins : List Coin) (denom : String) : Nat :=
  ((coins.filter fun c => c.Denom = denom).map fun c => c.Amount).sum

/-- The query as `SaveQuery` encodes it: a missing remote height is replaced by
the default `NewHeight 1 1`, a present one is kept. -/
def RegisteredQuery.withSentinel (query : RegisteredQuery) : RegisteredQuery :=
  { query with
    LastSubmittedResultRemoteHeight :=
      some (match query.LastSubmittedResultRemoteHeight with
        | none => NewHeight 1 1
        | some height => height) }

/-! ## Sequences of keeper calls -/

/-- The calls of keeper.go that write to the store, with their arguments. -/
inductive KeeperCall where
  | SetLastRegisteredQueryKey (id : Nat)
  | SaveQuery (query : RegisteredQuery)
  | RemoveQueryByID (id : Nat)
  | SaveKVQueryResult (ctx : Context) (queryID : Nat) (result : QueryResult)
  | SaveTransactionAsProcessed (queryID : Nat) (txHash : Bytes)
  | removeQueryResultByID (id : Nat)
  | UpdateLastLocalHeight (queryID : Nat) (newLocalHeight : Nat)
  | UpdateLastRemoteHeight (queryID : Nat) (newRemoteHeight : Height)
  | saveKVQueryResult (ctx : Context) (query : RegisteredQuery) (result : QueryResult)

/-- The store a call leaves. -/
def KeeperCall.run (k : Keeper) (store : KVStore) : KeeperCall → KVStore
  | .SetLastRegisteredQueryKey id => Neutron.SetLastRegisteredQueryKey k store id
  | .SaveQuery query => (Neutron.SaveQuery k store query).2
  | .RemoveQueryByID id => Neutron.RemoveQueryByID k store id
  | .SaveKVQueryResult ctx queryID result =>
    (Neutron.SaveKVQueryResult k ctx store queryID result).2
  | .SaveTransactionAsProcessed queryID txHash =>
    Neutron.SaveTransactionAsProcessed k store queryID txHash
  | .removeQueryResultByID id => Neutron.removeQueryResultByID k store id
  | .UpdateLastLocalHeight queryID newLocalHeight =>
    (Neutron.UpdateLastLocalHeight k store queryID newLocalHeight).2
  | .UpdateLastRemoteHeight queryID newRemoteHeight =>
    (Neutron.UpdateLastRemoteHeight k store queryID newRemoteHeight).2
  | .saveKVQueryResult ctx query result =>
    (Neutron.saveKVQueryResult k ctx store query result).2

/-- The id of a query handed to a call is a `uint64`. -/
def KeeperCall.WellTyped : KeeperCall → Prop
  | .SaveQuery query => query.Id < 2 ^ 64
  | .saveKVQueryResult _ query _ => query.Id < 2 ^ 64
  | _ => True

/-- The stores the keeper can build: the empty store, and the store any call
leaves when run on such a store. -/
inductive Reachable (k : Keeper) : KVStore → Prop where
  | empty : Reachable k []
  | step {store : KVStore} (call : KeeperCall) :
    Reachable k store → call.WellTyped → Reachable k (call.run k store)

/-- The keys of the store are strictly ascending, and every entry in the key
space of the registry is a registry record: its key is the key of a `uint64`
id, and its value decodes to a query with that id and with a remote height. -/
def StoreInv (k : Keeper) (store : KVStore) : Prop :=
  (store.map Prod.fst).Pairwise (· < ·) ∧
  ∀ key bz, (key, bz) ∈ store → k.types.RegisteredQueryKey <+: key →
    ∃ query, key = k.types.GetRegisteredQueryByIDKey query.Id ∧ query.Id < 2 ^ 64 ∧
      k.cdc.UnmarshalQuery bz = .ok query ∧ query.LastSubmittedResultRemoteHeight ≠ none

/-! ## Removal through the message server -/

/-- The request `icqtypes.MsgRemoveInterchainQueryRequest`. -/
structure MsgRemoveInterchainQueryRequest where
  QueryId : Nat
  Sender : String
deriving DecidableEq, Repr

/-- The binding message `bindings.RemoveInterchainQuery`. -/
structure BindingRemoveInterchainQuery where
  QueryId : Nat
deriving DecidableEq, Repr

/-- The part of the ICQ message server the removal binding calls, over a chain
state `σ`.  The response of a removal carries no data. -/
structure IcqMsgServer (σ : Type) where
  RemoveInterchainQuery : σ → MsgRemoveInterchainQueryRequest → Outcome (Except Error Unit) × σ

/-- The `CustomMessenger` of the wasm binding, by the message server it
holds. -/
structure CustomMessenger (σ : Type) where
  Icqmsgserver : IcqMsgServer σ

/-- Embeds `CustomMessenger.performRemoveInterchainQuery` (message_plugin.go
362-378).  `ValidateBasic` is the method of the request type and `addrString` is
`contractAddr.String()`; both are declared outside the two packages. -/
def performRemoveInterchainQuery {σ : Type} (m : CustomMessenger σ)
    (ValidateBasic : MsgRemoveInterchainQueryRequest → Option Error)
    (addrString : AccAddress → String) (state : σ) (contractAddr : AccAddress)
    (updateQuery : BindingRemoveInterchainQuery) : Outcome (Except Error Unit) × σ :=
  let msg : MsgRemoveInterchainQueryRequest :=
    { QueryId := updateQuery.QueryId, Sender := addrString contractAddr }
  match ValidateBasic msg with
  | some err =>
    (.returned (.error (.Wrap err "failed to validate incoming RemoveInterchainQuery message")),
      state)
  | none =>
    match m.Icqmsgserver.RemoveInterchainQuery state msg with
    | (.panicked message, state) => (.panicked message, state)
    | (.returned (.error err), state) =>
      (.returned (.error (.Wrap err "failed to remove interchain query")), state)
    | (.returned (.ok response), state) => (.returned (.ok response), state)

/-- Modelled from the spec: the message server's `RemoveInterchainQuery`, which
is not among the sources (only its caller `performRemoveInterchainQuery` is).
Section 4.1, `Remove(id, owner|admin)`: fails with `NotFound` if the query is
absent and with `Unauthorized` if the caller is neither the owner nor an admin;
refunds the deposit to the current owner; deletes the `RegisteredQuery` and the
`QueryResult`, leaving the replay markers behind (section 4.3).  The lookup,
the refund and the deletions are the keeper's `GetQueryByID`,
`MustPayOutDeposit`, `RemoveQueryByID` and `removeQueryResultByID`. -/
def msgServerRemoveInterchainQuery {σ : Type} (k : Keeper) (bank : BankKeeper σ)
    (AccAddressFromBech32 : String → Except Error AccAddress) (isAdmin : String → Bool)
    (state : KVStore × σ) (msg : MsgRemoveInterchainQueryRequest) :
    Outcome (Except Error Unit) × (KVStore × σ) :=
  match GetQueryByID k state.1 msg.QueryId with
  | .error err => (.returned (.error err), state)
  | .ok query =>
    if msg.Sender ≠ query.Owner ∧ isAdmin msg.Sender = false then
      (.returned (.error .ErrUnauthorized), state)
    else
      match query.GetOwnerAddress AccAddressFromBech32 with
      | .error err => (.returned (.error err), state)
      | .ok owner =>
        match MustPayOutDeposit bank state.2 query.Deposit owner with
        | (.panicked message, ledger) => (.panicked message, (state.1, ledger))
        | (.returned _, ledger) =>
          let store := RemoveQueryByID k state.1 msg.QueryId
          let store := removeQueryResultByID k store msg.QueryId
          (.returned (.ok ()), (store, ledger))

/-- The message server over the keeper, as the wasm binding holds it. -/
def specMsgServer {σ : Type} (k : Keeper) (bank : BankKeeper σ)
    (AccAddressFromBech32 : String → Except Error AccAddress) (isAdmin : String → Bool) :
    IcqMsgServer (KVStore × σ) where
  RemoveInterchainQuery := msgServerRemoveInterchainQuery k bank AccAddressFromBech32 isAdmin

/-! ## The wasm binding: messages

The message types of the binding are declared in packages that are not among
the sources; each is modelled with the fields message_plugin.go reads or
writes.  A message-server response is kept as its content. -/

/-- The content of a message-server response. -/
abbrev Response := Bytes

/-- An `sdk.Event`, by its content. -/
abbrev Event := Bytes

/-- An `sdk.Coin` with a `math.Int` amount. -/
structure TokenCoin where
  Denom : String
  Amount : Int
deriving DecidableEq, Repr

/-- The message `bindings.ProtobufAny`. -/
structure ProtobufAny where
  TypeURL : String
  Value : Bytes
deriving DecidableEq, Repr

/-- The protobuf `types.Any`; an `sdk.Msg` is kept as the `Any` that packs
it. -/
structure Any where
  TypeUrl : String
  Value : Bytes
deriving DecidableEq, Repr

/-- The fee of the fee-refunder module. -/
structure Fee where
  RecvFee : List Coin
  AckFee : List Coin
  TimeoutFee : List Coin
deriving DecidableEq, Repr

/-- The binding message `bindings.SubmitTx`. -/
structure BindingSubmitTx where
  ConnectionId : String
  InterchainAccountId : String
  Msgs : List ProtobufAny
  Memo : String
  Timeout : Nat
  Fee : Fee
deriving DecidableEq, Repr

/-- The request `ictxtypes.MsgSubmitTx`. -/
structure MsgSubmitTx where
  FromAddress : String
  InterchainAccountId : String
  ConnectionId : String
  Msgs : List Any
  Memo : String
  Timeout : Nat
  Fee : Fee
deriving DecidableEq, Repr

/-- The binding message `bindings.RegisterInterchainAccount`; `RegisterFee` is
a slice that can be nil. -/
structure BindingRegisterInterchainAccount where
  ConnectionId : String
  InterchainAccountId : String
  RegisterFee : Option (List Coin)
deriving DecidableEq, Repr

/-- The request `ictxtypes.MsgRegisterInterchainAccount`. -/
structure MsgRegisterInterchainAccount where
  FromAddress : String
  ConnectionId : String
  InterchainAccountId : String
  RegisterFee : List Coin
deriving DecidableEq, Repr

/-- The binding message `bindings.RegisterInterchainQuery`. -/
structure BindingRegisterInterchainQuery where
  QueryType : String
  Keys : List KVKey
  TransactionsFilter : String
  ConnectionId : String
  UpdatePeriod : Nat
deriving DecidableEq, Repr

/-- The request `icqtypes.MsgRegisterInterchainQuery`. -/
structure MsgRegisterInterchainQuery where
  QueryType : String
  Keys : List KVKey
  TransactionsFilter : String
  ConnectionId : String
  UpdatePeriod : Nat
  Sender : String
deriving DecidableEq, Repr

/-- The binding message `bindings.UpdateInterchainQuery`. -/
structure BindingUpdateInterchainQuery where
  QueryId : Nat
  NewKeys : List KVKey
  NewUpdatePeriod : Nat
  NewTransactionsFilter : String
deriving DecidableEq, Repr

/-- The request `icqtypes.MsgUpdateInterchainQueryRequest`. -/
structure MsgUpdateInterchainQueryRequest where
  QueryId : Nat
  NewKeys : List KVKey
  NewUpdatePeriod : Nat
  NewTransactionsFilter : String
  Sender : String
deriving DecidableEq, Repr

/-- The request `transferwrappertypes.MsgTransfer`, which is also the binding
message. -/
structure MsgTransfer where
  SourcePort : String
  SourceChannel : String
  Token : TokenCoin
  Sender : String
  Receiver : String
  TimeoutHeight : Height
  TimeoutTimestamp : Nat
  Memo : String
  Fee : Fee
deriving DecidableEq, Repr

/-- A parameter change of a `ParamChangeProposal`. -/
structure ParamChange where
  Subspace : String
  Key : String
  Value : String
deriving DecidableEq, Repr

/-- The binding message `bindings.ParamChangeProposal`. -/
structure ParamChangeProposal where
  Title : String
  Description : String
  ParamChanges : List ParamChange
deriving DecidableEq, Repr

/-- The upgrade plan of an `UpgradeProposal`. -/
structure Plan where
  Name : String
  Height : Int
  Info : String
deriving DecidableEq, Repr

/-- The binding message `bindings.UpgradeProposal`. -/
structure UpgradeProposal where
  Title : String
  Description : String
  Plan : Plan
  UpgradedClientState : Option Any
deriving DecidableEq, Repr

/-- The binding message `bindings.ClientUpdateProposal`. -/
structure ClientUpdateProposal where
  Title : String
  Description : String
  SubjectClientId : String
  SubstituteClientId : String
deriving DecidableEq, Repr

/-- The binding message `bindings.ProposalExecuteMessage`. -/
structure ProposalExecuteMessage where
  Message : String
deriving DecidableEq, Repr

/-- The binding message `bindings.AdminProposal`: four pointers. -/
structure AdminProposal where
  ParamChangeProposal : Option ParamChangeProposal
  UpgradeProposal : Option UpgradeProposal
  ClientUpdateProposal : Option ClientUpdateProposal
  ProposalExecuteMessage : Option ProposalExecuteMessage
deriving DecidableEq, Repr

/-- The content handed to `MsgSubmitProposalLegacy.SetContent`: one of the three
legacy proposal types, with the fields the binding fills. -/
inductive LegacyContent where
  | ParameterChangeProposal (Title Description : String) (Changes : List ParamChange)
  | UpgradeProposal (Title Description : String) (Plan : Plan)
    (UpgradedClientState : Option Any)
  | ClientUpdateProposal (Title Description SubjectClientId SubstituteClientId : String)
deriving DecidableEq, Repr

/-- The request `admintypes.MsgSubmitProposalLegacy`. -/
structure MsgSubmitProposalLegacy where
  Content : Option LegacyContent
  Proposer : String
deriving DecidableEq, Repr

/-- The request `admintypes.MsgSubmitProposal`. -/
structure MsgSubmitProposal where
  Messages : List Any
  Proposer : String
deriving DecidableEq, Repr

/-- The binding message `bindings.CreateDenom`. -/
structure BindingCreateDenom where
  Subdenom : String
deriving DecidableEq, Repr

/-- The binding message `bindings.MintTokens`. -/
structure BindingMintTokens where
  Denom : String
  Amount : Int
  MintToAddress : String
deriving DecidableEq, Repr

/-- The binding message `bindings.SetBeforeSendHook`. -/
structure BindingSetBeforeSendHook where
  Denom : String
  ContractAddr : String
deriving DecidableEq, Repr

/-- The binding message `bindings.ChangeAdmin`. -/
structure BindingChangeAdmin where
  Denom : String
  NewAdminAddress : String
deriving DecidableEq, Repr

/-- The binding message `bindings.BurnTokens`. -/
structure BindingBurnTokens where
  Denom : String
  Amount : Int
  BurnFromAddress : String
deriving DecidableEq, Repr

/-- The request `tokenfactorytypes.MsgCreateDenom`. -/
structure MsgCreateDenom where
  Sender : String
  Subdenom : String
deriving DecidableEq, Repr

/-- The request `tokenfactorytypes.MsgMint`. -/
structure MsgMint where
  Sender : String
  Amount : TokenCoin
deriving DecidableEq, Repr

/-- The request `tokenfactorytypes.MsgSetBeforeSendHook`. -/
structure MsgSetBeforeSendHook where
  Sender : String
  Denom : String
  ContractAddr : String
deriving DecidableEq, Repr

/-- The request `tokenfactorytypes.MsgChangeAdmin`. -/
structure MsgChangeAdmin where
  Sender : String
  Denom : String
  NewAdmin : String
deriving DecidableEq, Repr

/-- The request `tokenfactorytypes.MsgBurn`. -/
structure MsgBurn where
  Sender : String
  Amount : TokenCoin
deriving DecidableEq, Repr

/-- A contract call of a schedule: `bindings.MsgExecuteContract` and
`crontypes.MsgExecuteContract` have the same two fields. -/
structure MsgExecuteContract where
  Contract : String
  Msg : String
deriving DecidableEq, Repr

/-- The binding message `bindings.AddSchedule`. -/
structure BindingAddSchedule where
  Name : String
  Period : Nat
  Msgs : List MsgExecuteContract
deriving DecidableEq, Repr

/-- The binding message `bindings.RemoveSchedule`. -/
structure BindingRemoveSchedule where
  Name : String
deriving DecidableEq, Repr

/-- The binding message `bindings.ResubmitFailure`. -/
structure BindingResubmitFailure where
  FailureId : Nat
deriving DecidableEq, Repr

/-- The response `bindings.AddScheduleResponse`, which has no field. -/
structure AddScheduleResponse where
deriving DecidableEq, Repr

/-- The response `bindings.RemoveScheduleResponse`, which has no field. -/
structure RemoveScheduleResponse where
deriving DecidableEq, Repr

/-- The response `bindings.ResubmitFailureResponse`. -/
structure ResubmitFailureResponse where
  FailureId : Nat
deriving DecidableEq, Repr

/-- A failure record of the contract manager. -/
structure Failure where
  Id : Nat
  Content : Bytes
deriving DecidableEq, Repr

/-- The parameters of the cron module, by the field the binding reads. -/
structure CronParams where
  SecurityAddress : String
deriving DecidableEq, Repr

/-- The dex requests `MsgDeposit`, `MsgWithdrawal`, `MsgCancelLimitOrder`,
`MsgWithdrawFilledLimitOrder` and `MsgMultiHopSwap`, which a contract sends as
they are: the creator, and the other fields, which the binding does not
touch. -/
structure DexMsg where
  Creator : String
  Fields : Bytes
deriving DecidableEq, Repr

/-- The binding message `bindings.MsgPlaceLimitOrder`; `ExpirationTime` and
`MaxAmountOut` are pointers. -/
structure BindingPlaceLimitOrder where
  Creator : String
  Receiver : String
  TokenIn : String
  TokenOut : String
  TickIndexInToOut : Int
  AmountIn : Int
  OrderType : String
  ExpirationTime : Option Nat
  MaxAmountOut : Option Int
deriving DecidableEq, Repr

/-- The request `dextypes.MsgPlaceLimitOrder`; the expiration time is a
`time.Time`, kept as its Unix seconds. -/
structure MsgPlaceLimitOrder where
  Creator : String
  Receiver : String
  TokenIn : String
  TokenOut : String
  TickIndexInToOut : Int
  AmountIn : Int
  OrderType : Int
  ExpirationTime : Option Int
  MaxAmountOut : Option Int
deriving DecidableEq, Repr

/-- The binding message `bindings.Dex`: six pointers. -/
structure BindingDex where
  Deposit : Option DexMsg
  Withdrawal : Option DexMsg
  PlaceLimitOrder : Option BindingPlaceLimitOrder
  CancelLimitOrder : Option DexMsg
  WithdrawFilledLimitOrder : Option DexMsg
  MultiHopSwap : Option DexMsg
deriving DecidableEq, Repr

/-- The binding message `bindings.SubmitAdminProposal`. -/
structure BindingSubmitAdminProposal where
  AdminProposal : AdminProposal
deriving DecidableEq, Repr

/-- The message `bindings.NeutronMsg`: sixteen pointers, in the order
`DispatchMsg` tests them. -/
structure NeutronMsg where
  SubmitTx : Option BindingSubmitTx
  RegisterInterchainAccount : Option BindingRegisterInterchainAccount
  RegisterInterchainQuery : Option BindingRegisterInterchainQuery
  UpdateInterchainQuery : Option BindingUpdateInterchainQuery
  RemoveInterchainQuery : Option BindingRemoveInterchainQuery
  IBCTransfer : Option MsgTransfer
  SubmitAdminProposal : Option BindingSubmitAdminProposal
  CreateDenom : Option BindingCreateDenom
  MintTokens : Option BindingMintTokens
  SetBeforeSendHook : Option BindingSetBeforeSendHook
  ChangeAdmin : Option BindingChangeAdmin
  BurnTokens : Option BindingBurnTokens
  AddSchedule : Option BindingAddSchedule
  RemoveSchedule : Option BindingRemoveSchedule
  ResubmitFailure : Option BindingResubmitFailure
  Dex : Option BindingDex
deriving DecidableEq, Repr

/-- The message `wasmvmtypes.CosmosMsg`: the custom payload, which can be nil,
and the other variants, which the binding hands on as they are. -/
structure CosmosMsg where
  Custom : Option Bytes
  Other : Bytes
deriving DecidableEq, Repr

/-- The three results of a dispatch: events, data and error. -/
structure DispatchResult where
  events : List Event
  data : List Bytes
  err : Option Error
deriving DecidableEq, Repr

/-! ## The wasm binding: collaborators -/

/-- The ICQ message server, with the two methods the register and update
bindings call. -/
structure IcqMsgServerAll (σ : Type) extends IcqMsgServer σ where
  RegisterInterchainQuery : σ → MsgRegisterInterchainQuery → Except Error Response × σ
  UpdateInterchainQuery : σ → MsgUpdateInterchainQueryRequest → Except Error Response × σ

/-- The interchain-transactions message server. -/
structure IctxMsgServer (σ : Type) where
  SubmitTx : σ → MsgSubmitTx → Except Error Response × σ
  RegisterInterchainAccount : σ → MsgRegisterInterchainAccount → Except Error Response × σ

/-- The admin-module message server. -/
structure AdminMsgServer (σ : Type) where
  SubmitProposalLegacy : σ → MsgSubmitProposalLegacy → Except Error Response × σ
  SubmitProposal : σ → MsgSubmitProposal → Except Error Response × σ

/-- The message server `tokenfactorykeeper.NewMsgServerImpl` builds from the
token-factory keeper. -/
structure TokenFactoryMsgServer (σ : Type) where
  CreateDenom : σ → MsgCreateDenom → Except Error Response × σ
  Mint : σ → MsgMint → Except Error Response × σ
  SetBeforeSendHook : σ → MsgSetBeforeSendHook → Except Error Response × σ
  ChangeAdmin : σ → MsgChangeAdmin → Except Error Response × σ
  Burn : σ → MsgBurn → Except Error Response × σ

/-- The cron keeper. -/
structure CronKeeper (σ : Type) where
  AddSchedule : σ → String → Nat → List MsgExecuteContract → Option Error × σ
  RemoveSchedule : σ → String → σ
  GetParams : σ → CronParams

/-- The admin-module keeper; `UnmarshalInterfaceJSON` is the method of its
codec, which takes the text of the message. -/
structure AdminKeeper (σ : Type) where
  GetAdmins : σ → List String
  UnmarshalInterfaceJSON : String → Except Error Any

/-- The contract-manager keeper. -/
structure ContractManagerKeeper (σ : Type) where
  GetFailure : σ → AccAddress → Nat → Except Error Failure
  ResubmitFailure : σ → AccAddress → Failure → Option Error × σ

/-- The dex message server. -/
structure DexMsgServer (σ : Type) where
  Deposit : σ → DexMsg → Except Error Response × σ
  Withdrawal : σ → DexMsg → Except Error Response × σ
  PlaceLimitOrder : σ → MsgPlaceLimitOrder → Except Error Response × σ
  CancelLimitOrder : σ → DexMsg → Except Error Response × σ
  WithdrawFilledLimitOrder : σ → DexMsg → Except Error Response × σ
  MultiHopSwap : σ → DexMsg → Except Error Response × σ

/-- The `CustomMessenger` with all its collaborators, over a chain state `σ`:
the wrapped messenger, the message servers and the keepers.  Each call returns
its Go results and the chain state it leaves. -/
structure Messenger (σ : Type) where
  Wrapped : σ → AccAddress → String → CosmosMsg → DispatchResult × σ
  Ictxmsgserver : IctxMsgServer σ
  Icqmsgserver : IcqMsgServerAll σ
  transferKeeper : σ → MsgTransfer → Except Error Response × σ
  Adminserver : AdminMsgServer σ
  Bank : σ → AccAddress → AccAddress → List TokenCoin → Option Error × σ
  TokenFactory : TokenFactoryMsgServer σ
  CronKeeper : CronKeeper σ
  AdminKeeper : AdminKeeper σ
  ContractmanagerKeeper : ContractManagerKeeper σ
  DexMsgServer : DexMsgServer σ

/-- The functions of the SDK and of the message packages that the binding
calls: address rendering and parsing, JSON coding, `ValidateBasic` of each
request type, and the constructors of requests.  They are declared outside the
package, hence parameters. -/
structure Externals where
  addrString : AccAddress → String
  AccAddressFromBech32 : String → Except Error AccAddress
  VerifyAddressFormat : AccAddress → Option Error
  jsonUnmarshal : Bytes → Except Error NeutronMsg
  jsonMarshal : (α : Type) → α → Except Error Bytes
  NewModuleAddress : String → AccAddress
  AdminModuleName : String
  GetSigners : Any → List AccAddress
  SetContent : MsgSubmitProposalLegacy → LegacyContent → Except Error MsgSubmitProposalLegacy
  NewMsgSubmitProposal : List Any → AccAddress → Except Error MsgSubmitProposal
  NewMsgCreateDenom : String → String → MsgCreateDenom
  NewMsgMint : String → TokenCoin → MsgMint
  NewMsgSetBeforeSendHook : String → String → String → MsgSetBeforeSendHook
  NewMsgChangeAdmin : String → String → String → MsgChangeAdmin
  NewMsgBurn : String → TokenCoin → MsgBurn
  NewCoins : TokenCoin → List TokenCoin
  LimitOrderType_value : String → Option Int
  LimitOrderTypeNames : String
  ValidateBasicSubmitTx : MsgSubmitTx → Option Error
  ValidateBasicRegisterInterchainAccount : MsgRegisterInterchainAccount → Option Error
  ValidateBasicRegisterInterchainQuery : MsgRegisterInterchainQuery → Option Error
  ValidateBasicUpdateInterchainQuery : MsgUpdateInterchainQueryRequest → Option Error
  ValidateBasicRemoveInterchainQuery : MsgRemoveInterchainQueryRequest → Option Error
  ValidateBasicTransfer : MsgTransfer → Option Error
  ValidateBasicSubmitProposalLegacy : MsgSubmitProposalLegacy → Option Error
  ValidateBasicSubmitProposal : MsgSubmitProposal → Option Error
  ValidateBasicCreateDenom : MsgCreateDenom → Option Error
  ValidateBasicMint : MsgMint → Option Error
  ValidateBasicSetBeforeSendHook : MsgSetBeforeSendHook → Option Error
  ValidateBasicChangeAdmin : MsgChangeAdmin → Option Error
  ValidateBasicBurn : MsgBurn → Option Error
  ValidateBasicDeposit : DexMsg → Option Error
  ValidateBasicWithdrawal : DexMsg → Option Error
  ValidateBasicPlaceLimitOrder : MsgPlaceLimitOrder → Option Error
  ValidateBasicCancelLimitOrder : DexMsg → Option Error
  ValidateBasicWithdrawFilledLimitOrder : DexMsg → Option Error
  ValidateBasicMultiHopSwap : DexMsg → Option Error

/-! ## The wasm binding: handlers

Embeds message_plugin.go.  A handler takes the chain state and returns its Go
results with the chain state it leaves; the calls to the logger are left out.
`%T` in an error text is written as the type name it prints. -/

/-- The conversion `int64(v)` of a `uint64`. -/
def toInt64 (v : Nat) : Int :=
  if v % 2 ^ 64 < 2 ^ 63 then ((v % 2 ^ 64 : Nat) : Int) else ((v % 2 ^ 64 : Nat) : Int) - 2 ^ 64

/-- The `CustomMessenger` of the removal binding inside the full one. -/
def Messenger.toCustomMessenger {σ : Type} (m : Messenger σ) : CustomMessenger σ :=
  { Icqmsgserver := m.Icqmsgserver.toIcqMsgServer }

/-- A result of a handler that returns, as the outcome of a call that could
have panicked. -/
def Outcome.ofResult {σ α : Type} (r : α × σ) : Outcome α × σ :=
  (.returned r.1, r.2)

/-- Embeds `handleDexMsg` (message_plugin.go 170-200).  `ValidateBasic` is the
method of the request type; `typeName` and `respName` are what `%T` prints for
the request and for the response. -/
def handleDexMsg {σ T : Type} (x : Externals) (ValidateBasic : T → Option Error)
    (typeName respName : String) (state : σ) (msg : T)
    (handler : σ → T → Except Error Response × σ) : Except Error (List Bytes) × σ :=
  match ValidateBasic msg with
  | some err => (.error (.Wrap err ("failed to validate " ++ typeName)), state)
  | none =>
    match handler state msg with
    | (.error err, state) => (.error (.Wrap err ("failed to execute " ++ typeName)), state)
    | (.ok resp, state) =>
      match x.jsonMarshal Response resp with
      | .error err => (.error (.Wrap err ("marshal " ++ respName ++ " failed")), state)
      | .ok data => (.ok [data], state)

/-- Embeds `CustomMessenger.dispatchDexMsg` (message_plugin.go 202-249): the
first non-nil field of the binding decides; the creator of the request is set to
the contract address.  The names of the order types in the error text come from
a Go map, hence a parameter. -/
def dispatchDexMsg {σ : Type} (m : Messenger σ) (x : Externals) (state : σ)
    (contractAddr : AccAddress) (dex : BindingDex) : Except Error (List Bytes) × σ :=
  if let some deposit := dex.Deposit then
    handleDexMsg x x.ValidateBasicDeposit "*types.MsgDeposit" "*types.MsgDepositResponse" state
      { deposit with Creator := x.addrString contractAddr } m.DexMsgServer.Deposit
  else if let some withdrawal := dex.Withdrawal then
    handleDexMsg x x.ValidateBasicWithdrawal "*types.MsgWithdrawal"
      "*types.MsgWithdrawalResponse" state
      { withdrawal with Creator := x.addrString contractAddr } m.DexMsgServer.Withdrawal
  else if let some place := dex.PlaceLimitOrder then
    let msg : MsgPlaceLimitOrder :=
      { Creator := x.addrString contractAddr
        Receiver := place.Receiver
        TokenIn := place.TokenIn
        TokenOut := place.TokenOut
        TickIndexInToOut := place.TickIndexInToOut
        AmountIn := place.AmountIn
        OrderType := 0
        ExpirationTime := none
        MaxAmountOut := place.MaxAmountOut }
    match x.LimitOrderType_value place.OrderType with
    | none =>
      (.error (.Wrap .ErrInvalidOrderType
        ("got \"" ++ place.OrderType ++ "\", expeted one of " ++ x.LimitOrderTypeNames)), state)
    | some orderTypeInt =>
      let msg := { msg with OrderType := orderTypeInt }
      let msg :=
        match place.ExpirationTime with
        | some expirationTime => { msg with ExpirationTime := some (toInt64 expirationTime) }
        | none => msg
      handleDexMsg x x.ValidateBasicPlaceLimitOrder "*types.MsgPlaceLimitOrder"
        "*types.MsgPlaceLimitOrderResponse" state msg m.DexMsgServer.PlaceLimitOrder
  else if let some cancel := dex.CancelLimitOrder then
    handleDexMsg x x.ValidateBasicCancelLimitOrder "*types.MsgCancelLimitOrder"
      "*types.MsgCancelLimitOrderResponse" state
      { cancel with Creator := x.addrString contractAddr } m.DexMsgServer.CancelLimitOrder
  else if let some withdraw := dex.WithdrawFilledLimitOrder then
    handleDexMsg x x.ValidateBasicWithdrawFilledLimitOrder "*types.MsgWithdrawFilledLimitOrder"
      "*types.MsgWithdrawFilledLimitOrderResponse" state
      { withdraw with Creator := x.addrString contractAddr }
      m.DexMsgServer.WithdrawFilledLimitOrder
  else if let some swap := dex.MultiHopSwap then
    handleDexMsg x x.ValidateBasicMultiHopSwap "*types.MsgMultiHopSwap"
      "*types.MsgMultiHopSwapResponse" state
      { swap with Creator := x.addrString contractAddr } m.DexMsgServer.MultiHopSwap
  else (.error .ErrUnknownRequest, state)

/-- Embeds `CustomMessenger.ibcTransfer` (message_plugin.go 251-283). -/
def ibcTransfer {σ : Type} (m : Messenger σ) (x : Externals) (state : σ)
    (contractAddr : AccAddress) (ibcTransferMsg : MsgTransfer) : DispatchResult × σ :=
  let ibcTransferMsg := { ibcTransferMsg with Sender := x.addrString contractAddr }
  match x.ValidateBasicTransfer ibcTransferMsg with
  | some err => (⟨[], [], some (.Wrap err "failed to validate ibcTransferMsg")⟩, state)
  | none =>
    match m.transferKeeper state ibcTransferMsg with
    | (.error err, state) => (⟨[], [], some (.Wrap err "failed to execute IBCTransfer")⟩, state)
    | (.ok response, state) =>
      match x.jsonMarshal Response response with
      | .error err => (⟨[], [], some (.Wrap err "marshal json failed")⟩, state)
      | .ok data => (⟨[], [data], none⟩, state)

/-- Embeds `CustomMessenger.performUpdateInterchainQuery` (message_plugin.go
313-332). -/
def performUpdateInterchainQuery {σ : Type} (m : Messenger σ) (x : Externals) (state : σ)
    (contractAddr : AccAddress) (updateQuery : BindingUpdateInterchainQuery) :
    Except Error Response × σ :=
  let msg : MsgUpdateInterchainQueryRequest :=
    { QueryId := updateQuery.QueryId
      NewKeys := updateQuery.NewKeys
      NewUpdatePeriod := updateQuery.NewUpdatePeriod
      NewTransactionsFilter := updateQuery.NewTransactionsFilter
      Sender := x.addrString contractAddr }
  match x.ValidateBasicUpdateInterchainQuery msg with
  | some err =>
    (.error (.Wrap err "failed to validate incoming UpdateInterchainQuery message"), state)
  | none =>
    match m.Icqmsgserver.UpdateInterchainQuery state msg with
    | (.error err, state) => (.error (.Wrap err "failed to update interchain query"), state)
    | (.ok response, state) => (.ok response, state)

/-- Embeds `CustomMessenger.updateInterchainQuery` (message_plugin.go 285-311). -/
def updateInterchainQuery {σ : Type} (m : Messenger σ) (x : Externals) (state : σ)
    (contractAddr : AccAddress) (updateQuery : BindingUpdateInterchainQuery) :
    DispatchResult × σ :=
  match performUpdateInterchainQuery m x state contractAddr updateQuery with
  | (.error err, state) => (⟨[], [], some (.Wrap err "failed to update interchain query")⟩, state)
  | (.ok response, state) =>
    match x.jsonMarshal Response response with
    | .error err => (⟨[], [], some (.Wrap err "marshal json failed")⟩, state)
    | .ok data => (⟨[], [data], none⟩, state)

/-- Embeds `CustomMessenger.removeInterchainQuery` (message_plugin.go 334-360);
a panic of the message server passes through. -/
def removeInterchainQuery {σ : Type} (m : Messenger σ) (x : Externals) (state : σ)
    (contractAddr : AccAddress) (removeQuery : BindingRemoveInterchainQuery) :
    Outcome DispatchResult × σ :=
  match performRemoveInterchainQuery m.toCustomMessenger x.ValidateBasicRemoveInterchainQuery
      x.addrString state contractAddr removeQuery with
  | (.panicked message, state) => (.panicked message, state)
  | (.returned (.error err), state) =>
    (.returned ⟨[], [], some (.Wrap err "failed to remove interchain query")⟩, state)
  | (.returned (.ok response), state) =>
    match x.jsonMarshal Unit response with
    | .error err => (.returned ⟨[], [], some (.Wrap err "marshal json failed")⟩, state)
    | .ok data => (.returned ⟨[], [data], none⟩, state)

/-- Embeds `CustomMessenger.performSubmitTx` (message_plugin.go 750-776). -/
def performSubmitTx {σ : Type} (m : Messenger σ) (x : Externals) (state : σ)
    (contractAddr : AccAddress) (submitTx : BindingSubmitTx) : Except Error Response × σ :=
  let tx : MsgSubmitTx :=
    { FromAddress := x.addrString contractAddr
      ConnectionId := submitTx.ConnectionId
      Memo := submitTx.Memo
      InterchainAccountId := submitTx.InterchainAccountId
      Timeout := submitTx.Timeout
      Fee := submitTx.Fee
      Msgs := [] }
  let tx := submitTx.Msgs.foldl
    (fun tx msg => { tx with Msgs := tx.Msgs ++ [{ TypeUrl := msg.TypeURL, Value := msg.Value }] })
    tx
  match x.ValidateBasicSubmitTx tx with
  | some err => (.error (.Wrap err "failed to validate incoming SubmitTx message"), state)
  | none =>
    match m.Ictxmsgserver.SubmitTx state tx with
    | (.error err, state) => (.error (.Wrap err "failed to submit interchain transaction"), state)
    | (.ok response, state) => (.ok response, state)

/-- Embeds `CustomMessenger.submitTx` (message_plugin.go 380-409). -/
def submitTx {σ : Type} (m : Messenger σ) (x : Externals) (state : σ)
    (contractAddr : AccAddress) (submitTx : BindingSubmitTx) : DispatchResult × σ :=
  match performSubmitTx m x state contractAddr submitTx with
  | (.error err, state) =>
    (⟨[], [], some (.Wrap err "failed to submit interchain transaction")⟩, state)
  | (.ok response, state) =>
    match x.jsonMarshal Response response with
    | .error err => (⟨[], [], some (.Wrap err "marshal json failed")⟩, state)
    | .ok data => (⟨[], [data], none⟩, state)

/-- Embeds `validateProposalQty` (message_plugin.go 889-912): counts the
non-nil fields and accepts the count one. -/
def validateProposalQty (proposal : AdminProposal) : Option Error :=
  let qty := 0
  let qty := if proposal.ParamChangeProposal ≠ none then qty + 1 else qty
  let qty := if proposal.ClientUpdateProposal ≠ none then qty + 1 else qty
  let qty := if proposal.UpgradeProposal ≠ none then qty + 1 else qty
  let qty := if proposal.ProposalExecuteMessage ≠ none then qty + 1 else qty
  match qty with
  | 1 => none
  | 0 => some (.Errorf "no admin proposal type is present in message")
  | _ => some (.Errorf "more than one admin proposal type is present in message")

/-- Embeds `isLegacyProposal` (message_plugin.go 914-923). -/
def isLegacyProposal (proposal : AdminProposal) : Bool :=
  if proposal.ParamChangeProposal ≠ none ∨ proposal.UpgradeProposal ≠ none ∨
      proposal.ClientUpdateProposal ≠ none then true
  else false

/-- Embeds `CustomMessenger.performSubmitAdminProposalLegacy` (message_plugin.go
466-525).  The text of the default branch is kept without the rendering of the
proposal that `%+v` appends. -/
def performSubmitAdminProposalLegacy {σ : Type} (m : Messenger σ) (x : Externals) (state : σ)
    (contractAddr : AccAddress) (adminProposal : AdminProposal) : Except Error Response × σ :=
  let proposal := adminProposal
  let msg : MsgSubmitProposalLegacy := { Content := none, Proposer := x.addrString contractAddr }
  let msg : Except Error MsgSubmitProposalLegacy :=
    if let some p := proposal.ParamChangeProposal then
      match x.SetContent msg (.ParameterChangeProposal p.Title p.Description p.ParamChanges) with
      | .error err => .error (.Wrap err "failed to set content on ParameterChangeProposal")
      | .ok msg => .ok msg
    else if let some p := proposal.UpgradeProposal then
      match x.SetContent msg (.UpgradeProposal p.Title p.Description
          { Name := p.Plan.Name, Height := p.Plan.Height, Info := p.Plan.Info }
          p.UpgradedClientState) with
      | .error err => .error (.Wrap err "failed to set content on UpgradeProposal")
      | .ok msg => .ok msg
    else if let some p := proposal.ClientUpdateProposal then
      match x.SetContent msg (.ClientUpdateProposal p.Title p.Description p.SubjectClientId
          p.SubstituteClientId) with
      | .error err => .error (.Wrap err "failed to set content on ClientUpdateProposal")
      | .ok msg => .ok msg
    else .error (.Wrap .ErrInvalidRequest "unexpected legacy admin proposal structure")
  match msg with
  | .error err => (.error err, state)
  | .ok msg =>
    match x.ValidateBasicSubmitProposalLegacy msg with
    | some err =>
      (.error (.Wrap err "failed to validate incoming SubmitAdminProposal message"), state)
    | none =>
      match m.Adminserver.SubmitProposalLegacy state msg with
      | (.error err, state) => (.error (.Wrap err "failed to submit proposal"), state)
      | (.ok response, state) => (.ok response, state)

/-- Embeds `CustomMessenger.performSubmitAdminProposal` (message_plugin.go
527-564).  Reading `proposal.ProposalExecuteMessage.Message` through a nil
pointer panics. -/
def performSubmitAdminProposal {σ : Type} (m : Messenger σ) (x : Externals) (state : σ)
    (contractAddr : AccAddress) (adminProposal : AdminProposal) :
    Outcome (Except Error Response) × σ :=
  let proposal := adminProposal
  let authority := x.NewModuleAddress x.AdminModuleName
  match proposal.ProposalExecuteMessage with
  | none => (.panicked "invalid memory address or nil pointer dereference", state)
  | some executeMessage =>
    match m.AdminKeeper.UnmarshalInterfaceJSON executeMessage.Message with
    | .error err =>
      (.returned (.error (.Wrap err "failed to unmarshall incoming sdk message")), state)
    | .ok sdkMsg =>
      let signers := x.GetSigners sdkMsg
      match signers with
      | [signer] =>
        if signer ≠ authority then
          (.returned (.error (.Wrap .ErrUnauthorized
            "authority in incoming msg is not equal to admin module")), state)
        else
          match x.NewMsgSubmitProposal [sdkMsg] contractAddr with
          | .error err =>
            (.returned (.error (.Wrap err "failed to create MsgSubmitProposal ")), state)
          | .ok msg =>
            match x.ValidateBasicSubmitProposal msg with
            | some err =>
              (.returned (.error
                (.Wrap err "failed to validate incoming SubmitAdminProposal message")), state)
            | none =>
              match m.Adminserver.SubmitProposal state msg with
              | (.error err, state) =>
                (.returned (.error (.Wrap err "failed to submit proposal")), state)
              | (.ok response, state) => (.returned (.ok response), state)
      | _ => (.returned (.error (.Wrap .ErrorInvalidSigner "should be 1 signer")), state)

/-- Embeds `CustomMessenger.submitAdminProposal` (message_plugin.go 411-464). -/
def submitAdminProposal {σ : Type} (m : Messenger σ) (x : Externals) (state : σ)
    (contractAddr : AccAddress) (adminProposal : AdminProposal) : Outcome DispatchResult × σ :=
  match validateProposalQty adminProposal with
  | some err => (.returned ⟨[], [], some (.Wrap err "invalid proposal quantity")⟩, state)
  | none =>
    if isLegacyProposal adminProposal then
      match performSubmitAdminProposalLegacy m x state contractAddr adminProposal with
      | (.error err, state) =>
        (.returned ⟨[], [], some (.Wrap err "failed to submit admin proposal legacy")⟩, state)
      | (.ok resp, state) =>
        match x.jsonMarshal Response resp with
        | .error err => (.returned ⟨[], [], some (.Wrap err "marshal json failed")⟩, state)
        | .ok data => (.returned ⟨[], [data], none⟩, state)
    else
      match performSubmitAdminProposal m x state contractAddr adminProposal with
      | (.panicked message, state) => (.panicked message, state)
      | (.returned (.error err), state) =>
        (.returned ⟨[], [], some (.Wrap err "failed to submit admin proposal")⟩, state)
      | (.returned (.ok resp), state) =>
        match x.jsonMarshal Response resp with
        | .error err => (.returned ⟨[], [], some (.Wrap err "marshal json failed")⟩, state)
        | .ok data => (.returned ⟨[], [data], none⟩, state)

/-- Embeds `parseAddress` (message_plugin.go 736-748). -/
def parseAddress (x : Externals) (addr : String) : Except Error AccAddress :=
  match x.AccAddressFromBech32 addr with
  | .error err => .error (.Wrap err "address from bech32")
  | .ok parsed =>
    match x.VerifyAddressFormat parsed with
    | some err => .error (.Wrap err "verify address format")
    | none => .ok parsed

/-- Embeds `PerformCreateDenom` (message_plugin.go 576-594); `f` is the message
server of the token-factory keeper. -/
def PerformCreateDenom {σ : Type} (x : Externals) (f : TokenFactoryMsgServer σ) (state : σ)
    (contractAddr : AccAddress) (createDenom : BindingCreateDenom) : Option Error × σ :=
  let msgCreateDenom := x.NewMsgCreateDenom (x.addrString contractAddr) createDenom.Subdenom
  match x.ValidateBasicCreateDenom msgCreateDenom with
  | some err => (some (.Wrap err "failed validating MsgCreateDenom"), state)
  | none =>
    match f.CreateDenom state msgCreateDenom with
    | (.error err, state) => (some (.Wrap err "creating denom"), state)
    | (.ok _, state) => (none, state)

/-- Embeds `CustomMessenger.createDenom` (message_plugin.go 567-573). -/
def createDenom {σ : Type} (m : Messenger σ) (x : Externals) (state : σ)
    (contractAddr : AccAddress) (createDenom : BindingCreateDenom) : DispatchResult × σ :=
  match PerformCreateDenom x m.TokenFactory state contractAddr createDenom with
  | (some err, state) => (⟨[], [], some (.Wrap err "perform create denom")⟩, state)
  | (none, state) => (⟨[], [], none⟩, state)

/-- Embeds `PerformMint` (message_plugin.go 615-640); `b` is `SendCoins` of the
bank keeper. -/
def PerformMint {σ : Type} (x : Externals) (f : TokenFactoryMsgServer σ)
    (b : σ → AccAddress → AccAddress → List TokenCoin → Option Error × σ) (state : σ)
    (contractAddr : AccAddress) (mint : BindingMintTokens) : Option Error × σ :=
  match parseAddress x mint.MintToAddress with
  | .error err => (some err, state)
  | .ok rcpt =>
    let coin : TokenCoin := { Denom := mint.Denom, Amount := mint.Amount }
    let sdkMsg := x.NewMsgMint (x.addrString contractAddr) coin
    match x.ValidateBasicMint sdkMsg with
    | some err => (some err, state)
    | none =>
      match f.Mint state sdkMsg with
      | (.error err, state) => (some (.Wrap err "minting coins from message"), state)
      | (.ok _, state) =>
        match b state contractAddr rcpt (x.NewCoins coin) with
        | (some err, state) =>
          (some (.Wrap err "sending newly minted coins from message"), state)
        | (none, state) => (none, state)

/-- Embeds `CustomMessenger.mintTokens` (message_plugin.go 597-603). -/
def mintTokens {σ : Type} (m : Messenger σ) (x : Externals) (state : σ)
    (contractAddr : AccAddress) (mint : BindingMintTokens) : DispatchResult × σ :=
  match PerformMint x m.TokenFactory m.Bank state contractAddr mint with
  | (some err, state) => (⟨[], [], some (.Wrap err "perform mint")⟩, state)
  | (none, state) => (⟨[], [], none⟩, state)

/-- Embeds `PerformSetBeforeSendHook` (message_plugin.go 642-656). -/
def PerformSetBeforeSendHook {σ : Type} (x : Externals) (f : TokenFactoryMsgServer σ)
    (state : σ) (contractAddr : AccAddress) (set : BindingSetBeforeSendHook) :
    Option Error × σ :=
  let sdkMsg := x.NewMsgSetBeforeSendHook (x.addrString contractAddr) set.Denom set.ContractAddr
  match x.ValidateBasicSetBeforeSendHook sdkMsg with
  | some err => (some err, state)
  | none =>
    match f.SetBeforeSendHook state sdkMsg with
    | (.error err, state) => (some (.Wrap err "set before send from message"), state)
    | (.ok _, state) => (none, state)

/-- Embeds `CustomMessenger.setBeforeSendHook` (message_plugin.go 606-612). -/
def setBeforeSendHook {σ : Type} (m : Messenger σ) (x : Externals) (state : σ)
    (contractAddr : AccAddress) (set : BindingSetBeforeSendHook) : DispatchResult × σ :=
  match PerformSetBeforeSendHook x m.TokenFactory state contractAddr set with
  | (some err, state) =>
    (⟨[], [], some (.Wrap err "failed to perform set before send hook")⟩, state)
  | (none, state) => (⟨[], [], none⟩, state)

/-- Embeds `ChangeAdmin` (message_plugin.go 669-686). -/
def ChangeAdmin {σ : Type} (x : Externals) (f : TokenFactoryMsgServer σ) (state : σ)
    (contractAddr : AccAddress) (changeAdmin : BindingChangeAdmin) : Option Error × σ :=
  match parseAddress x changeAdmin.NewAdminAddress with
  | .error err => (some err, state)
  | .ok newAdminAddr =>
    let changeAdminMsg := x.NewMsgChangeAdmin (x.addrString contractAddr) changeAdmin.Denom
      (x.addrString newAdminAddr)
    match x.ValidateBasicChangeAdmin changeAdminMsg with
    | some err => (some err, state)
    | none =>
      match f.ChangeAdmin state changeAdminMsg with
      | (.error err, state) => (some (.Wrap err "failed changing admin from message"), state)
      | (.ok _, state) => (none, state)

/-- Embeds `CustomMessenger.changeAdmin` (message_plugin.go 659-666). -/
def changeAdmin {σ : Type} (m : Messenger σ) (x : Externals) (state : σ)
    (contractAddr : AccAddress) (changeAdmin : BindingChangeAdmin) : DispatchResult × σ :=
  match ChangeAdmin x m.TokenFactory state contractAddr changeAdmin with
  | (some err, state) => (⟨[], [], some (.Wrap err "failed to change admin")⟩, state)
  | (none, state) => (⟨[], [], none⟩, state)

/-- Embeds `PerformBurn` (message_plugin.go 699-718); `f` is the message server
of the token-factory keeper. -/
def PerformBurn {σ : Type} (x : Externals) (f : TokenFactoryMsgServer σ) (state : σ)
    (contractAddr : AccAddress) (burn : BindingBurnTokens) : Option Error × σ :=
  if burn.BurnFromAddress ≠ "" ∧ burn.BurnFromAddress ≠ x.addrString contractAddr then
    (some (.InvalidRequest "BurnFromAddress must be \"\""), state)
  else
    let coin : TokenCoin := { Denom := burn.Denom, Amount := burn.Amount }
    let sdkMsg := x.NewMsgBurn (x.addrString contractAddr) coin
    match x.ValidateBasicBurn sdkMsg with
    | some err => (some err, state)
    | none =>
      match f.Burn state sdkMsg with
      | (.error err, state) => (some (.Wrap err "burning coins from message"), state)
      | (.ok _, state) => (none, state)

/-- Embeds `CustomMessenger.burnTokens` (message_plugin.go 689-696). -/
def burnTokens {σ : Type} (m : Messenger σ) (x : Externals) (state : σ)
    (contractAddr : AccAddress) (burn : BindingBurnTokens) : DispatchResult × σ :=
  match PerformBurn x m.TokenFactory state contractAddr burn with
  | (some err, state) => (⟨[], [], some (.Wrap err "perform burn")⟩, state)
  | (none, state) => (⟨[], [], none⟩, state)

/-- Embeds `getRegisterFee` (message_plugin.go 1028-1033). -/
def getRegisterFee (fee : Option (List Coin)) : List Coin :=
  match fee with
  | none => []
  | some fee => fee

/-- Embeds `CustomMessenger.performRegisterInterchainAccount` (message_plugin.go
809-826). -/
def performRegisterInterchainAccount {σ : Type} (m : Messenger σ) (x : Externals) (state : σ)
    (contractAddr : AccAddress) (reg : BindingRegisterInterchainAccount) :
    Except Error Response × σ :=
  let msg : MsgRegisterInterchainAccount :=
    { FromAddress := x.addrString contractAddr
      ConnectionId := reg.ConnectionId
      InterchainAccountId := reg.InterchainAccountId
      RegisterFee := getRegisterFee reg.RegisterFee }
  match x.ValidateBasicRegisterInterchainAccount msg with
  | some err =>
    (.error (.Wrap err "failed to validate incoming RegisterInterchainAccount message"), state)
  | none =>
    match m.Ictxmsgserver.RegisterInterchainAccount state msg with
    | (.error err, state) => (.error (.Wrap err "failed to register interchain account"), state)
    | (.ok response, state) => (.ok response, state)

/-- Embeds `CustomMessenger.registerInterchainAccount` (message_plugin.go
778-807). -/
def registerInterchainAccount {σ : Type} (m : Messenger σ) (x : Externals) (state : σ)
    (contractAddr : AccAddress) (reg : BindingRegisterInterchainAccount) :
    DispatchResult × σ :=
  match performRegisterInterchainAccount m x state contractAddr reg with
  | (.error err, state) =>
    (⟨[], [], some (.Wrap err "failed to register interchain account")⟩, state)
  | (.ok response, state) =>
    match x.jsonMarshal Response response with
    | .error err => (⟨[], [], some (.Wrap err "marshal json failed")⟩, state)
    | .ok data => (⟨[], [data], none⟩, state)

/-- Embeds `CustomMessenger.performRegisterInterchainQuery` (message_plugin.go
868-887). -/
def performRegisterInterchainQuery {σ : Type} (m : Messenger σ) (x : Externals) (state : σ)
    (contractAddr : AccAddress) (reg : BindingRegisterInterchainQuery) :
    Except Error Response × σ :=
  let msg : MsgRegisterInterchainQuery :=
    { Keys := reg.Keys
      TransactionsFilter := reg.TransactionsFilter
      QueryType := reg.QueryType
      ConnectionId := reg.ConnectionId
      UpdatePeriod := reg.UpdatePeriod
      Sender := x.addrString contractAddr }
  match x.ValidateBasicRegisterInterchainQuery msg with
  | some err =>
    (.error (.Wrap err "failed to validate incoming RegisterInterchainQuery message"), state)
  | none =>
    match m.Icqmsgserver.RegisterInterchainQuery state msg with
    | (.error err, state) => (.error (.Wrap err "failed to register interchain query"), state)
    | (.ok response, state) => (.ok response, state)

/-- Embeds `CustomMessenger.registerInterchainQuery` (message_plugin.go
828-866). -/
def registerInterchainQuery {σ : Type} (m : Messenger σ) (x : Externals) (state : σ)
    (contractAddr : AccAddress) (reg : BindingRegisterInterchainQuery) : DispatchResult × σ :=
  match performRegisterInterchainQuery m x state contractAddr reg with
  | (.error err, state) =>
    (⟨[], [], some (.Wrap err "failed to register interchain query")⟩, state)
  | (.ok response, state) =>
    match x.jsonMarshal Response response with
    | .error err => (⟨[], [], some (.Wrap err "marshal json failed")⟩, state)
    | .ok data => (⟨[], [data], none⟩, state)

/-- Embeds `CustomMessenger.isAdmin` (message_plugin.go 1018-1026). -/
def isAdmin {σ : Type} (m : Messenger σ) (x : Externals) (state : σ)
    (contractAddr : AccAddress) : Bool :=
  (m.AdminKeeper.GetAdmins state).any fun admin => admin = x.addrString contractAddr

/-- Embeds `CustomMessenger.addSchedule` (message_plugin.go 925-963). -/
def addSchedule {σ : Type} (m : Messenger σ) (x : Externals) (state : σ)
    (contractAddr : AccAddress) (addSchedule : BindingAddSchedule) : DispatchResult × σ :=
  if ¬ isAdmin m x state contractAddr then
    (⟨[], [], some (.Wrap .ErrUnauthorized "only admin can add schedule")⟩, state)
  else
    let msgs : List MsgExecuteContract :=
      addSchedule.Msgs.map fun msg => { Contract := msg.Contract, Msg := msg.Msg }
    match m.CronKeeper.AddSchedule state addSchedule.Name addSchedule.Period msgs with
    | (some err, state) => (⟨[], [], some (.Wrap err "marshal json failed")⟩, state)
    | (none, state) =>
      let resp : AddScheduleResponse := {}
      match x.jsonMarshal AddScheduleResponse resp with
      | .error err => (⟨[], [], some (.Wrap err "marshal json failed")⟩, state)
      | .ok data => (⟨[], [data], none⟩, state)

/-- Embeds `CustomMessenger.removeSchedule` (message_plugin.go 965-988). -/
def removeSchedule {σ : Type} (m : Messenger σ) (x : Externals) (state : σ)
    (contractAddr : AccAddress) (removeSchedule : BindingRemoveSchedule) : DispatchResult × σ :=
  let params := m.CronKeeper.GetParams state
  if ¬ isAdmin m x state contractAddr ∧ x.addrString contractAddr ≠ params.SecurityAddress then
    (⟨[], [], some (.Wrap .ErrUnauthorized "only admin or security dao can remove schedule")⟩,
      state)
  else
    let state := m.CronKeeper.RemoveSchedule state removeSchedule.Name
    let resp : RemoveScheduleResponse := {}
    match x.jsonMarshal RemoveScheduleResponse resp with
    | .error err => (⟨[], [], some (.Wrap err "marshal json failed")⟩, state)
    | .ok data => (⟨[], [data], none⟩, state)

/-- Embeds `CustomMessenger.resubmitFailure` (message_plugin.go 990-1016). -/
def resubmitFailure {σ : Type} (m : Messenger σ) (x : Externals) (state : σ)
    (contractAddr : AccAddress) (resubmitFailure : BindingResubmitFailure) :
    DispatchResult × σ :=
  match m.ContractmanagerKeeper.GetFailure state contractAddr resubmitFailure.FailureId with
  | .error _ => (⟨[], [], some (.Wrap .ErrNotFound "no failure found to resubmit")⟩, state)
  | .ok failure =>
    match m.ContractmanagerKeeper.ResubmitFailure state contractAddr failure with
    | (some err, state) => (⟨[], [], some (.Wrap err "failed to resubmitFailure")⟩, state)
    | (none, state) =>
      let resp : ResubmitFailureResponse := { FailureId := failure.Id }
      match x.jsonMarshal ResubmitFailureResponse resp with
      | .error err => (⟨[], [], some (.Wrap err "marshal json failed")⟩, state)
      | .ok data => (⟨[], [data], none⟩, state)

/-- Embeds `CustomMessenger.DispatchMsg` (message_plugin.go 97-166): a message
without a custom payload goes to the wrapped messenger; a payload that does not
decode is an error; otherwise the first non-nil field of the decoded message, in
the order of the tests, selects the handler, and a message with no field set
goes to the wrapped messenger. -/
def DispatchMsg {σ : Type} (m : Messenger σ) (x : Externals) (state : σ)
    (contractAddr : AccAddress) (contractIBCPortID : String) (msg : CosmosMsg) :
    Outcome DispatchResult × σ :=
  match msg.Custom with
  | none => Outcome.ofResult (m.Wrapped state contractAddr contractIBCPortID msg)
  | some custom =>
    match x.jsonUnmarshal custom with
    | .error err =>
      (.returned ⟨[], [], some (.Wrap err "failed to decode incoming custom cosmos message")⟩,
        state)
    | .ok contractMsg =>
      if let some v := contractMsg.SubmitTx then
        Outcome.ofResult (submitTx m x state contractAddr v)
      else if let some v := contractMsg.RegisterInterchainAccount then
        Outcome.ofResult (registerInterchainAccount m x state contractAddr v)
      else if let some v := contractMsg.RegisterInterchainQuery then
        Outcome.ofResult (registerInterchainQuery m x state contractAddr v)
      else if let some v := contractMsg.UpdateInterchainQuery then
        Outcome.ofResult (updateInterchainQuery m x state contractAddr v)
      else if let some v := contractMsg.RemoveInterchainQuery then
        removeInterchainQuery m x state contractAddr v
      else if let some v := contractMsg.IBCTransfer then
        Outcome.ofResult (ibcTransfer m x state contractAddr v)
      else if let some v := contractMsg.SubmitAdminProposal then
        submitAdminProposal m x state contractAddr v.AdminProposal
      else if let some v := contractMsg.CreateDenom then
        Outcome.ofResult (createDenom m x state contractAddr v)
      else if let some v := contractMsg.MintTokens then
        Outcome.ofResult (mintTokens m x state contractAddr v)
      else if let some v := contractMsg.SetBeforeSendHook then
        Outcome.ofResult (setBeforeSendHook m x state contractAddr v)
      else if let some v := contractMsg.ChangeAdmin then
        Outcome.ofResult (changeAdmin m x state contractAddr v)
      else if let some v := contractMsg.BurnTokens then
        Outcome.ofResult (burnTokens m x state contractAddr v)
      else if let some v := contractMsg.AddSchedule then
        Outcome.ofResult (addSchedule m x state contractAddr v)
      else if let some v := contractMsg.RemoveSchedule then
        Outcome.ofResult (removeSchedule m x state contractAddr v)
      else if let some v := contractMsg.ResubmitFailure then
        Outcome.ofResult (resubmitFailure m x state contractAddr v)
      else if let some v := contractMsg.Dex then
        match dispatchDexMsg m x state contractAddr v with
        | (.error err, state) => (.returned ⟨[], [], some err⟩, state)
        | (.ok data, state) => (.returned ⟨[], data, none⟩, state)
      else Outcome.ofResult (m.Wrapped state contractAddr contractIBCPortID msg)

/-- The dex binding with the creator of every request in it replaced by
`creator`: the content of the binding with which a contract could name another
sender.  Used to state that the dispatch does not depend on it. -/
def BindingDex.withCreator (dex : BindingDex) (creator : String) : BindingDex :=
  { Deposit := dex.Deposit.map fun msg => { msg with Creator := creator }
    Withdrawal := dex.Withdrawal.map fun msg => { msg with Creator := creator }
    PlaceLimitOrder := dex.PlaceLimitOrder.map fun msg => { msg with Creator := creator }
    CancelLimitOrder := dex.CancelLimitOrder.map fun msg => { msg with Creator := creator }
    WithdrawFilledLimitOrder :=
      dex.WithdrawFilledLimitOrder.map fun msg => { msg with Creator := creator }
    MultiHopSwap := dex.MultiHopSwap.map fun msg => { msg with Creator := creator } }

/-! ## The spec's order on heights -/

/-- The revision-first order of the spec (section 4.4), strict: the revision is
the primary key, the height the secondary one. -/
def Height.specLT (a b : Height) : Prop :=
  a.RevisionNumber < b.RevisionNumber ∨
    (a.RevisionNumber = b.RevisionNumber ∧ a.RevisionHeight < b.RevisionHeight)

instance (a b : Height) : Decidable (a.specLT b) := by
  unfold Height.specLT; infer_instance

/-! ## A concrete codec

A length-prefixed encoding of the two stored message types, used to run the
keeper on concrete stores.  A decoder reads one value from the front of the
input and returns it with the rest of the input. -/

namespace Wire

/-- A number is one element. -/
def putNat (n : Nat) : Bytes := [n]

/-- Reads a number. -/
def getNat : Bytes → Option (Nat × Bytes)
  | [] => none
  | n :: rest => some (n, rest)

/-- A byte string is its length, then its elements. -/
def putBytes (b : Bytes) : Bytes := b.length :: b

/-- Reads a byte string. -/
def getBytes : Bytes → Option (Bytes × Bytes)
  | [] => none
  | n :: rest => if n ≤ rest.length then some (rest.take n, rest.drop n) else none

/-- A string is the byte string of its code points. -/
def putString (s : String) : Bytes := putBytes (s.toList.map Char.toNat)

/-- Reads a string. -/
def getString (bz : Bytes) : Option (String × Bytes) :=
  match getBytes bz with
  | none => none
  | some (b, rest) => some (String.mk (b.map Char.ofNat), rest)

/-- A list is its length, then its items. -/
def putList {α : Type} (put : α → Bytes) (xs : List α) : Bytes :=
  xs.length :: (xs.map put).flatten

/-- Reads a given number of items. -/
def getMany {α : Type} (get : Bytes → Option (α × Bytes)) : Nat → Bytes → Option (List α × Bytes)
  | 0, bz => some ([], bz)
  | n + 1, bz =>
    match get bz with
    | none => none
    | some (x, rest) =>
      match getMany get n rest with
      | none => none
      | some (xs, rest) => some (x :: xs, rest)

/-- Reads a list. -/
def getList {α : Type} (get : Bytes → Option (α × Bytes)) : Bytes → Option (List α × Bytes)
  | [] => none
  | n :: rest => getMany get n rest

/-- An optional value is a presence flag, then the value. -/
def putOption {α : Type} (put : α → Bytes) : Option α → Bytes
  | none => [0]
  | some a => 1 :: put a

/-- Reads an optional value. -/
def getOption {α : Type} (get : Bytes → Option (α × Bytes)) : Bytes → Option (Option α × Bytes)
  | 0 :: rest => some (none, rest)
  | 1 :: rest =>
    match get rest with
    | none => none
    | some (a, rest) => some (some a, rest)
  | _ => none

/-- Encoding of a `Height`. -/
def putHeight (h : Height) : Bytes := putNat h.RevisionNumber ++ putNat h.RevisionHeight

/-- Reads a `Height`. -/
def getHeight (bz : Bytes) : Option (Height × Bytes) := do
  let (rev, bz) ← getNat bz
  let (height, bz) ← getNat bz
  pure ({ RevisionNumber := rev, RevisionHeight := height }, bz)

/-- Encoding of a `KVKey`. -/
def putKVKey (key : KVKey) : Bytes := putString key.Path ++ putBytes key.Key

/-- Reads a `KVKey`. -/
def getKVKey (bz : Bytes) : Option (KVKey × Bytes) := do
  let (path, bz) ← getString bz
  let (key, bz) ← getBytes bz
  pure ({ Path := path, Key := key }, bz)

/-- Encoding of a `Coin`. -/
def putCoin (c : Coin) : Bytes := putString c.Denom ++ putNat c.Amount

/-- Reads a `Coin`. -/
def getCoin (bz : Bytes) : Option (Coin × Bytes) := do
  let (denom, bz) ← getString bz
  let (amount, bz) ← getNat bz
  pure ({ Denom := denom, Amount := amount }, bz)

/-- Encoding of a `RegisteredQuery`, field by field. -/
def putQuery (q : RegisteredQuery) : Bytes :=
  putNat q.Id ++ putString q.Owner ++ putString q.QueryType ++ putList putKVKey q.Keys ++
    putString q.TransactionsFilter ++ putString q.ConnectionId ++ putNat q.UpdatePeriod ++
    putNat q.LastSubmittedResultLocalHeight ++
    putOption putHeight q.LastSubmittedResultRemoteHeight ++ putList putCoin q.Deposit ++
    putNat q.RegisteredAtHeight

/-- Reads a `RegisteredQuery`. -/
def getQuery (bz : Bytes) : Option (RegisteredQuery × Bytes) := do
  let (id, bz) ← getNat bz
  let (owner, bz) ← getString bz
  let (queryType, bz) ← getString bz
  let (keys, bz) ← getList getKVKey bz
  let (filter, bz) ← getString bz
  let (connectionId, bz) ← getString bz
  let (updatePeriod, bz) ← getNat bz
  let (localHeight, bz) ← getNat bz
  let (remoteHeight, bz) ← getOption getHeight bz
  let (deposit, bz) ← getList getCoin bz
  let (registeredAt, bz) ← getNat bz
  pure ({ Id := id, Owner := owner, QueryType := queryType, Keys := keys,
          TransactionsFilter := filter, ConnectionId := connectionId,
          UpdatePeriod := updatePeriod, LastSubmittedResultLocalHeight := localHeight,
          LastSubmittedResultRemoteHeight := remoteHeight, Deposit := deposit,
          RegisteredAtHeight := registeredAt }, bz)

/-- Encoding of a `StorageValue`. -/
def putStorageValue (v : StorageValue) : Bytes :=
  putString v.StoragePrefix ++ putBytes v.Key ++ putBytes v.Value ++ putOption putBytes v.Proof

/-- Reads a `StorageValue`. -/
def getStorageValue (bz : Bytes) : Option (StorageValue × Bytes) := do
  let (storagePrefix, bz) ← getString bz
  let (key, bz) ← getBytes bz
  let (value, bz) ← getBytes bz
  let (proof, bz) ← getOption getBytes bz
  pure ({ StoragePrefix := storagePrefix, Key := key, Value := value, Proof := proof }, bz)

/-- Encoding of a `QueryResult`. -/
def putResult (r : QueryResult) : Bytes :=
  putList putStorageValue r.KvResults ++ putOption putBytes r.Block ++ putNat r.Height ++
    putNat r.Revision

/-- Reads a `QueryResult`. -/
def getResult (bz : Bytes) : Option (QueryResult × Bytes) := do
  let (kvResults, bz) ← getList getStorageValue bz
  let (block, bz) ← getOption getBytes bz
  let (height, bz) ← getNat bz
  let (revision, bz) ← getNat bz
  pure ({ KvResults := kvResults, Block := block, Height := height, Revision := revision }, bz)

/-- Decoding of a whole value: the input must be used up. -/
def decodeAll {α : Type} (get : Bytes → Option (α × Bytes)) (bz : Bytes) : Except String α :=
  match get bz with
  | some (a, []) => .ok a
  | some (_, _ :: _) => .error "trailing bytes"
  | none => .error "unexpected end of input"

/-- The concrete codec. -/
def codec : BinaryCodec where
  MarshalQuery q := .ok (putQuery q)
  UnmarshalQuery := decodeAll getQuery
  MarshalResult r := .ok (putResult r)
  UnmarshalResult := decodeAll getResult

/-- A keeper over the concrete codec, with one-byte key prefixes. -/
def keeper : Keeper where
  cdc := codec
  types := { RegisteredQueryKey := [1], RegisteredQueryResultKey := [2], SubmittedTxKey := [3],
             LastRegisteredQueryIDKey := [100] }

/-- A KV query with id 7 whose last remote height is `remote`. -/
def query7 (remote : Option Height) : RegisteredQuery where
  Id := 7
  Owner := "neutron1owner"
  QueryType := "kv"
  Keys := [{ Path := "bank", Key := [2, 1] }]
  TransactionsFilter := ""
  ConnectionId := "connection-0"
  UpdatePeriod := 10
  LastSubmittedResultLocalHeight := 20
  LastSubmittedResultRemoteHeight := remote
  Deposit := [{ Denom := "untrn", Amount := 50 }]
  RegisteredAtHeight := 12

/-- The store in which `query7 remote` is the only entry, as `SaveQuery` writes
it. -/
def store7 (remote : Height) : KVStore :=
  (SaveQuery keeper [] (query7 (some remote))).2

/-- A KV result with proof bytes and a block payload, at the given height. -/
def result7 (revision height : Nat) : QueryResult where
  KvResults := [{ StoragePrefix := "bank", Key := [2, 1], Value := [9, 9], Proof := some [5, 6] }]
  Block := some [4]
  Height := height
  Revision := revision

/-- The keeper whose codec cannot encode a registered query (it still decodes
them). -/
def failingKeeper : Keeper where
  cdc := { codec with MarshalQuery := fun _ => .error "marshal failure" }
  types := keeper.types

/-- A decoder of owner strings: the empty string is rejected, any other string
is the address of its code points. -/
def AccAddressFromBech32 (address : String) : Except Error AccAddress :=
  if address = "" then .error (.Errorf "empty address string is not allowed")
  else .ok (address.toList.map Char.toNat)

/-- The rendering of an address that `AccAddressFromBech32` decodes. -/
def addrString (addr : AccAddress) : String :=
  String.mk (addr.map Char.ofNat)

/-- The address of a module account. -/
def moduleAddress (name : String) : AccAddress :=
  0 :: name.toList.map Char.toNat

/-- The address of the owner of `query7`. -/
def owner7 : AccAddress := "neutron1owner".toList.map Char.toNat

/-- A ledger in which the owner of `query7` holds 60 untrn and the module
account holds 5 untrn. -/
def ledger7 : Ledger := fun a d =>
  if a = owner7 ∧ d = "untrn" then 60
  else if a = moduleAddress ModuleName ∧ d = "untrn" then 5
  else 0

/-- An IBC client keeper with a Tendermint client and a client of another
type. -/
def clientKeeper (clientID : String) : Option ClientState :=
  if clientID = "07-tendermint-0" then
    some (.Tendermint { ChainId := "remote-1", LatestHeight := ⟨1, 100⟩ })
  else if clientID = "06-solomachine-0" then some (.Other "06-solomachine")
  else none

/-- A chain state for the binding: the journal of the requests that reached the
collaborators, oldest first. -/
abbrev Journal := List String

/-- A message server method that accepts every request and enters it in the
journal. -/
def journaled {M : Type} (entry : M → String) (journal : Journal) (msg : M) :
    Except Error Response × Journal :=
  (.ok [], journal ++ [entry msg])

/-- A messenger whose collaborators accept every request and enter it in the
journal, with the sender it names. -/
def messenger : Messenger Journal where
  Wrapped := fun journal _ _ _ => (⟨[], [], none⟩, journal ++ ["Wrapped.DispatchMsg"])
  Ictxmsgserver :=
    { SubmitTx := journaled fun msg => "SubmitTx from " ++ msg.FromAddress
      RegisterInterchainAccount :=
        journaled fun msg => "RegisterInterchainAccount from " ++ msg.FromAddress }
  Icqmsgserver :=
    { RemoveInterchainQuery := fun journal msg =>
        (.returned (.ok ()), journal ++ ["RemoveInterchainQuery from " ++ msg.Sender])
      RegisterInterchainQuery := journaled fun msg => "RegisterInterchainQuery from " ++ msg.Sender
      UpdateInterchainQuery := journaled fun msg => "UpdateInterchainQuery from " ++ msg.Sender }
  transferKeeper := journaled fun msg => "Transfer from " ++ msg.Sender
  Adminserver :=
    { SubmitProposalLegacy := journaled fun msg => "SubmitProposalLegacy from " ++ msg.Proposer
      SubmitProposal := journaled fun msg => "SubmitProposal from " ++ msg.Proposer }
  Bank := fun journal _ _ _ => (none, journal ++ ["SendCoins"])
  TokenFactory :=
    { CreateDenom := journaled fun msg => "CreateDenom from " ++ msg.Sender
      Mint := journaled fun msg => "Mint from " ++ msg.Sender
      SetBeforeSendHook := journaled fun msg => "SetBeforeSendHook from " ++ msg.Sender
      ChangeAdmin := journaled fun msg => "ChangeAdmin from " ++ msg.Sender
      Burn := journaled fun msg => "Burn from " ++ msg.Sender }
  CronKeeper :=
    { AddSchedule := fun journal name _ _ => (none, journal ++ ["AddSchedule " ++ name])
      RemoveSchedule := fun journal name => journal ++ ["RemoveSchedule " ++ name]
      GetParams := fun _ => { SecurityAddress := "neutron1security" } }
  AdminKeeper :=
    { GetAdmins := fun _ => ["neutron1admin"]
      UnmarshalInterfaceJSON := fun message =>
        if message = "" then .error (.Errorf "unexpected end of JSON input")
        else .ok { TypeUrl := message, Value := moduleAddress "adminmodule" } }
  ContractmanagerKeeper :=
    { GetFailure := fun _ _ _ => .error .ErrNotFound
      ResubmitFailure := fun journal _ _ => (none, journal ++ ["ResubmitFailure"]) }
  DexMsgServer :=
    { Deposit := journaled fun msg => "Deposit from " ++ msg.Creator
      Withdrawal := journaled fun msg => "Withdrawal from " ++ msg.Creator
      PlaceLimitOrder := journaled fun msg => "PlaceLimitOrder from " ++ msg.Creator
      CancelLimitOrder := journaled fun msg => "CancelLimitOrder from " ++ msg.Creator
      WithdrawFilledLimitOrder :=
        journaled fun msg => "WithdrawFilledLimitOrder from " ++ msg.Creator
      MultiHopSwap := journaled fun msg => "MultiHopSwap from " ++ msg.Creator }

/-- A `NeutronMsg` with no field set. -/
def noFields : NeutronMsg :=
  { SubmitTx := none, RegisterInterchainAccount := none, RegisterInterchainQuery := none
    UpdateInterchainQuery := none, RemoveInterchainQuery := none, IBCTransfer := none
    SubmitAdminProposal := none, CreateDenom := none, MintTokens := none
    SetBeforeSendHook := none, ChangeAdmin := none, BurnTokens := none, AddSchedule := none
    RemoveSchedule := none, ResubmitFailure := none, Dex := none }

/-- A dex binding with a deposit that names another creator. -/
def dexDeposit : BindingDex :=
  { Deposit := some { Creator := "neutron1victim", Fields := [1, 2, 3] }
    Withdrawal := none, PlaceLimitOrder := none, CancelLimitOrder := none
    WithdrawFilledLimitOrder := none, MultiHopSwap := none }

/-- A burn of the caller's own funds. -/
def burnOwn : BindingBurnTokens :=
  { Denom := "factory/neutron1owner/coin", Amount := 5, BurnFromAddress := "" }

/-- A burn that names another account. -/
def burnOther : BindingBurnTokens :=
  { Denom := "factory/neutron1owner/coin", Amount := 5, BurnFromAddress := "neutron1victim" }

/-- A `NeutronMsg` with two fields set, `BurnTokens` and `Dex`. -/
def burnAndDex : NeutronMsg :=
  { noFields with BurnTokens := some burnOwn, Dex := some dexDeposit }

/-- The functions outside the package, for the journal messenger: every request
is valid, constructors fill the fields their arguments name, and the decoder of
custom payloads reads a one-byte code (the empty payload does not decode, the
code 1 is `burnAndDex`, any other payload has no field set). -/
def externals : Externals where
  addrString := addrString
  AccAddressFromBech32 := AccAddressFromBech32
  VerifyAddressFormat := fun _ => none
  jsonUnmarshal := fun bz =>
    if bz = [] then .error (.Errorf "unexpected end of JSON input")
    else if bz = [1] then .ok burnAndDex
    else .ok noFields
  jsonMarshal := fun _ _ => .ok []
  NewModuleAddress := moduleAddress
  AdminModuleName := "adminmodule"
  GetSigners := fun msg => [msg.Value]
  SetContent := fun msg content => .ok { msg with Content := some content }
  NewMsgSubmitProposal := fun msgs proposer =>
    .ok { Messages := msgs, Proposer := addrString proposer }
  NewMsgCreateDenom := fun sender subdenom => { Sender := sender, Subdenom := subdenom }
  NewMsgMint := fun sender amount => { Sender := sender, Amount := amount }
  NewMsgSetBeforeSendHook := fun sender denom contractAddr =>
    { Sender := sender, Denom := denom, ContractAddr := contractAddr }
  NewMsgChangeAdmin := fun sender denom newAdmin =>
    { Sender := sender, Denom := denom, NewAdmin := newAdmin }
  NewMsgBurn := fun sender amount => { Sender := sender, Amount := amount }
  NewCoins := fun coin => [coin]
  LimitOrderType_value := fun name =>
    if name = "GOOD_TIL_CANCELLED" then some 0
    else if name = "FILL_OR_KILL" then some 1
    else none
  LimitOrderTypeNames := "GOOD_TIL_CANCELLED, FILL_OR_KILL"
  ValidateBasicSubmitTx := fun _ => none
  ValidateBasicRegisterInterchainAccount := fun _ => none
  ValidateBasicRegisterInterchainQuery := fun _ => none
  ValidateBasicUpdateInterchainQuery := fun _ => none
  ValidateBasicRemoveInterchainQuery := fun _ => none
  ValidateBasicTransfer := fun _ => none
  ValidateBasicSubmitProposalLegacy := fun _ => none
  ValidateBasicSubmitProposal := fun _ => none
  ValidateBasicCreateDenom := fun _ => none
  ValidateBasicMint := fun _ => none
  ValidateBasicSetBeforeSendHook := fun _ => none
  ValidateBasicChangeAdmin := fun _ => none
  ValidateBasicBurn := fun _ => none
  ValidateBasicDeposit := fun _ => none
  ValidateBasicWithdrawal := fun _ => none
  ValidateBasicPlaceLimitOrder := fun _ => none
  ValidateBasicCancelLimitOrder := fun _ => none
  ValidateBasicWithdrawFilledLimitOrder := fun _ => none
  ValidateBasicMultiHopSwap := fun _ => none

/-- An admin proposal with the parameter change alone. -/
def paramChangeOnly : AdminProposal :=
  { ParamChangeProposal := some { Title := "t", Description := "d", ParamChanges := [] }
    UpgradeProposal := none, ClientUpdateProposal := none, ProposalExecuteMessage := none }

/-- An admin proposal with the message to execute alone. -/
def executeOnly : AdminProposal :=
  { ParamChangeProposal := none, UpgradeProposal := none, ClientUpdateProposal := none
    ProposalExecuteMessage := some { Message := "cosmos.bank.v1beta1.MsgSend" } }

end Wire

end Neutron

/-! ## Lemmas on the store and the keys -/

namespace Neutron

theorem KVStore.Get_Set_self (store : KVStore) (key value : Bytes) :
    (store.Set key value).Get key = some value := by
  induction store with
  | nil => simp [KVStore.Set, KVStore.Get]
  | cons e rest ih =>
    obtain ⟨k, v⟩ := e
    unfold KVStore.Set
    split_ifs with h1 h2
    · simp [KVStore.Get]
    · simp [KVStore.Get]
    · have hk : k ≠ key := fun h => h2 h.symm
      simp only [KVStore.Get, if_neg hk]
      exact ih

theorem KVStore.Get_Set_of_ne (store : KVStore) (key value other : Bytes) (hne : other ≠ key) :
    (store.Set key value).Get other = store.Get other := by
  have hne2 : key ≠ other := fun h => hne h.symm
  induction store with
  | nil => simp [KVStore.Set, KVStore.Get, hne2]
  | cons e rest ih =>
    obtain ⟨k, v⟩ := e
    unfold KVStore.Set
    split_ifs with h1 h2
    · simp [KVStore.Get, hne2]
    · subst h2
      simp [KVStore.Get, hne2]
    · by_cases hk : k = other
      · simp [KVStore.Get, hk]
      · simp only [KVStore.Get, if_neg hk]
        exact ih

theorem Uint64ToBigEndian_length (i : Nat) : (Uint64ToBigEndian i).length = 8 := rfl

theorem Uint64ToBigEndian_injective (i j : Nat) (hi : i < 2 ^ 64) (hj : j < 2 ^ 64)
    (h : Uint64ToBigEndian i = Uint64ToBigEndian j) : i = j := by
  simp only [Uint64ToBigEndian, List.cons.injEq, and_true] at h
  omega

theorem append_bigEndian_ne (p q : Bytes) (hpq : p ≠ q) (i j : Nat) :
    p ++ Uint64ToBigEndian i ≠ q ++ Uint64ToBigEndian j := by
  intro h
  have hlen := congrArg List.length h
  simp only [List.length_append, Uint64ToBigEndian_length] at hlen
  have hlen2 : p.length = q.length := by omega
  exact hpq (List.append_inj h hlen2).1

theorem Types.queryKey_ne_resultKey (types : Types)
    (hne : types.RegisteredQueryKey ≠ types.RegisteredQueryResultKey) (i j : Nat) :
    types.GetRegisteredQueryByIDKey i ≠ types.GetRegisteredQueryResultByIDKey j :=
  append_bigEndian_ne _ _ hne i j

theorem Types.resultKey_ne_of_ne (types : Types) (i j : Nat) (hi : i < 2 ^ 64)
    (hj : j < 2 ^ 64) (hij : i ≠ j) :
    types.GetRegisteredQueryResultByIDKey i ≠ types.GetRegisteredQueryResultByIDKey j := by
  intro h
  exact hij (Uint64ToBigEndian_injective i j hi hj (List.append_cancel_left h))

end Neutron

namespace Neutron.Wire

theorem getNat_putNat (n : Nat) (rest : Bytes) : getNat (putNat n ++ rest) = some (n, rest) := rfl

theorem getBytes_putBytes (b rest : Bytes) : getBytes (putBytes b ++ rest) = some (b, rest) := by
  simp [getBytes, putBytes]

theorem getString_putString (s : String) (rest : Bytes) :
    getString (putString s ++ rest) = some (s, rest) := by
  have hchars : List.map (Char.ofNat ∘ Char.toNat) s.data = s.data := by
    conv_rhs => rw [← List.map_id s.data]
    apply List.map_congr_left
    intro c _
    simp [Char.ofNat_toNat]
  simp [getString, putString, getBytes_putBytes, hchars]

theorem getMany_flatten {α : Type} (put : α → Bytes) (get : Bytes → Option (α × Bytes))
    (hget : ∀ a rest, get (put a ++ rest) = some (a, rest)) (xs : List α) (rest : Bytes) :
    getMany get xs.length ((xs.map put).flatten ++ rest) = some (xs, rest) := by
  induction xs with
  | nil => simp [getMany]
  | cons x xs ih => simp [getMany, List.append_assoc, hget, ih]

theorem getList_putList {α : Type} (put : α → Bytes) (get : Bytes → Option (α × Bytes))
    (hget : ∀ a rest, get (put a ++ rest) = some (a, rest)) (xs : List α) (rest : Bytes) :
    getList get (putList put xs ++ rest) = some (xs, rest) := by
  simp only [putList, List.cons_append, getList]
  exact getMany_flatten put get hget xs rest

theorem getOption_putOption {α : Type} (put : α → Bytes) (get : Bytes → Option (α × Bytes))
    (hget : ∀ a rest, get (put a ++ rest) = some (a, rest)) (a : Option α) (rest : Bytes) :
    getOption get (putOption put a ++ rest) = some (a, rest) := by
  cases a with
  | none => rfl
  | some a => simp [putOption, getOption, hget]

theorem getHeight_putHeight (h : Height) (rest : Bytes) :
    getHeight (putHeight h ++ rest) = some (h, rest) := rfl

theorem getKVKey_putKVKey (key : KVKey) (rest : Bytes) :
    getKVKey (putKVKey key ++ rest) = some (key, rest) := by
  simp [getKVKey, putKVKey, List.append_assoc, getString_putString, getBytes_putBytes]

theorem getCoin_putCoin (c : Coin) (rest : Bytes) :
    getCoin (putCoin c ++ rest) = some (c, rest) := by
  simp [getCoin, putCoin, List.append_assoc, getString_putString, getNat_putNat]

theorem getStorageValue_putStorageValue (v : StorageValue) (rest : Bytes) :
    getStorageValue (putStorageValue v ++ rest) = some (v, rest) := by
  simp [getStorageValue, putStorageValue, List.append_assoc, getString_putString,
    getBytes_putBytes, getOption_putOption putBytes getBytes getBytes_putBytes]

theorem getQuery_putQuery (q : RegisteredQuery) (rest : Bytes) :
    getQuery (putQuery q ++ rest) = some (q, rest) := by
  simp only [getQuery, putQuery, List.append_assoc, getString_putString, getNat_putNat,
    getList_putList putKVKey getKVKey getKVKey_putKVKey,
    getList_putList putCoin getCoin getCoin_putCoin,
    getOption_putOption putHeight getHeight getHeight_putHeight,
    Option.bind_eq_bind, Option.some_bind, Option.pure_def]

theorem getResult_putResult (r : QueryResult) (rest : Bytes) :
    getResult (putResult r ++ rest) = some (r, rest) := by
  simp [getResult, putResult, List.append_assoc, getNat_putNat,
    getList_putList putStorageValue getStorageValue getStorageValue_putStorageValue,
    getOption_putOption putBytes getBytes getBytes_putBytes]

theorem codec_roundTripsQuery : codec.RoundTripsQuery := by
  intro q bz h
  simp only [codec, Except.ok.injEq] at h
  subst h
  have := getQuery_putQuery q []
  simp only [List.append_nil] at this
  simp [codec, decodeAll, this]

theorem codec_roundTripsResult : codec.RoundTripsResult := by
  intro r bz h
  simp only [codec, Except.ok.injEq] at h
  subst h
  have := getResult_putResult r []
  simp only [List.append_nil] at this
  simp [codec, decodeAll, this]

theorem keeper_prefixes_ne :
    keeper.types.RegisteredQueryKey ≠ keeper.types.RegisteredQueryResultKey := by
  decide

end Neutron.Wire

namespace Neutron

/-! ## Shape of the successful calls -/

theorem getRegisteredQueryByID_eq_ok_iff (k : Keeper) (store : KVStore) (id : Nat)
    (query : RegisteredQuery) :
    getRegisteredQueryByID k store id = .ok query ↔ GetQueryByID k store id = .ok query := by
  unfold getRegisteredQueryByID GetQueryByID
  cases store.Get (k.types.GetRegisteredQueryByIDKey id) with
  | none => simp
  | some bz => cases k.cdc.UnmarshalQuery bz <;> simp

/-- What `SaveQuery` does when it returns no error: it writes the encoding of
the query under the key of the query's own id. -/
theorem SaveQuery_ok (k : Keeper) (store : KVStore) (query : RegisteredQuery) (height : Height)
    (hremote : query.LastSubmittedResultRemoteHeight = some height)
    (hok : (SaveQuery k store query).1 = none) :
    ∃ bz, k.cdc.MarshalQuery query = .ok bz ∧
      (SaveQuery k store query).2 = store.Set (k.types.GetRegisteredQueryByIDKey query.Id) bz := by
  unfold SaveQuery at hok ⊢
  simp only [hremote, reduceCtorEq, if_false] at hok ⊢
  cases hm : k.cdc.MarshalQuery query with
  | error e => simp [hm] at hok
  | ok bz => exact ⟨bz, rfl, rfl⟩

/-- When `SaveQuery` returns an error the store is the one it was given. -/
theorem SaveQuery_error (k : Keeper) (store : KVStore) (query : RegisteredQuery) (err : Error)
    (hfail : (SaveQuery k store query).1 = some err) :
    (SaveQuery k store query).2 = store ∧ err.Cause = .ErrProtoMarshal := by
  have key : ∀ q : RegisteredQuery,
      (match k.cdc.MarshalQuery q with
        | .error e =>
          (some (Error.Wrap .ErrProtoMarshal ("failed to marshal registered query: " ++ e)), store)
        | .ok bz => (none, store.Set (k.types.GetRegisteredQueryByIDKey q.Id) bz)).1 = some err →
      (match k.cdc.MarshalQuery q with
        | .error e =>
          (some (Error.Wrap .ErrProtoMarshal ("failed to marshal registered query: " ++ e)), store)
        | .ok bz => (none, store.Set (k.types.GetRegisteredQueryByIDKey q.Id) bz)).2 = store ∧
      err.Cause = .ErrProtoMarshal := by
    intro q hq
    cases hm : k.cdc.MarshalQuery q with
    | error e =>
      simp only [hm, Option.some.injEq] at hq
      subst hq
      exact ⟨rfl, rfl⟩
    | ok bz => simp [hm] at hq
  exact key _ hfail

/-- A query that `SaveQuery` stored is read back under its own id, with that
id: the records under the query keys are the records `SaveQuery` wrote. -/
theorem SaveQuery_registers (k : Keeper) (store : KVStore) (query : RegisteredQuery)
    (hrt : k.cdc.RoundTripsQuery) (hok : (SaveQuery k store query).1 = none) :
    ∃ stored, GetQueryByID k (SaveQuery k store query).2 query.Id = .ok stored ∧
      stored.Id = query.Id := by
  have key : ∀ q : RegisteredQuery, q.Id = query.Id →
      (match k.cdc.MarshalQuery q with
        | .error e =>
          (some (Error.Wrap .ErrProtoMarshal ("failed to marshal registered query: " ++ e)), store)
        | .ok bz => (none, store.Set (k.types.GetRegisteredQueryByIDKey q.Id) bz)).1 = none →
      ∃ stored, GetQueryByID k
        (match k.cdc.MarshalQuery q with
          | .error e =>
            (some (Error.Wrap .ErrProtoMarshal ("failed to marshal registered query: " ++ e)),
              store)
          | .ok bz => (none, store.Set (k.types.GetRegisteredQueryByIDKey q.Id) bz)).2
        query.Id = .ok stored ∧ stored.Id = query.Id := by
    intro q hqid hq
    cases hm : k.cdc.MarshalQuery q with
    | error e => simp [hm] at hq
    | ok bz =>
      refine ⟨q, ?_, hqid⟩
      simp only [hqid]
      unfold GetQueryByID
      rw [KVStore.Get_Set_self]
      simp only [hrt _ _ hm]
  unfold SaveQuery at hok ⊢
  refine key _ ?_ hok
  dsimp only
  split <;> rfl

theorem Types.queryKey_ne_of_ne (types : Types) (i j : Nat) (hi : i < 2 ^ 64)
    (hj : j < 2 ^ 64) (hij : i ≠ j) :
    types.GetRegisteredQueryByIDKey i ≠ types.GetRegisteredQueryByIDKey j := by
  intro h
  exact hij (Uint64ToBigEndian_injective i j hi hj (List.append_cancel_left h))

/-- The empty store is consistent. -/
theorem StoreConsistent_nil (k : Keeper) : StoreConsistent k [] := by
  intro id query _ h
  simp [GetQueryByID, KVStore.Get] at h

/-- Writing under a result key keeps the registry records consistent. -/
theorem StoreConsistent_Set_resultKey (k : Keeper) (store : KVStore) (i : Nat) (bz : Bytes)
    (hkeys : k.types.RegisteredQueryKey ≠ k.types.RegisteredQueryResultKey)
    (hcons : StoreConsistent k store) :
    StoreConsistent k (store.Set (k.types.GetRegisteredQueryResultByIDKey i) bz) := by
  intro id query hlt h
  apply hcons id query hlt
  unfold GetQueryByID at h ⊢
  rwa [KVStore.Get_Set_of_ne _ _ _ _ (Types.queryKey_ne_resultKey k.types hkeys id i)] at h

/-- `SaveQuery` keeps the registry records consistent. -/
theorem StoreConsistent_SaveQuery (k : Keeper) (store : KVStore) (query : RegisteredQuery)
    (hrt : k.cdc.RoundTripsQuery) (hlt : query.Id < 2 ^ 64) (hcons : StoreConsistent k store) :
    StoreConsistent k (SaveQuery k store query).2 := by
  have key : ∀ q : RegisteredQuery, q.Id = query.Id →
      StoreConsistent k
        (match k.cdc.MarshalQuery q with
          | .error e =>
            (some (Error.Wrap .ErrProtoMarshal ("failed to marshal registered query: " ++ e)),
              store)
          | .ok bz => (none, store.Set (k.types.GetRegisteredQueryByIDKey q.Id) bz)).2 := by
    intro q hqid
    cases hm : k.cdc.MarshalQuery q with
    | error e => exact hcons
    | ok bz =>
      intro id stored hid h
      simp only [hqid] at h
      unfold GetQueryByID at h
      by_cases heq : id = query.Id
      · subst heq
        rw [KVStore.Get_Set_self] at h
        simp only [hrt _ _ hm, Except.ok.injEq] at h
        rw [← h]
        exact hqid
      · rw [KVStore.Get_Set_of_ne _ _ _ _
          (Types.queryKey_ne_of_ne k.types id query.Id hid hlt heq)] at h
        exact hcons id stored hid (by unfold GetQueryByID; exact h)
  unfold SaveQuery
  refine key _ ?_
  dsimp only
  split <;> rfl

/-- What `SaveKVQueryResult` does when it returns no error: it writes the
encoding of the cleared result and then the encoding of the stored query with
both heights replaced, each under the key of the stored query's id. -/
theorem SaveKVQueryResult_ok (k : Keeper) (ctx : Context) (store : KVStore) (id : Nat)
    (r : QueryResult) (hok : (SaveKVQueryResult k ctx store id r).1 = none) :
    ∃ query bzR bzQ, GetQueryByID k store id = .ok query ∧
      k.cdc.MarshalResult (clearQueryResult r) = .ok bzR ∧
      k.cdc.MarshalQuery
        { query with
          LastSubmittedResultRemoteHeight := some (NewHeight r.Revision r.Height)
          LastSubmittedResultLocalHeight := uint64 ctx.BlockHeight } = .ok bzQ ∧
      (SaveKVQueryResult k ctx store id r).2 =
        (store.Set (k.types.GetRegisteredQueryResultByIDKey query.Id) bzR).Set
          (k.types.GetRegisteredQueryByIDKey query.Id) bzQ := by
  unfold SaveKVQueryResult at hok ⊢
  cases hq : getRegisteredQueryByID k store id with
  | error e => simp [hq] at hok
  | ok query =>
    simp only [hq] at hok ⊢
    refine ⟨query, ?_⟩
    unfold saveKVQueryResult at hok ⊢
    cases hm : k.cdc.MarshalResult (clearQueryResult r) with
    | error e => simp [hm] at hok
    | ok bzR =>
      simp only [hm] at hok ⊢
      refine ⟨bzR, ?_⟩
      generalize hs : store.Set (k.types.GetRegisteredQueryResultByIDKey query.Id) bzR = store1
        at hok ⊢
      generalize hq2 : updateLastLocalHeight
        (updateLastRemoteHeight query (NewHeight r.Revision r.Height))
        (uint64 ctx.BlockHeight) = query2 at hok ⊢
      have hq2eq : query2 = { query with
          LastSubmittedResultRemoteHeight := some (NewHeight r.Revision r.Height)
          LastSubmittedResultLocalHeight := uint64 ctx.BlockHeight } := by
        rw [← hq2]; rfl
      have hrem : query2.LastSubmittedResultRemoteHeight =
          some (NewHeight r.Revision r.Height) := by rw [hq2eq]
      have hid : query2.Id = query.Id := by rw [hq2eq]
      have hsq : (SaveQuery k store1 query2).1 = none := by
        cases hsv : SaveQuery k store1 query2 with
        | mk e s =>
          cases e with
          | none => rfl
          | some e => simp [hsv] at hok
      obtain ⟨bzQ, hmq, hst⟩ := SaveQuery_ok k store1 query2 _ hrem hsq
      refine ⟨bzQ, (getRegisteredQueryByID_eq_ok_iff k store id query).1 hq, rfl, ?_, ?_⟩
      · rw [← hq2eq]; exact hmq
      · rw [← hid, ← hst]
        cases hsv : SaveQuery k store1 query2 with
        | mk e s =>
          cases e with
          | none => rfl
          | some e => simp [hsv] at hsq

end Neutron

namespace Neutron

/-! ## The height guard (C1, C2, C3) -/

/-- C1, as the code behaves: a candidate of an older revision is not rejected.
The stored query has last remote height (revision 2, height 5) and the
candidate is (revision 1, height 10): the candidate is not greater in the
revision-first order, yet `checkLastRemoteHeight` returns no error and
`UpdateLastRemoteHeight` succeeds and replaces the stored height by the
candidate. -/
theorem checkLastRemoteHeight_accepts_older_revision :
    GetQueryByID Wire.keeper (Wire.store7 ⟨2, 5⟩) 7 = .ok (Wire.query7 (some ⟨2, 5⟩)) ∧
    ¬ Height.specLT ⟨2, 5⟩ ⟨1, 10⟩ ∧
    checkLastRemoteHeight (Wire.query7 (some ⟨2, 5⟩)) ⟨1, 10⟩ = none ∧
    (UpdateLastRemoteHeight Wire.keeper (Wire.store7 ⟨2, 5⟩) 7 ⟨1, 10⟩).1 = none ∧
    GetQueryByID Wire.keeper
        (UpdateLastRemoteHeight Wire.keeper (Wire.store7 ⟨2, 5⟩) 7 ⟨1, 10⟩).2 7 =
      .ok (Wire.query7 (some ⟨1, 10⟩)) :=
  ⟨rfl, by decide, rfl, rfl, rfl⟩

/-- C2: when the candidate's revision is greater than the revision of the last
remote height, `checkLastRemoteHeight` returns no error whatever the two
heights are; in particular the candidate (revision + 1, height 0) is
accepted. -/
theorem checkLastRemoteHeight_revision_override (query : RegisteredQuery) (cur height : Height)
    (hcur : query.LastSubmittedResultRemoteHeight = some cur)
    (hrev : cur.RevisionNumber < height.RevisionNumber) :
    checkLastRemoteHeight query height = none ∧
    checkLastRemoteHeight query (NewHeight (cur.RevisionNumber + 1) 0) = none := by
  constructor
  · simp [checkLastRemoteHeight, hcur, hrev]
  · simp [checkLastRemoteHeight, hcur, NewHeight]

/-- Instance of C2: last remote height (1, 100), candidate (2, 0). -/
theorem checkLastRemoteHeight_revision_override_witness :
    (1 : Nat) < 2 ∧
    checkLastRemoteHeight (Wire.query7 (some ⟨1, 100⟩)) ⟨2, 0⟩ = none ∧
    checkLastRemoteHeight (Wire.query7 (some ⟨1, 100⟩)) (NewHeight (1 + 1) 0) = none :=
  ⟨by decide,
    checkLastRemoteHeight_revision_override (Wire.query7 (some ⟨1, 100⟩)) ⟨1, 100⟩ ⟨2, 0⟩ rfl
      (by decide)⟩

/-- C3: for a candidate of the same revision as the last remote height,
`checkLastRemoteHeight` returns no error exactly when the candidate's height is
strictly greater; an equal or lesser height is rejected. -/
theorem checkLastRemoteHeight_same_revision (query : RegisteredQuery) (rev hCur hNew : Nat)
    (hcur : query.LastSubmittedResultRemoteHeight = some ⟨rev, hCur⟩) :
    (checkLastRemoteHeight query ⟨rev, hNew⟩ = none ↔ hCur < hNew) ∧
    (hNew ≤ hCur → ∃ err, checkLastRemoteHeight query ⟨rev, hNew⟩ = some err) := by
  constructor
  · simp only [checkLastRemoteHeight, hcur, lt_irrefl, if_false, and_true, ge_iff_le]
    by_cases h : hNew ≤ hCur
    · simp [h, Nat.not_lt.mpr h]
    · simp [h, Nat.lt_of_not_le h]
  · intro h
    simp [checkLastRemoteHeight, hcur, h]

/-- Instance of C3: last remote height (1, 100), candidate (1, 150). -/
theorem checkLastRemoteHeight_same_revision_witness :
    (checkLastRemoteHeight (Wire.query7 (some ⟨1, 100⟩)) ⟨1, 150⟩ = none ↔ 100 < 150) ∧
    (150 ≤ 100 → ∃ err, checkLastRemoteHeight (Wire.query7 (some ⟨1, 100⟩)) ⟨1, 150⟩ = some err) :=
  checkLastRemoteHeight_same_revision (Wire.query7 (some ⟨1, 100⟩)) 1 100 150 rfl

/-! ## Height order on `SaveKVQueryResult` (C4, C5) -/

/-- C4, as the code behaves: `SaveKVQueryResult` does not compare heights.  The
stored query has last remote height (1, 100) and no stored result; the
submitted result is at (1, 100) again, which is not strictly greater.  The call
returns no error, the cleared result is stored and the query's heights are
rewritten. -/
theorem SaveKVQueryResult_accepts_stale_height :
    GetQueryByID Wire.keeper (Wire.store7 ⟨1, 100⟩) 7 = .ok (Wire.query7 (some ⟨1, 100⟩)) ∧
    GetQueryResultByID Wire.keeper (Wire.store7 ⟨1, 100⟩) 7 = .error .ErrNoQueryResult ∧
    ¬ Height.specLT ⟨1, 100⟩
        (NewHeight (Wire.result7 1 100).Revision (Wire.result7 1 100).Height) ∧
    (SaveKVQueryResult Wire.keeper ⟨30⟩ (Wire.store7 ⟨1, 100⟩) 7 (Wire.result7 1 100)).1 = none ∧
    GetQueryResultByID Wire.keeper
        (SaveKVQueryResult Wire.keeper ⟨30⟩ (Wire.store7 ⟨1, 100⟩) 7 (Wire.result7 1 100)).2 7 =
      .ok (clearQueryResult (Wire.result7 1 100)) ∧
    (SaveKVQueryResult Wire.keeper ⟨30⟩ (Wire.store7 ⟨1, 100⟩) 7 (Wire.result7 1 100)).2 ≠
      Wire.store7 ⟨1, 100⟩ :=
  ⟨rfl, rfl, by decide, rfl, rfl, by decide⟩

/-- C5, as the code behaves: the stored remote height can decrease.  Starting
from last remote height (2, 5), `UpdateLastRemoteHeight` with (1, 10) succeeds
and stores (1, 10), which is smaller in the revision-first order; then
`SaveKVQueryResult` with a result at (1, 3) succeeds and stores (1, 3), which
is smaller again. -/
theorem stored_remote_height_can_decrease :
    GetQueryByID Wire.keeper (Wire.store7 ⟨2, 5⟩) 7 = .ok (Wire.query7 (some ⟨2, 5⟩)) ∧
    (UpdateLastRemoteHeight Wire.keeper (Wire.store7 ⟨2, 5⟩) 7 ⟨1, 10⟩).1 = none ∧
    (UpdateLastRemoteHeight Wire.keeper (Wire.store7 ⟨2, 5⟩) 7 ⟨1, 10⟩).2 =
      Wire.store7 ⟨1, 10⟩ ∧
    Height.specLT ⟨1, 10⟩ ⟨2, 5⟩ ∧
    (SaveKVQueryResult Wire.keeper ⟨30⟩ (Wire.store7 ⟨1, 10⟩) 7 (Wire.result7 1 3)).1 = none ∧
    GetQueryByID Wire.keeper
        (SaveKVQueryResult Wire.keeper ⟨30⟩ (Wire.store7 ⟨1, 10⟩) 7 (Wire.result7 1 3)).2 7 =
      .ok { Wire.query7 (some ⟨1, 3⟩) with LastSubmittedResultLocalHeight := 30 } ∧
    Height.specLT ⟨1, 3⟩ ⟨1, 10⟩ :=
  ⟨rfl, rfl, rfl, by decide, rfl, rfl, by decide⟩

/-! ## Rejection leaves the store alone (C6) -/

/-- C6: whenever `UpdateLastRemoteHeight` returns an error, the store after the
call is the store before it, so every stored query (with its local and remote
heights) and every stored result reads as before.  The error is
`ErrInvalidQueryID` when no record is stored under the id, and
`ErrInvalidHeight` when the guard rejects the candidate. -/
theorem UpdateLastRemoteHeight_error_atomic (k : Keeper) (store : KVStore) (queryID : Nat)
    (newRemoteHeight : Height) (err : Error)
    (hfail : (UpdateLastRemoteHeight k store queryID newRemoteHeight).1 = some err) :
    (UpdateLastRemoteHeight k store queryID newRemoteHeight).2 = store ∧
    (∀ id, GetQueryByID k (UpdateLastRemoteHeight k store queryID newRemoteHeight).2 id =
      GetQueryByID k store id) ∧
    (∀ id, GetQueryResultByID k (UpdateLastRemoteHeight k store queryID newRemoteHeight).2 id =
      GetQueryResultByID k store id) ∧
    (store.Get (k.types.GetRegisteredQueryByIDKey queryID) = none →
      err.Cause = .ErrInvalidQueryID) ∧
    (∀ query, getRegisteredQueryByID k store queryID = .ok query →
      checkLastRemoteHeight query newRemoteHeight ≠ none → err.Cause = .ErrInvalidHeight) := by
  have hstore : (UpdateLastRemoteHeight k store queryID newRemoteHeight).2 = store := by
    unfold UpdateLastRemoteHeight at hfail ⊢
    cases hq : getRegisteredQueryByID k store queryID with
    | error e => rfl
    | ok query =>
      simp only [hq] at hfail ⊢
      cases hc : checkLastRemoteHeight query newRemoteHeight with
      | some e => rfl
      | none =>
        simp only [hc] at hfail ⊢
        exact (SaveQuery_error k store _ err hfail).1
  refine ⟨hstore, fun id => by rw [hstore], fun id => by rw [hstore], ?_, ?_⟩
  · intro hnone
    unfold UpdateLastRemoteHeight getRegisteredQueryByID at hfail
    simp only [hnone, Option.some.injEq] at hfail
    subst hfail
    rfl
  · intro query hq hc
    unfold UpdateLastRemoteHeight at hfail
    simp only [hq] at hfail
    cases hc2 : checkLastRemoteHeight query newRemoteHeight with
    | none => exact absurd hc2 hc
    | some e =>
      simp only [hc2, Option.some.injEq] at hfail
      subst hfail
      rfl

/-- Instance of C6: the guard rejects (1, 100) against a stored (1, 100) and
the store is left as it was. -/
theorem UpdateLastRemoteHeight_error_atomic_witness :
    (UpdateLastRemoteHeight Wire.keeper (Wire.store7 ⟨1, 100⟩) 7 ⟨1, 100⟩).1 =
      some (.Wrap .ErrInvalidHeight ("result's remote height \x7b1 100\x7d is less than or " ++
        "equal to last result's remote height &\x7b1 100\x7d")) ∧
    (UpdateLastRemoteHeight Wire.keeper (Wire.store7 ⟨1, 100⟩) 7 ⟨1, 100⟩).2 =
      Wire.store7 ⟨1, 100⟩ :=
  ⟨rfl, (UpdateLastRemoteHeight_error_atomic Wire.keeper (Wire.store7 ⟨1, 100⟩) 7 ⟨1, 100⟩ _
    rfl).1⟩

end Neutron

namespace Neutron

/-! ## Stored results (C7, C8, C9, C10) -/

/-- C7: `clearQueryResult r` has no block payload, the height and revision of
`r`, and as many entries as `r`; the entry at each index has the storage
prefix, key and value of the entry of `r` at that index and no proof. -/
theorem clearQueryResult_redacts (r : QueryResult) :
    (clearQueryResult r).Block = none ∧
    (clearQueryResult r).Height = r.Height ∧
    (clearQueryResult r).Revision = r.Revision ∧
    (clearQueryResult r).KvResults.length = r.KvResults.length ∧
    ∀ i : Nat, (clearQueryResult r).KvResults[i]? =
      (r.KvResults[i]?).map fun v =>
        { StoragePrefix := v.StoragePrefix, Key := v.Key, Value := v.Value, Proof := none } := by
  refine ⟨rfl, rfl, rfl, ?_, ?_⟩
  · simp [clearQueryResult]
  · intro i
    simp [clearQueryResult, List.getElem?_map]

/-- C8: with a codec that decodes what it encoded and distinct key prefixes for
queries and results, after a successful `SaveKVQueryResult` for a registered
query id, `GetQueryResultByID` returns `clearQueryResult r`, which carries no
block payload and no proof. -/
theorem SaveKVQueryResult_stores_cleared_result (k : Keeper) (ctx : Context) (store : KVStore)
    (id : Nat) (r : QueryResult) (query : RegisteredQuery)
    (hrt : k.cdc.RoundTripsResult)
    (hkeys : k.types.RegisteredQueryKey ≠ k.types.RegisteredQueryResultKey)
    (hget : GetQueryByID k store id = .ok query) (hid : query.Id = id)
    (hok : (SaveKVQueryResult k ctx store id r).1 = none) :
    GetQueryResultByID k (SaveKVQueryResult k ctx store id r).2 id =
      .ok (clearQueryResult r) ∧
    (clearQueryResult r).Block = none ∧
    ∀ v ∈ (clearQueryResult r).KvResults, v.Proof = none := by
  obtain ⟨query2, bzR, bzQ, hget2, hmr, -, hst⟩ := SaveKVQueryResult_ok k ctx store id r hok
  have hq : query2 = query := by
    rw [hget] at hget2
    exact (Except.ok.inj hget2).symm
  subst hq
  refine ⟨?_, rfl, ?_⟩
  · rw [hst, hid]
    unfold GetQueryResultByID
    rw [KVStore.Get_Set_of_ne _ _ _ _
      (fun h => Types.queryKey_ne_resultKey k.types hkeys id id h.symm),
      KVStore.Get_Set_self]
    simp only [hrt _ _ hmr]
  · intro v hv
    simp only [clearQueryResult, List.mem_map] at hv
    obtain ⟨w, -, rfl⟩ := hv
    rfl

/-- Instance of C8: a result with proof bytes is saved for query 7 and read
back cleared. -/
theorem SaveKVQueryResult_stores_cleared_result_witness :
    (SaveKVQueryResult Wire.keeper ⟨30⟩ (Wire.store7 ⟨1, 100⟩) 7 (Wire.result7 1 150)).1 = none ∧
    (Wire.result7 1 150).KvResults.map (fun v => v.Proof) = [some [5, 6]] ∧
    GetQueryResultByID Wire.keeper
        (SaveKVQueryResult Wire.keeper ⟨30⟩ (Wire.store7 ⟨1, 100⟩) 7 (Wire.result7 1 150)).2 7 =
      .ok (clearQueryResult (Wire.result7 1 150)) :=
  ⟨rfl, rfl,
    (SaveKVQueryResult_stores_cleared_result Wire.keeper ⟨30⟩ (Wire.store7 ⟨1, 100⟩) 7
      (Wire.result7 1 150) (Wire.query7 (some ⟨1, 100⟩)) Wire.codec_roundTripsResult
      Wire.keeper_prefixes_ne rfl rfl rfl).1⟩

/-- The conversion `uint64(x)` keeps a non-negative `int64`. -/
theorem uint64_of_nonneg (x : Int) (h0 : 0 ≤ x) (h1 : x < 2 ^ 63) : (uint64 x : Int) = x := by
  unfold uint64
  have h2 : x % 18446744073709551616 = x := Int.emod_eq_of_lt h0 (by omega)
  rw [h2, Int.toNat_of_nonneg h0]

/-- C9: with a codec that decodes what it encoded, after a successful
`SaveKVQueryResult` for a registered query id at a block height `H` (a
non-negative `int64`), `GetQueryByID` returns the previously stored query with
the remote height set to the result's (revision, height), the local height set
to `H`, and every other field as before. -/
theorem SaveKVQueryResult_updates_heights (k : Keeper) (ctx : Context) (store : KVStore)
    (id : Nat) (r : QueryResult) (query : RegisteredQuery)
    (hrt : k.cdc.RoundTripsQuery)
    (hget : GetQueryByID k store id = .ok query) (hid : query.Id = id)
    (hH0 : 0 ≤ ctx.BlockHeight) (hH1 : ctx.BlockHeight < 2 ^ 63)
    (hok : (SaveKVQueryResult k ctx store id r).1 = none) :
    ∃ query2, GetQueryByID k (SaveKVQueryResult k ctx store id r).2 id = .ok query2 ∧
      query2.LastSubmittedResultRemoteHeight = some ⟨r.Revision, r.Height⟩ ∧
      (query2.LastSubmittedResultLocalHeight : Int) = ctx.BlockHeight ∧
      query2.Id = query.Id ∧ query2.Owner = query.Owner ∧
      query2.QueryType = query.QueryType ∧ query2.Keys = query.Keys ∧
      query2.TransactionsFilter = query.TransactionsFilter ∧
      query2.ConnectionId = query.ConnectionId ∧
      query2.UpdatePeriod = query.UpdatePeriod ∧ query2.Deposit = query.Deposit ∧
      query2.RegisteredAtHeight = query.RegisteredAtHeight := by
  obtain ⟨query1, bzR, bzQ, hget1, -, hmq, hst⟩ := SaveKVQueryResult_ok k ctx store id r hok
  have hq : query1 = query := by
    rw [hget] at hget1
    exact (Except.ok.inj hget1).symm
  subst hq
  refine ⟨{ query1 with
      LastSubmittedResultRemoteHeight := some (NewHeight r.Revision r.Height)
      LastSubmittedResultLocalHeight := uint64 ctx.BlockHeight },
    ?_, rfl, uint64_of_nonneg _ hH0 hH1, rfl, rfl, rfl, rfl, rfl, rfl, rfl, rfl, rfl⟩
  have hkey : k.types.GetRegisteredQueryByIDKey query1.Id =
      k.types.GetRegisteredQueryByIDKey id := by rw [hid]
  rw [hst, hkey]
  unfold GetQueryByID
  rw [KVStore.Get_Set_self]
  simp only [hrt _ _ hmq]

/-- Instance of C9: a result at (1, 150) is saved for query 7 at block
height 30. -/
theorem SaveKVQueryResult_updates_heights_witness :
    (SaveKVQueryResult Wire.keeper ⟨30⟩ (Wire.store7 ⟨1, 100⟩) 7 (Wire.result7 1 150)).1 = none ∧
    ∃ query2,
      GetQueryByID Wire.keeper
        (SaveKVQueryResult Wire.keeper ⟨30⟩ (Wire.store7 ⟨1, 100⟩) 7 (Wire.result7 1 150)).2 7 =
        .ok query2 ∧
      query2.LastSubmittedResultRemoteHeight = some ⟨1, 150⟩ ∧
      (query2.LastSubmittedResultLocalHeight : Int) = 30 := by
  refine ⟨rfl, ?_⟩
  obtain ⟨query2, h1, h2, h3, -⟩ :=
    SaveKVQueryResult_updates_heights Wire.keeper ⟨30⟩ (Wire.store7 ⟨1, 100⟩) 7
      (Wire.result7 1 150) (Wire.query7 (some ⟨1, 100⟩)) Wire.codec_roundTripsQuery rfl rfl
      (by decide) (by decide) rfl
  exact ⟨query2, h1, h2, h3⟩

/-- C10: with a codec that decodes what it encoded and distinct key prefixes,
after two successful `SaveKVQueryResult` calls for the same registered query id,
first with `r1` and then with `r2`, `GetQueryResultByID` returns
`clearQueryResult r2`, and for every other query id the stored result (the
stored bytes, hence what `GetQueryResultByID` returns) is what it was before
the two calls. -/
theorem SaveKVQueryResult_last_write_wins (k : Keeper) (ctx1 ctx2 : Context) (store : KVStore)
    (id : Nat) (r1 r2 : QueryResult) (query : RegisteredQuery)
    (hrtq : k.cdc.RoundTripsQuery) (hrtr : k.cdc.RoundTripsResult)
    (hkeys : k.types.RegisteredQueryKey ≠ k.types.RegisteredQueryResultKey)
    (hget : GetQueryByID k store id = .ok query) (hid : query.Id = id) (hlt : id < 2 ^ 64)
    (hok1 : (SaveKVQueryResult k ctx1 store id r1).1 = none)
    (hok2 : (SaveKVQueryResult k ctx2 (SaveKVQueryResult k ctx1 store id r1).2 id r2).1 = none) :
    GetQueryResultByID k
        (SaveKVQueryResult k ctx2 (SaveKVQueryResult k ctx1 store id r1).2 id r2).2 id =
      .ok (clearQueryResult r2) ∧
    ∀ j, j < 2 ^ 64 → j ≠ id →
      (SaveKVQueryResult k ctx2 (SaveKVQueryResult k ctx1 store id r1).2 id r2).2.Get
          (k.types.GetRegisteredQueryResultByIDKey j) =
        store.Get (k.types.GetRegisteredQueryResultByIDKey j) ∧
      GetQueryResultByID k
          (SaveKVQueryResult k ctx2 (SaveKVQueryResult k ctx1 store id r1).2 id r2).2 j =
        GetQueryResultByID k store j := by
  obtain ⟨qa, bzR1, bzQ1, hgeta, -, hmq1, hst1⟩ := SaveKVQueryResult_ok k ctx1 store id r1 hok1
  have hqa : qa = query := by
    rw [hget] at hgeta
    exact (Except.ok.inj hgeta).symm
  subst hqa
  obtain ⟨qb, bzR2, bzQ2, hgetb, hmr2, -, hst2⟩ :=
    SaveKVQueryResult_ok k ctx2 _ id r2 hok2
  have hqb : qb.Id = id := by
    rw [hst1, hid] at hgetb
    unfold GetQueryByID at hgetb
    rw [KVStore.Get_Set_self] at hgetb
    simp only [hrtq _ _ hmq1, Except.ok.injEq] at hgetb
    rw [← hgetb]
    exact hid
  have hframe : ∀ j, (∀ i, k.types.GetRegisteredQueryByIDKey i ≠
        k.types.GetRegisteredQueryResultByIDKey j) →
      k.types.GetRegisteredQueryResultByIDKey id ≠ k.types.GetRegisteredQueryResultByIDKey j →
      (SaveKVQueryResult k ctx2 (SaveKVQueryResult k ctx1 store id r1).2 id r2).2.Get
          (k.types.GetRegisteredQueryResultByIDKey j) =
        store.Get (k.types.GetRegisteredQueryResultByIDKey j) := by
    intro j hqr hrr
    rw [hst2, hqb, hst1, hid]
    rw [KVStore.Get_Set_of_ne _ _ _ _ (fun h => hqr id h.symm),
      KVStore.Get_Set_of_ne _ _ _ _ (fun h => hrr h.symm),
      KVStore.Get_Set_of_ne _ _ _ _ (fun h => hqr id h.symm),
      KVStore.Get_Set_of_ne _ _ _ _ (fun h => hrr h.symm)]
  constructor
  · rw [hst2, hqb]
    unfold GetQueryResultByID
    rw [KVStore.Get_Set_of_ne _ _ _ _
      (fun h => Types.queryKey_ne_resultKey k.types hkeys id id h.symm),
      KVStore.Get_Set_self]
    simp only [hrtr _ _ hmr2]
  · intro j hj hne
    have hraw := hframe j (fun i => Types.queryKey_ne_resultKey k.types hkeys i j)
      (Types.resultKey_ne_of_ne k.types id j hlt hj (fun h => hne h.symm))
    refine ⟨hraw, ?_⟩
    unfold GetQueryResultByID
    rw [hraw]

/-- Instance of C10: two results are saved for query 7, the second one is
read back. -/
theorem SaveKVQueryResult_last_write_wins_witness :
    (SaveKVQueryResult Wire.keeper ⟨30⟩ (Wire.store7 ⟨1, 100⟩) 7 (Wire.result7 1 150)).1 = none ∧
    (SaveKVQueryResult Wire.keeper ⟨31⟩
      (SaveKVQueryResult Wire.keeper ⟨30⟩ (Wire.store7 ⟨1, 100⟩) 7 (Wire.result7 1 150)).2 7
      (Wire.result7 2 4)).1 = none ∧
    GetQueryResultByID Wire.keeper
      (SaveKVQueryResult Wire.keeper ⟨31⟩
        (SaveKVQueryResult Wire.keeper ⟨30⟩ (Wire.store7 ⟨1, 100⟩) 7 (Wire.result7 1 150)).2 7
        (Wire.result7 2 4)).2 7 = .ok (clearQueryResult (Wire.result7 2 4)) :=
  ⟨rfl, rfl,
    (SaveKVQueryResult_last_write_wins Wire.keeper ⟨30⟩ ⟨31⟩ (Wire.store7 ⟨1, 100⟩) 7
      (Wire.result7 1 150) (Wire.result7 2 4) (Wire.query7 (some ⟨1, 100⟩))
      Wire.codec_roundTripsQuery Wire.codec_roundTripsResult Wire.keeper_prefixes_ne rfl rfl
      (by decide) rfl rfl).1⟩

end Neutron

namespace Neutron

/-! ## More lemmas on the store -/

theorem KVStore.Set_Set_same (store : KVStore) (key value : Bytes) :
    (store.Set key value).Set key value = store.Set key value := by
  induction store with
  | nil => simp [KVStore.Set]
  | cons e rest ih =>
    obtain ⟨k, v⟩ := e
    by_cases h1 : key < k
    · simp [KVStore.Set, h1]
    · by_cases h2 : key = k
      · subst h2
        simp [KVStore.Set]
      · simp only [KVStore.Set, if_neg h1, if_neg h2]
        rw [ih]

theorem KVStore.Get_Delete_self (store : KVStore) (key : Bytes) :
    (store.Delete key).Get key = none := by
  induction store with
  | nil => rfl
  | cons e rest ih =>
    obtain ⟨k, v⟩ := e
    by_cases hk : k = key
    · simpa [KVStore.Delete, List.filter_cons, hk] using ih
    · have : (KVStore.Delete ((k, v) :: rest) key) = (k, v) :: KVStore.Delete rest key := by
        simp [KVStore.Delete, List.filter_cons, hk]
      rw [this]
      simp only [KVStore.Get, if_neg hk]
      exact ih

theorem KVStore.Get_Delete_of_ne (store : KVStore) (key other : Bytes) (hne : other ≠ key) :
    (store.Delete key).Get other = store.Get other := by
  induction store with
  | nil => rfl
  | cons e rest ih =>
    obtain ⟨k, v⟩ := e
    by_cases hk : k = key
    · have hko : k ≠ other := fun h => hne (h ▸ hk)
      have : (KVStore.Delete ((k, v) :: rest) key) = KVStore.Delete rest key := by
        simp [KVStore.Delete, List.filter_cons, hk]
      rw [this]
      simp only [KVStore.Get, if_neg hko]
      exact ih
    · have : (KVStore.Delete ((k, v) :: rest) key) = (k, v) :: KVStore.Delete rest key := by
        simp [KVStore.Delete, List.filter_cons, hk]
      rw [this]
      by_cases hko : k = other
      · simp [KVStore.Get, hko]
      · simp only [KVStore.Get, if_neg hko]
        exact ih

theorem KVStore.Delete_of_Get_none (store : KVStore) (key : Bytes)
    (h : store.Get key = none) : store.Delete key = store := by
  induction store with
  | nil => rfl
  | cons e rest ih =>
    obtain ⟨k, v⟩ := e
    by_cases hk : k = key
    · simp [KVStore.Get, hk] at h
    · simp only [KVStore.Get, if_neg hk] at h
      have : (KVStore.Delete ((k, v) :: rest) key) = (k, v) :: KVStore.Delete rest key := by
        simp [KVStore.Delete, List.filter_cons, hk]
      rw [this, ih h]

theorem KVStore.mem_of_Get (store : KVStore) (key value : Bytes)
    (h : store.Get key = some value) : (key, value) ∈ store := by
  induction store with
  | nil => simp [KVStore.Get] at h
  | cons e rest ih =>
    obtain ⟨k, v⟩ := e
    by_cases hk : k = key
    · simp only [KVStore.Get, if_pos hk, Option.some.injEq] at h
      simp [hk, h]
    · simp only [KVStore.Get, if_neg hk] at h
      exact List.mem_cons_of_mem _ (ih h)

theorem KVStore.Get_of_mem (store : KVStore) (key value : Bytes)
    (hsorted : (store.map Prod.fst).Pairwise (· < ·)) (h : (key, value) ∈ store) :
    store.Get key = some value := by
  induction store with
  | nil => simp at h
  | cons e rest ih =>
    obtain ⟨k, v⟩ := e
    simp only [List.map_cons, List.pairwise_cons] at hsorted
    rcases List.mem_cons.1 h with heq | hmem
    · simp only [Prod.mk.injEq] at heq
      simp [KVStore.Get, heq.1, heq.2]
    · have hlt : k < key := hsorted.1 key (List.mem_map.2 ⟨(key, value), hmem, rfl⟩)
      have hk : k ≠ key := ne_of_lt hlt
      simp only [KVStore.Get, if_neg hk]
      exact ih hsorted.2 hmem

theorem KVStore.mem_Set (store : KVStore) (key value : Bytes) (e : Bytes × Bytes)
    (h : e ∈ store.Set key value) : e = (key, value) ∨ e ∈ store := by
  induction store with
  | nil => simpa [KVStore.Set] using h
  | cons e0 rest ih =>
    obtain ⟨k, v⟩ := e0
    unfold KVStore.Set at h
    split_ifs at h with h1 h2
    · rcases List.mem_cons.1 h with h | h
      · exact Or.inl h
      · exact Or.inr h
    · rcases List.mem_cons.1 h with h | h
      · exact Or.inl h
      · exact Or.inr (List.mem_cons_of_mem _ h)
    · rcases List.mem_cons.1 h with h | h
      · exact Or.inr (h ▸ List.mem_cons_self _ _)
      · rcases ih h with h | h
        · exact Or.inl h
        · exact Or.inr (List.mem_cons_of_mem _ h)

theorem KVStore.Set_sorted (store : KVStore) (key value : Bytes)
    (hsorted : (store.map Prod.fst).Pairwise (· < ·)) :
    ((store.Set key value).map Prod.fst).Pairwise (· < ·) := by
  induction store with
  | nil => simp [KVStore.Set]
  | cons e0 rest ih =>
    obtain ⟨k, v⟩ := e0
    simp only [List.map_cons, List.pairwise_cons] at hsorted
    unfold KVStore.Set
    split_ifs with h1 h2
    · simp only [List.map_cons, List.pairwise_cons, List.mem_cons]
      refine ⟨?_, hsorted.1, hsorted.2⟩
      intro a ha
      rcases ha with ha | ha
      · rw [ha]; exact h1
      · exact lt_trans h1 (hsorted.1 a ha)
    · subst h2
      simp only [List.map_cons, List.pairwise_cons]
      exact ⟨hsorted.1, hsorted.2⟩
    · simp only [List.map_cons, List.pairwise_cons]
      refine ⟨?_, ih hsorted.2⟩
      intro a ha
      obtain ⟨e, he, rfl⟩ := List.mem_map.1 ha
      rcases KVStore.mem_Set rest key value e he with h | h
      · rw [h]
        rcases lt_trichotomy key k with h3 | h3 | h3
        · exact absurd h3 h1
        · exact absurd h3 h2
        · exact h3
      · exact hsorted.1 _ (List.mem_map.2 ⟨e, h, rfl⟩)

theorem KVStore.Delete_sorted (store : KVStore) (key : Bytes)
    (hsorted : (store.map Prod.fst).Pairwise (· < ·)) :
    ((store.Delete key).map Prod.fst).Pairwise (· < ·) := by
  rw [List.pairwise_map] at hsorted ⊢
  exact hsorted.filter _

theorem KVStore.mem_Delete (store : KVStore) (key : Bytes) (e : Bytes × Bytes)
    (h : e ∈ store.Delete key) : e ∈ store :=
  List.mem_of_mem_filter h

/-! ## Separation of the key spaces -/

theorem append_ne_append_of_incomparable (p q x y : Bytes) (h : Incomparable p q) :
    p ++ x ≠ q ++ y := by
  intro heq
  have hp : p <+: q ++ y := heq ▸ List.prefix_append p x
  rcases List.prefix_or_prefix_of_prefix hp (List.prefix_append q y) with h1 | h1
  · exact h.1 h1
  · exact h.2 h1

theorem not_prefix_append_of_incomparable (p q y : Bytes) (h : Incomparable p q) :
    ¬ p <+: q ++ y := by
  intro hp
  rcases List.prefix_or_prefix_of_prefix hp (List.prefix_append q y) with h1 | h1
  · exact h.1 h1
  · exact h.2 h1

theorem Incomparable.symm {p q : Bytes} (h : Incomparable p q) : Incomparable q p :=
  ⟨h.2, h.1⟩

theorem Incomparable.ne {p q : Bytes} (h : Incomparable p q) : p ≠ q := by
  intro heq
  exact h.1 (heq ▸ List.prefix_refl p)

end Neutron

namespace Neutron

/-! ## The invariant of reachable stores -/

theorem StoreInv_nil (k : Keeper) : StoreInv k [] := by
  constructor
  · simp
  · intro key bz h
    simp at h

theorem StoreInv_Set_outside (k : Keeper) (store : KVStore) (key value : Bytes)
    (hout : ¬ k.types.RegisteredQueryKey <+: key) (hinv : StoreInv k store) :
    StoreInv k (store.Set key value) := by
  refine ⟨KVStore.Set_sorted store key value hinv.1, ?_⟩
  intro key2 bz hmem hpre
  rcases KVStore.mem_Set store key value _ hmem with h | h
  · simp only [Prod.mk.injEq] at h
    exact absurd (h.1 ▸ hpre) hout
  · exact hinv.2 key2 bz h hpre

theorem StoreInv_Delete (k : Keeper) (store : KVStore) (key : Bytes) (hinv : StoreInv k store) :
    StoreInv k (store.Delete key) :=
  ⟨KVStore.Delete_sorted store key hinv.1,
    fun key2 bz hmem hpre => hinv.2 key2 bz (KVStore.mem_Delete store key _ hmem) hpre⟩

theorem StoreInv_Set_query (k : Keeper) (store : KVStore) (query : RegisteredQuery)
    (bz : Bytes) (hlt : query.Id < 2 ^ 64) (hdec : k.cdc.UnmarshalQuery bz = .ok query)
    (hrem : query.LastSubmittedResultRemoteHeight ≠ none) (hinv : StoreInv k store) :
    StoreInv k (store.Set (k.types.GetRegisteredQueryByIDKey query.Id) bz) := by
  refine ⟨KVStore.Set_sorted store _ bz hinv.1, ?_⟩
  intro key2 bz2 hmem hpre
  rcases KVStore.mem_Set store _ bz _ hmem with h | h
  · simp only [Prod.mk.injEq] at h
    exact ⟨query, h.1, hlt, h.2 ▸ hdec, hrem⟩
  · exact hinv.2 key2 bz2 h hpre

theorem StoreInv_SaveQuery (k : Keeper) (store : KVStore) (query : RegisteredQuery)
    (hrt : k.cdc.RoundTripsQuery) (hlt : query.Id < 2 ^ 64) (hinv : StoreInv k store) :
    StoreInv k (SaveQuery k store query).2 := by
  have key : ∀ q : RegisteredQuery, q.Id = query.Id →
      q.LastSubmittedResultRemoteHeight ≠ none →
      StoreInv k
        (match k.cdc.MarshalQuery q with
          | .error e =>
            (some (Error.Wrap .ErrProtoMarshal ("failed to marshal registered query: " ++ e)),
              store)
          | .ok bz => (none, store.Set (k.types.GetRegisteredQueryByIDKey q.Id) bz)).2 := by
    intro q hqid hqrem
    cases hm : k.cdc.MarshalQuery q with
    | error e => exact hinv
    | ok bz => exact StoreInv_Set_query k store q bz (hqid ▸ hlt) (hrt _ _ hm) hqrem hinv
  unfold SaveQuery
  refine key _ ?_ ?_
  · dsimp only
    split <;> rfl
  · dsimp only
    split
    · simp
    · assumption

/-- In a store that satisfies the invariant, a query read under an id is a
`uint64`-keyed registry record: it has a remote height, and it sits under the
key of its own id. -/
theorem StoreInv_getRegisteredQueryByID (k : Keeper) (store : KVStore) (id : Nat)
    (query : RegisteredQuery) (hinv : StoreInv k store)
    (hget : getRegisteredQueryByID k store id = .ok query) :
    query.Id < 2 ^ 64 ∧ query.LastSubmittedResultRemoteHeight ≠ none ∧
      k.types.GetRegisteredQueryByIDKey id = k.types.GetRegisteredQueryByIDKey query.Id := by
  unfold getRegisteredQueryByID at hget
  cases hs : store.Get (k.types.GetRegisteredQueryByIDKey id) with
  | none => simp [hs] at hget
  | some bz =>
    simp only [hs] at hget
    obtain ⟨q, hkey, hlt, hdec, hrem⟩ :=
      hinv.2 _ bz (KVStore.mem_of_Get store _ bz hs) (List.prefix_append _ _)
    simp only [hdec, Except.ok.injEq] at hget
    subst hget
    exact ⟨hlt, hrem, hkey⟩

/-- The store `saveKVQueryResult` leaves: the given store when the result does
not encode, otherwise the store `SaveQuery` leaves after the result is
written. -/
theorem saveKVQueryResult_store (k : Keeper) (ctx : Context) (store : KVStore)
    (query : RegisteredQuery) (result : QueryResult) :
    (saveKVQueryResult k ctx store query result).2 =
      match k.cdc.MarshalResult (clearQueryResult result) with
      | .error _ => store
      | .ok bz =>
        (SaveQuery k (store.Set (k.types.GetRegisteredQueryResultByIDKey query.Id) bz)
          (updateLastLocalHeight (updateLastRemoteHeight query
            (NewHeight result.Revision result.Height)) (uint64 ctx.BlockHeight))).2 := by
  unfold saveKVQueryResult
  dsimp only
  cases hm : k.cdc.MarshalResult (clearQueryResult result) with
  | error e => rfl
  | ok bzR =>
    dsimp only
    cases hsv : SaveQuery k (store.Set (k.types.GetRegisteredQueryResultByIDKey query.Id) bzR)
        (updateLastLocalHeight (updateLastRemoteHeight query
          (NewHeight result.Revision result.Height)) (uint64 ctx.BlockHeight)) with
    | mk e s => cases e <;> rfl

theorem StoreInv_saveKVQueryResult (k : Keeper) (ctx : Context) (store : KVStore)
    (query : RegisteredQuery) (result : QueryResult) (hrt : k.cdc.RoundTripsQuery)
    (hpf : k.types.PrefixFree) (hlt : query.Id < 2 ^ 64) (hinv : StoreInv k store) :
    StoreInv k (saveKVQueryResult k ctx store query result).2 := by
  rw [saveKVQueryResult_store]
  cases hm : k.cdc.MarshalResult (clearQueryResult result) with
  | error e => exact hinv
  | ok bzR =>
    have h1 : StoreInv k (store.Set (k.types.GetRegisteredQueryResultByIDKey query.Id) bzR) :=
      StoreInv_Set_outside k store _ bzR
        (not_prefix_append_of_incomparable _ _ _ hpf.1) hinv
    exact StoreInv_SaveQuery k _
      (updateLastLocalHeight (updateLastRemoteHeight query
        (NewHeight result.Revision result.Height)) (uint64 ctx.BlockHeight)) hrt hlt h1

theorem StoreInv_run (k : Keeper) (store : KVStore) (call : KeeperCall)
    (hrt : k.cdc.RoundTripsQuery) (hpf : k.types.PrefixFree) (hwt : call.WellTyped)
    (hinv : StoreInv k store) : StoreInv k (call.run k store) := by
  cases call with
  | SetLastRegisteredQueryKey id =>
    exact StoreInv_Set_outside k store _ _ hpf.2.2.1.1 hinv
  | SaveQuery query => exact StoreInv_SaveQuery k store query hrt hwt hinv
  | RemoveQueryByID id => exact StoreInv_Delete k store _ hinv
  | SaveKVQueryResult ctx queryID result =>
    simp only [KeeperCall.run, SaveKVQueryResult]
    cases hq : getRegisteredQueryByID k store queryID with
    | error e => exact hinv
    | ok query =>
      exact StoreInv_saveKVQueryResult k ctx store query result hrt hpf
        (StoreInv_getRegisteredQueryByID k store queryID query hinv hq).1 hinv
  | SaveTransactionAsProcessed queryID txHash =>
    simp only [KeeperCall.run, SaveTransactionAsProcessed,
      Types.GetSubmittedTransactionIDForQueryKey, List.append_assoc]
    exact StoreInv_Set_outside k store _ _
      (not_prefix_append_of_incomparable _ _ _ hpf.2.1) hinv
  | removeQueryResultByID id => exact StoreInv_Delete k store _ hinv
  | UpdateLastLocalHeight queryID newLocalHeight =>
    simp only [KeeperCall.run, UpdateLastLocalHeight]
    cases hq : getRegisteredQueryByID k store queryID with
    | error e => exact hinv
    | ok query =>
      exact StoreInv_SaveQuery k store _ hrt
        (StoreInv_getRegisteredQueryByID k store queryID query hinv hq).1 hinv
  | UpdateLastRemoteHeight queryID newRemoteHeight =>
    simp only [KeeperCall.run, UpdateLastRemoteHeight]
    cases hq : getRegisteredQueryByID k store queryID with
    | error e => exact hinv
    | ok query =>
      dsimp only
      cases hc : checkLastRemoteHeight query newRemoteHeight with
      | some e => exact hinv
      | none =>
        exact StoreInv_SaveQuery k store _ hrt
          (StoreInv_getRegisteredQueryByID k store queryID query hinv hq).1 hinv
  | saveKVQueryResult ctx query result =>
    exact StoreInv_saveKVQueryResult k ctx store query result hrt hpf hwt hinv

/-- Every store the keeper can build satisfies the invariant. -/
theorem Reachable.storeInv (k : Keeper) (store : KVStore) (hrt : k.cdc.RoundTripsQuery)
    (hpf : k.types.PrefixFree) (hreach : Reachable k store) : StoreInv k store := by
  induction hreach with
  | empty => exact StoreInv_nil k
  | step call _ hwt ih => exact StoreInv_run k _ call hrt hpf hwt ih

end Neutron

namespace Neutron

/-! ## The registry: save and get (C11, C12) -/

/-- The result of `SaveQuery`, by whether the query with the default filled in
encodes. -/
theorem SaveQuery_eq (k : Keeper) (store : KVStore) (query : RegisteredQuery) :
    SaveQuery k store query =
      match k.cdc.MarshalQuery query.withSentinel with
      | .error err =>
        (some (.Wrap .ErrProtoMarshal ("failed to marshal registered query: " ++ err)), store)
      | .ok bz => (none, store.Set (k.types.GetRegisteredQueryByIDKey query.Id) bz) := by
  unfold SaveQuery
  cases hr : query.LastSubmittedResultRemoteHeight with
  | none =>
    have hq : query.withSentinel =
        { query with LastSubmittedResultRemoteHeight := some (NewHeight 1 1) } := by
      simp [RegisteredQuery.withSentinel, hr]
    simp only [hq, if_true]
  | some h =>
    have hq : query.withSentinel = query := by
      cases query
      simp only at hr
      simp [RegisteredQuery.withSentinel, hr]
    simp only [hq, reduceCtorEq, if_false]

/-- What a successful `SaveQuery` wrote. -/
theorem SaveQuery_ok_store (k : Keeper) (store : KVStore) (query : RegisteredQuery)
    (hok : (SaveQuery k store query).1 = none) :
    ∃ bz, k.cdc.MarshalQuery query.withSentinel = .ok bz ∧
      (SaveQuery k store query).2 = store.Set (k.types.GetRegisteredQueryByIDKey query.Id) bz := by
  rw [SaveQuery_eq] at hok ⊢
  cases hm : k.cdc.MarshalQuery query.withSentinel with
  | error e => simp [hm] at hok
  | ok bz => exact ⟨bz, rfl, rfl⟩

/-- C11: with a codec that decodes what it encoded, after a successful
`SaveQuery` of a query, `GetQueryByID` under the query's id returns a query
whose remote height is present: it is (revision 1, height 1) when the saved
query had none and the saved query's own height otherwise.  Hence, with
separate key spaces, no query read from a store the keeper built has a missing
remote height. -/
theorem SaveQuery_sentinel_remote_height (k : Keeper) (store : KVStore)
    (query : RegisteredQuery) (hrt : k.cdc.RoundTripsQuery)
    (hok : (SaveQuery k store query).1 = none) :
    (∃ stored, GetQueryByID k (SaveQuery k store query).2 query.Id = .ok stored ∧
      (query.LastSubmittedResultRemoteHeight = none →
        stored.LastSubmittedResultRemoteHeight = some ⟨1, 1⟩) ∧
      (∀ height, query.LastSubmittedResultRemoteHeight = some height →
        stored.LastSubmittedResultRemoteHeight = some height)) ∧
    (k.types.PrefixFree → ∀ reached, Reachable k reached → ∀ id read,
      GetQueryByID k reached id = .ok read → read.LastSubmittedResultRemoteHeight ≠ none) := by
  constructor
  · obtain ⟨bz, hm, hst⟩ := SaveQuery_ok_store k store query hok
    refine ⟨query.withSentinel, ?_, ?_, ?_⟩
    · rw [hst]
      unfold GetQueryByID
      rw [KVStore.Get_Set_self]
      simp only [hrt _ _ hm]
    · intro h
      simp [RegisteredQuery.withSentinel, h, NewHeight]
    · intro height h
      simp [RegisteredQuery.withSentinel, h]
  · intro hpf reached hreach id read hget
    exact (StoreInv_getRegisteredQueryByID k reached id read
      (Reachable.storeInv k reached hrt hpf hreach)
      ((getRegisteredQueryByID_eq_ok_iff k reached id read).2 hget)).2.1

/-- Instance of C11: a query without remote height is saved into the empty
store and read back with (1, 1). -/
theorem SaveQuery_sentinel_remote_height_witness :
    (SaveQuery Wire.keeper [] (Wire.query7 none)).1 = none ∧
    ∃ stored, GetQueryByID Wire.keeper (SaveQuery Wire.keeper [] (Wire.query7 none)).2 7 =
        .ok stored ∧
      stored.LastSubmittedResultRemoteHeight = some ⟨1, 1⟩ := by
  refine ⟨rfl, ?_⟩
  obtain ⟨stored, h1, h2, -⟩ :=
    (SaveQuery_sentinel_remote_height Wire.keeper [] (Wire.query7 none)
      Wire.codec_roundTripsQuery rfl).1
  exact ⟨stored, h1, h2 rfl⟩

/-- C12: `GetQueryByID` fails with `ErrInvalidQueryID` exactly when nothing is
stored under the key of the id.  With a codec that decodes what it encoded,
after a successful `SaveQuery` of a query, `GetQueryByID` under the query's id
returns the query with the default remote height filled in, and under every
other `uint64` id it returns what it returned before. -/
theorem GetQueryByID_contract (k : Keeper) (store : KVStore) (id : Nat)
    (query : RegisteredQuery) :
    ((∃ err, GetQueryByID k store id = .error err ∧ err.Cause = .ErrInvalidQueryID) ↔
      store.Get (k.types.GetRegisteredQueryByIDKey id) = none) ∧
    (k.cdc.RoundTripsQuery → (SaveQuery k store query).1 = none →
      GetQueryByID k (SaveQuery k store query).2 query.Id = .ok query.withSentinel ∧
      ∀ j, j < 2 ^ 64 → query.Id < 2 ^ 64 → j ≠ query.Id →
        GetQueryByID k (SaveQuery k store query).2 j = GetQueryByID k store j) := by
  constructor
  · unfold GetQueryByID
    cases hs : store.Get (k.types.GetRegisteredQueryByIDKey id) with
    | none => simp [Error.Cause]
    | some bz =>
      dsimp only
      cases hd : k.cdc.UnmarshalQuery bz with
      | error e => simp [Error.Cause]
      | ok q => simp
  · intro hrt hok
    obtain ⟨bz, hm, hst⟩ := SaveQuery_ok_store k store query hok
    constructor
    · rw [hst]
      unfold GetQueryByID
      rw [KVStore.Get_Set_self]
      simp only [hrt _ _ hm]
    · intro j hj hq hne
      rw [hst]
      unfold GetQueryByID
      rw [KVStore.Get_Set_of_ne _ _ _ _ (Types.queryKey_ne_of_ne k.types j query.Id hj hq hne)]

/-- Instance of C12: `query7` is saved into the empty store; it is read back
under 7, and 8 is as absent as before. -/
theorem GetQueryByID_contract_witness :
    (SaveQuery Wire.keeper [] (Wire.query7 none)).1 = none ∧
    GetQueryByID Wire.keeper (SaveQuery Wire.keeper [] (Wire.query7 none)).2 7 =
      .ok (Wire.query7 (some ⟨1, 1⟩)) ∧
    GetQueryByID Wire.keeper (SaveQuery Wire.keeper [] (Wire.query7 none)).2 8 =
      GetQueryByID Wire.keeper [] 8 :=
  ⟨rfl,
    ((GetQueryByID_contract Wire.keeper [] 7 (Wire.query7 none)).2
      Wire.codec_roundTripsQuery rfl).1,
    ((GetQueryByID_contract Wire.keeper [] 7 (Wire.query7 none)).2
      Wire.codec_roundTripsQuery rfl).2 8 (by decide) (by decide) (by decide)⟩

end Neutron

namespace Neutron

/-! ## Frames of the writing calls -/

theorem Get_SaveQuery_of_ne (k : Keeper) (store : KVStore) (query : RegisteredQuery)
    (key : Bytes) (hne : key ≠ k.types.GetRegisteredQueryByIDKey query.Id) :
    (SaveQuery k store query).2.Get key = store.Get key := by
  rw [SaveQuery_eq]
  cases k.cdc.MarshalQuery query.withSentinel with
  | error e => rfl
  | ok bz => exact KVStore.Get_Set_of_ne store _ bz key hne

theorem Get_saveKVQueryResult_of_ne (k : Keeper) (ctx : Context) (store : KVStore)
    (query : RegisteredQuery) (result : QueryResult) (key : Bytes)
    (hq : key ≠ k.types.GetRegisteredQueryByIDKey query.Id)
    (hr : key ≠ k.types.GetRegisteredQueryResultByIDKey query.Id) :
    (saveKVQueryResult k ctx store query result).2.Get key = store.Get key := by
  rw [saveKVQueryResult_store]
  cases k.cdc.MarshalResult (clearQueryResult result) with
  | error e => rfl
  | ok bz =>
    exact (Get_SaveQuery_of_ne k (store.Set (k.types.GetRegisteredQueryResultByIDKey query.Id) bz)
      (updateLastLocalHeight (updateLastRemoteHeight query
        (NewHeight result.Revision result.Height)) (uint64 ctx.BlockHeight)) key hq).trans
      (KVStore.Get_Set_of_ne store _ bz key hr)

/-- A key that is neither a registry key nor a result key nor the counter key
is left alone by every call except `SaveTransactionAsProcessed`. -/
theorem Get_run_of_outside (k : Keeper) (store : KVStore) (call : KeeperCall) (key : Bytes)
    (hq : ∀ id, key ≠ k.types.GetRegisteredQueryByIDKey id)
    (hr : ∀ id, key ≠ k.types.GetRegisteredQueryResultByIDKey id)
    (hc : key ≠ k.types.LastRegisteredQueryIDKey)
    (hcall : ∀ queryID txHash, call ≠ .SaveTransactionAsProcessed queryID txHash) :
    (call.run k store).Get key = store.Get key := by
  cases call with
  | SetLastRegisteredQueryKey id => exact KVStore.Get_Set_of_ne store _ _ key hc
  | SaveQuery query => exact Get_SaveQuery_of_ne k store query key (hq _)
  | RemoveQueryByID id => exact KVStore.Get_Delete_of_ne store _ key (hq _)
  | SaveKVQueryResult ctx queryID result =>
    simp only [KeeperCall.run, SaveKVQueryResult]
    cases getRegisteredQueryByID k store queryID with
    | error e => rfl
    | ok query => exact Get_saveKVQueryResult_of_ne k ctx store query result key (hq _) (hr _)
  | SaveTransactionAsProcessed queryID txHash => exact absurd rfl (hcall queryID txHash)
  | removeQueryResultByID id => exact KVStore.Get_Delete_of_ne store _ key (hr _)
  | UpdateLastLocalHeight queryID newLocalHeight =>
    simp only [KeeperCall.run, UpdateLastLocalHeight]
    cases getRegisteredQueryByID k store queryID with
    | error e => rfl
    | ok query => exact Get_SaveQuery_of_ne k store _ key (hq _)
  | UpdateLastRemoteHeight queryID newRemoteHeight =>
    simp only [KeeperCall.run, UpdateLastRemoteHeight]
    cases getRegisteredQueryByID k store queryID with
    | error e => rfl
    | ok query =>
      dsimp only
      cases checkLastRemoteHeight query newRemoteHeight with
      | some e => rfl
      | none => exact Get_SaveQuery_of_ne k store _ key (hq _)
  | saveKVQueryResult ctx query result =>
    exact Get_saveKVQueryResult_of_ne k ctx store query result key (hq _) (hr _)

theorem Types.markerKey_outside (types : Types) (hpf : types.PrefixFree) (queryID : Nat)
    (txHash : Bytes) :
    (∀ id, types.GetSubmittedTransactionIDForQueryKey queryID txHash ≠
      types.GetRegisteredQueryByIDKey id) ∧
    (∀ id, types.GetSubmittedTransactionIDForQueryKey queryID txHash ≠
      types.GetRegisteredQueryResultByIDKey id) ∧
    types.GetSubmittedTransactionIDForQueryKey queryID txHash ≠
      types.LastRegisteredQueryIDKey := by
  simp only [Types.GetSubmittedTransactionIDForQueryKey, List.append_assoc]
  refine ⟨fun id => ?_, fun id => ?_, ?_⟩
  · exact append_ne_append_of_incomparable _ _ _ _ hpf.2.1.symm
  · exact append_ne_append_of_incomparable _ _ _ _ hpf.2.2.2.1.symm
  · intro h
    exact append_ne_append_of_incomparable types.SubmittedTxKey types.LastRegisteredQueryIDKey
      (Uint64ToBigEndian queryID ++ txHash) [] hpf.2.2.2.2.2 (by simpa using h)

/-- In a store with ascending keys, a key that is present has exactly one
entry. -/
theorem KVStore.filter_key_length (store : KVStore) (key value : Bytes)
    (hsorted : (store.map Prod.fst).Pairwise (· < ·)) (hget : store.Get key = some value) :
    (store.filter fun kv => kv.1 = key).length = 1 := by
  induction store with
  | nil => simp [KVStore.Get] at hget
  | cons e rest ih =>
    obtain ⟨k, v⟩ := e
    simp only [List.map_cons, List.pairwise_cons] at hsorted
    by_cases hk : k = key
    · subst hk
      have hrest : rest.filter (fun kv => decide (kv.1 = k)) = [] := by
        rw [List.filter_eq_nil_iff]
        intro kv hkv
        have := hsorted.1 kv.1 (List.mem_map.2 ⟨kv, hkv, rfl⟩)
        simpa using (ne_of_lt this).symm
      simp [List.filter_cons, hrest]
    · simp only [KVStore.Get, if_neg hk] at hget
      simpa [List.filter_cons, hk] using ih hsorted.2 hget

/-! ## Replay markers (C13, C14) -/

/-- C13: after `SaveTransactionAsProcessed` for a query id and a tx hash,
`CheckTransactionIsAlreadyProcessed` for them is true, and a second
`SaveTransactionAsProcessed` for them leaves the store exactly as the first one
left it; in a store with ascending keys there is then exactly one entry under
the marker key. -/
theorem SaveTransactionAsProcessed_idempotent (k : Keeper) (store : KVStore) (queryID : Nat)
    (txHash : Bytes) :
    CheckTransactionIsAlreadyProcessed k
      (SaveTransactionAsProcessed k store queryID txHash) queryID txHash = true ∧
    SaveTransactionAsProcessed k (SaveTransactionAsProcessed k store queryID txHash)
      queryID txHash = SaveTransactionAsProcessed k store queryID txHash ∧
    ((store.map Prod.fst).Pairwise (· < ·) →
      ((SaveTransactionAsProcessed k store queryID txHash).filter fun kv =>
        kv.1 = k.types.GetSubmittedTransactionIDForQueryKey queryID txHash).length = 1) := by
  refine ⟨?_, ?_, ?_⟩
  · simp [CheckTransactionIsAlreadyProcessed, SaveTransactionAsProcessed, KVStore.Has,
      KVStore.Get_Set_self]
  · simp only [SaveTransactionAsProcessed]
    exact KVStore.Set_Set_same store _ _
  · intro hsorted
    simp only [SaveTransactionAsProcessed]
    exact KVStore.filter_key_length _ _ _
      (KVStore.Set_sorted store
        (k.types.GetSubmittedTransactionIDForQueryKey queryID txHash) [] hsorted)
      (KVStore.Get_Set_self store
        (k.types.GetSubmittedTransactionIDForQueryKey queryID txHash) [])

/-- Instance of C13: the marker (7, [10, 11]) is put into a store that holds
query 7. -/
theorem SaveTransactionAsProcessed_idempotent_witness :
    ((Wire.store7 ⟨1, 100⟩).map Prod.fst).Pairwise (· < ·) ∧
    ((SaveTransactionAsProcessed Wire.keeper (Wire.store7 ⟨1, 100⟩) 7 [10, 11]).filter fun kv =>
      kv.1 = Wire.keeper.types.GetSubmittedTransactionIDForQueryKey 7 [10, 11]).length = 1 :=
  ⟨by decide,
    (SaveTransactionAsProcessed_idempotent Wire.keeper (Wire.store7 ⟨1, 100⟩) 7 [10, 11]).2.2
      (by decide)⟩

/-- C14: after `removeQueryResultByID` for an id, `GetQueryResultByID` for it
returns `ErrNoQueryResult`, also when `RemoveQueryByID` for the id runs before
or after it.  With separate key spaces, `removeQueryResultByID` and
`RemoveQueryByID` leave every replay marker as it was, and no keeper call
removes a marker that exists. -/
theorem removal_orphans_markers (k : Keeper) (store : KVStore) (id queryID : Nat)
    (txHash : Bytes) (hpf : k.types.PrefixFree) :
    GetQueryResultByID k (removeQueryResultByID k store id) id = .error .ErrNoQueryResult ∧
    GetQueryResultByID k (RemoveQueryByID k (removeQueryResultByID k store id) id) id =
      .error .ErrNoQueryResult ∧
    GetQueryResultByID k (removeQueryResultByID k (RemoveQueryByID k store id) id) id =
      .error .ErrNoQueryResult ∧
    CheckTransactionIsAlreadyProcessed k (removeQueryResultByID k store id) queryID txHash =
      CheckTransactionIsAlreadyProcessed k store queryID txHash ∧
    CheckTransactionIsAlreadyProcessed k (RemoveQueryByID k store id) queryID txHash =
      CheckTransactionIsAlreadyProcessed k store queryID txHash ∧
    ∀ call : KeeperCall, CheckTransactionIsAlreadyProcessed k store queryID txHash = true →
      CheckTransactionIsAlreadyProcessed k (call.run k store) queryID txHash = true := by
  obtain ⟨hq, hr, hc⟩ := Types.markerKey_outside k.types hpf queryID txHash
  have hqr : k.types.GetRegisteredQueryResultByIDKey id ≠ k.types.GetRegisteredQueryByIDKey id :=
    fun h => Types.queryKey_ne_resultKey k.types hpf.1.ne id id h.symm
  refine ⟨?_, ?_, ?_, ?_, ?_, ?_⟩
  · simp [GetQueryResultByID, removeQueryResultByID, KVStore.Get_Delete_self]
  · simp [GetQueryResultByID, removeQueryResultByID, RemoveQueryByID,
      KVStore.Get_Delete_of_ne _ _ _ hqr, KVStore.Get_Delete_self]
  · simp [GetQueryResultByID, removeQueryResultByID, RemoveQueryByID, KVStore.Get_Delete_self]
  · simp only [CheckTransactionIsAlreadyProcessed, removeQueryResultByID, KVStore.Has]
    rw [KVStore.Get_Delete_of_ne _ _ _ (hr id)]
  · simp only [CheckTransactionIsAlreadyProcessed, RemoveQueryByID, KVStore.Has]
    rw [KVStore.Get_Delete_of_ne _ _ _ (hq id)]
  · intro call hbefore
    by_cases hcall : ∃ q2 h2, call = .SaveTransactionAsProcessed q2 h2
    · obtain ⟨q2, h2, rfl⟩ := hcall
      simp only [CheckTransactionIsAlreadyProcessed, KVStore.Has, KeeperCall.run,
        SaveTransactionAsProcessed] at hbefore ⊢
      by_cases hk : k.types.GetSubmittedTransactionIDForQueryKey queryID txHash =
          k.types.GetSubmittedTransactionIDForQueryKey q2 h2
      · rw [hk, KVStore.Get_Set_self]
        rfl
      · rw [KVStore.Get_Set_of_ne _ _ _ _ hk]
        exact hbefore
    · simp only [CheckTransactionIsAlreadyProcessed, KVStore.Has] at hbefore ⊢
      rw [Get_run_of_outside k store call _ hq hr hc
        (fun q2 h2 h => hcall ⟨q2, h2, h⟩)]
      exact hbefore

end Neutron

namespace Neutron.Wire

theorem keeper_prefixFree : keeper.types.PrefixFree := by
  simp only [Types.PrefixFree, Incomparable, keeper]
  decide

end Neutron.Wire

namespace Neutron

/-- Instance of C14: query 7 has a stored result and the marker (7, [10, 11]);
after both removals the result is gone and the marker is still there. -/
theorem removal_orphans_markers_witness :
    CheckTransactionIsAlreadyProcessed Wire.keeper
      (SaveTransactionAsProcessed Wire.keeper (Wire.store7 ⟨1, 100⟩) 7 [10, 11]) 7 [10, 11] =
      true ∧
    CheckTransactionIsAlreadyProcessed Wire.keeper
      ((KeeperCall.RemoveQueryByID 7).run Wire.keeper
        (SaveTransactionAsProcessed Wire.keeper (Wire.store7 ⟨1, 100⟩) 7 [10, 11])) 7 [10, 11] =
      true :=
  ⟨rfl,
    (removal_orphans_markers Wire.keeper
      (SaveTransactionAsProcessed Wire.keeper (Wire.store7 ⟨1, 100⟩) 7 [10, 11]) 7 7 [10, 11]
      Wire.keeper_prefixFree).2.2.2.2.2 (.RemoveQueryByID 7) rfl⟩

end Neutron

namespace Neutron

/-! ## Removal through the message server (C15) -/

theorem GetQueryByID_RemoveQueryByID (k : Keeper) (store : KVStore) (id : Nat) :
    ∃ err, GetQueryByID k (RemoveQueryByID k store id) id = .error err ∧
      err.Cause = .ErrInvalidQueryID := by
  simp [GetQueryByID, RemoveQueryByID, KVStore.Get_Delete_self, Error.Cause]

/-- C15, against the message server as the spec describes it: removing a query
whose record is absent returns an error whose root is `ErrInvalidQueryID` and
changes nothing, in the message server and through
`performRemoveInterchainQuery` (when the request passes `ValidateBasic`); in
particular, after a removal that succeeded, a second removal of the same id
fails that way.  The keeper's `RemoveQueryByID` itself cannot fail: on an
absent record it leaves the store as it is. -/
theorem remove_absent_query_fails {σ : Type} (k : Keeper) (bank : BankKeeper σ)
    (AccAddressFromBech32 : String → Except Error AccAddress) (isAdmin : String → Bool)
    (ValidateBasic : MsgRemoveInterchainQueryRequest → Option Error)
    (addrString : AccAddress → String) (store : KVStore) (ledger : σ)
    (msg : MsgRemoveInterchainQueryRequest) (contractAddr : AccAddress)
    (hkeys : k.types.RegisteredQueryKey ≠ k.types.RegisteredQueryResultKey) :
    (store.Get (k.types.GetRegisteredQueryByIDKey msg.QueryId) = none →
      (∃ err, msgServerRemoveInterchainQuery k bank AccAddressFromBech32 isAdmin
          (store, ledger) msg = (.returned (.error err), (store, ledger)) ∧
        err.Cause = .ErrInvalidQueryID) ∧
      (ValidateBasic { QueryId := msg.QueryId, Sender := addrString contractAddr } = none →
        ∃ err, performRemoveInterchainQuery
            ⟨specMsgServer k bank AccAddressFromBech32 isAdmin⟩ ValidateBasic addrString
            (store, ledger) contractAddr { QueryId := msg.QueryId } =
            (.returned (.error err), (store, ledger)) ∧
          err.Cause = .ErrInvalidQueryID) ∧
      RemoveQueryByID k store msg.QueryId = store) ∧
    (∀ after : KVStore × σ,
      msgServerRemoveInterchainQuery k bank AccAddressFromBech32 isAdmin (store, ledger) msg =
        (.returned (.ok ()), after) →
      ∃ err, msgServerRemoveInterchainQuery k bank AccAddressFromBech32 isAdmin after msg =
          (.returned (.error err), after) ∧
        err.Cause = .ErrInvalidQueryID) := by
  have habsent : ∀ (s : KVStore) (l : σ) (m : MsgRemoveInterchainQueryRequest),
      s.Get (k.types.GetRegisteredQueryByIDKey m.QueryId) = none →
      ∃ err, msgServerRemoveInterchainQuery k bank AccAddressFromBech32 isAdmin (s, l) m =
          (.returned (.error err), (s, l)) ∧ err.Cause = .ErrInvalidQueryID := by
    intro s l m hnone
    refine ⟨.Wrap .ErrInvalidQueryID ("there is no query with id: " ++ toString m.QueryId),
      ?_, rfl⟩
    simp [msgServerRemoveInterchainQuery, GetQueryByID, hnone]
  constructor
  · intro hnone
    refine ⟨habsent store ledger msg hnone, ?_, KVStore.Delete_of_Get_none store _ hnone⟩
    intro hvalid
    obtain ⟨err, herr, hcause⟩ := habsent store ledger
      { QueryId := msg.QueryId, Sender := addrString contractAddr } hnone
    refine ⟨.Wrap err "failed to remove interchain query", ?_, hcause⟩
    simp only [performRemoveInterchainQuery, hvalid, specMsgServer, herr]
  · intro after hok
    have hafter : after.1.Get (k.types.GetRegisteredQueryByIDKey msg.QueryId) = none := by
      unfold msgServerRemoveInterchainQuery at hok
      cases hq : GetQueryByID k store msg.QueryId with
      | error e => simp [hq] at hok
      | ok query =>
        simp only [hq] at hok
        split_ifs at hok with hauth
        · simp at hok
        · cases ha : query.GetOwnerAddress AccAddressFromBech32 with
          | error e => simp [ha] at hok
          | ok owner =>
            simp only [ha] at hok
            cases hp : MustPayOutDeposit bank ledger query.Deposit owner with
            | mk out l =>
              cases out with
              | panicked m => simp [hp] at hok
              | returned u =>
                simp only [hp, Prod.mk.injEq, true_and] at hok
                rw [← hok]
                simp only [removeQueryResultByID, RemoveQueryByID]
                rw [KVStore.Get_Delete_of_ne _ _ _
                  (Types.queryKey_ne_resultKey k.types hkeys msg.QueryId msg.QueryId),
                  KVStore.Get_Delete_self]
    obtain ⟨s, l⟩ := after
    exact habsent s l msg hafter

/-- Instance of C15: nothing is registered under id 9 in the store of query 7,
and its removal is refused. -/
theorem remove_absent_query_fails_witness :
    (Wire.store7 ⟨1, 100⟩).Get (Wire.keeper.types.GetRegisteredQueryByIDKey 9) = none ∧
    ∃ err, msgServerRemoveInterchainQuery Wire.keeper (Ledger.bank Wire.moduleAddress)
        Wire.AccAddressFromBech32 (fun _ => false) (Wire.store7 ⟨1, 100⟩, Wire.ledger7)
        { QueryId := 9, Sender := "neutron1owner" } =
        (.returned (.error err), (Wire.store7 ⟨1, 100⟩, Wire.ledger7)) ∧
      err.Cause = .ErrInvalidQueryID :=
  ⟨by decide,
    ((remove_absent_query_fails Wire.keeper (Ledger.bank Wire.moduleAddress)
      Wire.AccAddressFromBech32 (fun _ => false) (fun _ => none) Wire.addrString
      (Wire.store7 ⟨1, 100⟩) Wire.ledger7 { QueryId := 9, Sender := "neutron1owner" } []
      Wire.keeper_prefixes_ne).1 (by decide)).1⟩

/-! ## Client resolution (C16) -/

/-- C16: `GetClientState` fails with `ErrInvalidClientID` exactly when the IBC
client keeper has no client state for the id, fails with `ErrInvalidClientType`
exactly when the client state it has is not a Tendermint client state, and
returns the Tendermint client state it has, unchanged, otherwise. -/
theorem GetClientState_contract (clientKeeper : String → Option ClientState)
    (clientID : String) :
    ((∃ err, GetClientState clientKeeper clientID = .error err ∧
        err.Cause = .ErrInvalidClientID) ↔ clientKeeper clientID = none) ∧
    ((∃ err, GetClientState clientKeeper clientID = .error err ∧
        err.Cause = .ErrInvalidClientType) ↔
      ∃ clientType, clientKeeper clientID = some (.Other clientType)) ∧
    (∀ state, GetClientState clientKeeper clientID = .ok state ↔
      clientKeeper clientID = some (.Tendermint state)) := by
  unfold GetClientState
  cases h : clientKeeper clientID with
  | none => simp [Error.Cause]
  | some cs =>
    cases cs with
    | Tendermint state => simp
    | Other t => simp [Error.Cause]

/-- Instance of C16: the three cases on a client keeper with a Tendermint client
and a solo-machine client. -/
theorem GetClientState_contract_witness :
    GetClientState Wire.clientKeeper "07-tendermint-0" =
      .ok { ChainId := "remote-1", LatestHeight := ⟨1, 100⟩ } ∧
    (∃ err, GetClientState Wire.clientKeeper "06-solomachine-0" = .error err ∧
      err.Cause = .ErrInvalidClientType) ∧
    (∃ err, GetClientState Wire.clientKeeper "07-tendermint-1" = .error err ∧
      err.Cause = .ErrInvalidClientID) :=
  ⟨((GetClientState_contract Wire.clientKeeper "07-tendermint-0").2.2 _).2 rfl,
    (GetClientState_contract Wire.clientKeeper "06-solomachine-0").2.1.2 ⟨_, rfl⟩,
    (GetClientState_contract Wire.clientKeeper "07-tendermint-1").1.2 rfl⟩

end Neutron

namespace Neutron

/-! ## The ledger -/

theorem totalOf_cons (c : Coin) (coins : List Coin) (denom : String) :
    totalOf (c :: coins) denom = (if c.Denom = denom then c.Amount else 0) + totalOf coins denom := by
  unfold totalOf
  by_cases h : c.Denom = denom <;> simp [List.filter_cons, h]

theorem Ledger.addCoins_apply (ledger : Ledger) (addr : AccAddress) (coins : List Coin)
    (a : AccAddress) (d : String) :
    ledger.addCoins addr coins a d = ledger a d + (if a = addr then totalOf coins d else 0) := by
  induction coins generalizing ledger with
  | nil => simp [Ledger.addCoins, totalOf]
  | cons c rest ih =>
    rw [Ledger.addCoins, ih, totalOf_cons]
    unfold Ledger.credit
    by_cases ha : a = addr
    · by_cases hd : d = c.Denom
      · subst hd
        simp only [ha, and_self, if_true]
        omega
      · have hd2 : ¬ c.Denom = d := fun h => hd h.symm
        simp only [ha, hd, hd2, and_false, if_false, if_true]
        omega
    · simp only [ha, false_and, if_false]

theorem Ledger.subCoins_apply (ledger debited : Ledger) (addr : AccAddress)
    (coins : List Coin) (h : ledger.subCoins addr coins = some debited) (a : AccAddress)
    (d : String) :
    debited a d + (if a = addr then totalOf coins d else 0) = ledger a d := by
  induction coins generalizing ledger with
  | nil =>
    simp only [Ledger.subCoins, Option.some.injEq] at h
    simp [totalOf, h]
  | cons c rest ih =>
    unfold Ledger.subCoins at h
    split_ifs at h with hc
    have := ih _ h
    rw [totalOf_cons]
    unfold Ledger.debit at this
    by_cases ha : a = addr
    · by_cases hd : d = c.Denom
      · subst hd
        simp only [ha, and_self, if_true] at this ⊢
        omega
      · have hd2 : ¬ c.Denom = d := fun h => hd h.symm
        simp only [ha, hd, hd2, and_false, if_false, if_true] at this ⊢
        omega
    · simp only [ha, false_and, if_false] at this ⊢
      omega

theorem Ledger.subCoins_of_covered (ledger : Ledger) (addr : AccAddress) (coins : List Coin)
    (h : ∀ d, totalOf coins d ≤ ledger addr d) : ∃ debited, ledger.subCoins addr coins = some debited := by
  induction coins generalizing ledger with
  | nil => exact ⟨ledger, rfl⟩
  | cons c rest ih =>
    have hc : c.Amount ≤ ledger addr c.Denom := by
      have := h c.Denom
      rw [totalOf_cons] at this
      simp only [if_true] at this
      omega
    unfold Ledger.subCoins
    rw [if_pos hc]
    apply ih
    intro d
    have := h d
    rw [totalOf_cons] at this
    unfold Ledger.debit
    by_cases hd : d = c.Denom
    · subst hd
      simp only [and_self, if_true] at this ⊢
      omega
    · have hd2 : ¬ c.Denom = d := fun h => hd h.symm
      simp only [hd, hd2, and_false, if_false] at this ⊢
      omega

/-- What a transfer over the ledger does when it succeeds: per address and
denom, the sender holds the total less and the recipient the total more. -/
theorem Ledger.SendCoins_ok (ledger : Ledger) (fromAddr toAddr : AccAddress)
    (amt : List Coin) (hok : (ledger.SendCoins fromAddr toAddr amt).1 = none) (a : AccAddress)
    (d : String) :
    (ledger.SendCoins fromAddr toAddr amt).2 a d + (if a = fromAddr then totalOf amt d else 0) =
      ledger a d + (if a = toAddr then totalOf amt d else 0) := by
  unfold Ledger.SendCoins at hok ⊢
  cases hs : ledger.subCoins fromAddr amt with
  | none => simp [hs] at hok
  | some debited =>
    simp only [hs]
    rw [Ledger.addCoins_apply]
    have := Ledger.subCoins_apply ledger debited fromAddr amt hs a d
    omega

/-- A transfer over the ledger that fails moves nothing. -/
theorem Ledger.SendCoins_error (ledger : Ledger) (fromAddr toAddr : AccAddress)
    (amt : List Coin) (err : Error) (hfail : (ledger.SendCoins fromAddr toAddr amt).1 = some err) :
    (ledger.SendCoins fromAddr toAddr amt).2 = ledger := by
  unfold Ledger.SendCoins at hfail ⊢
  cases hs : ledger.subCoins fromAddr amt with
  | none => rfl
  | some debited => simp [hs] at hfail

/-- A transfer over the ledger succeeds when the sender covers the coins. -/
theorem Ledger.SendCoins_of_covered (ledger : Ledger) (fromAddr toAddr : AccAddress)
    (amt : List Coin) (h : ∀ d, totalOf amt d ≤ ledger fromAddr d) :
    (ledger.SendCoins fromAddr toAddr amt).1 = none := by
  obtain ⟨debited, hs⟩ := Ledger.subCoins_of_covered ledger fromAddr amt h
  simp [Ledger.SendCoins, hs]

end Neutron

namespace Neutron

/-! ## Deposits (C17, C18) -/

/-- With a well-formed owner, `CollectDeposit` returns what the bank transfer
returns and leaves the bank state the transfer leaves. -/
theorem CollectDeposit_eq {σ : Type} (bank : BankKeeper σ)
    (AccAddressFromBech32 : String → Except Error AccAddress) (state : σ)
    (queryInfo : RegisteredQuery) (owner : AccAddress)
    (howner : queryInfo.GetOwnerAddress AccAddressFromBech32 = .ok owner) :
    CollectDeposit bank AccAddressFromBech32 state queryInfo =
      (.returned (bank.SendCoinsFromAccountToModule state owner ModuleName queryInfo.Deposit).1,
        (bank.SendCoinsFromAccountToModule state owner ModuleName queryInfo.Deposit).2) := by
  unfold CollectDeposit
  rw [howner]
  dsimp only
  cases h : bank.SendCoinsFromAccountToModule state owner ModuleName queryInfo.Deposit with
  | mk e s => cases e <;> rfl

/-- The outcome of `MustPayOutDeposit`, by the result of the bank transfer. -/
theorem MustPayOutDeposit_eq {σ : Type} (bank : BankKeeper σ) (state : σ)
    (deposit : List Coin) (sender : AccAddress) :
    MustPayOutDeposit bank state deposit sender =
      ((match (bank.SendCoinsFromModuleToAccount state ModuleName sender deposit).1 with
        | some err => .panicked err.Error
        | none => .returned ()),
        (bank.SendCoinsFromModuleToAccount state ModuleName sender deposit).2) := by
  unfold MustPayOutDeposit
  cases h : bank.SendCoinsFromModuleToAccount state ModuleName sender deposit with
  | mk e s => cases e <;> rfl

/-- C17: over the ledger, for a query with a well-formed owner other than the
module account, after a successful `CollectDeposit` the module account holds
exactly the deposit more and the owner exactly the deposit less, in every
denom; `MustPayOutDeposit` of the deposit to the owner then returns, and leaves
the ledger, hence the owner's and the module account's balances, as they were
before `CollectDeposit`. -/
theorem deposit_round_trip (moduleAddress : String → AccAddress)
    (AccAddressFromBech32 : String → Except Error AccAddress) (ledger : Ledger)
    (queryInfo : RegisteredQuery) (owner : AccAddress)
    (howner : queryInfo.GetOwnerAddress AccAddressFromBech32 = .ok owner)
    (hne : owner ≠ moduleAddress ModuleName)
    (hok : (CollectDeposit (Ledger.bank moduleAddress) AccAddressFromBech32 ledger
      queryInfo).1 = .returned none) :
    (∀ denom,
      (CollectDeposit (Ledger.bank moduleAddress) AccAddressFromBech32 ledger queryInfo).2
          (moduleAddress ModuleName) denom =
        ledger (moduleAddress ModuleName) denom + totalOf queryInfo.Deposit denom ∧
      (CollectDeposit (Ledger.bank moduleAddress) AccAddressFromBech32 ledger queryInfo).2
          owner denom + totalOf queryInfo.Deposit denom = ledger owner denom) ∧
    (MustPayOutDeposit (Ledger.bank moduleAddress)
      (CollectDeposit (Ledger.bank moduleAddress) AccAddressFromBech32 ledger queryInfo).2
      queryInfo.Deposit owner).1 = .returned () ∧
    (MustPayOutDeposit (Ledger.bank moduleAddress)
      (CollectDeposit (Ledger.bank moduleAddress) AccAddressFromBech32 ledger queryInfo).2
      queryInfo.Deposit owner).2 = ledger := by
  rw [CollectDeposit_eq _ _ _ _ owner howner] at hok ⊢
  simp only [Ledger.bank, Outcome.returned.injEq] at hok ⊢
  have hsend := Ledger.SendCoins_ok ledger owner (moduleAddress ModuleName) queryInfo.Deposit hok
  have hmod : ∀ denom,
      (ledger.SendCoins owner (moduleAddress ModuleName) queryInfo.Deposit).2
          (moduleAddress ModuleName) denom =
        ledger (moduleAddress ModuleName) denom + totalOf queryInfo.Deposit denom := by
    intro denom
    have := hsend (moduleAddress ModuleName) denom
    simp only [if_neg (Ne.symm hne), if_true, add_zero] at this
    exact this
  have hown : ∀ denom,
      (ledger.SendCoins owner (moduleAddress ModuleName) queryInfo.Deposit).2 owner denom +
        totalOf queryInfo.Deposit denom = ledger owner denom := by
    intro denom
    have := hsend owner denom
    simp only [if_neg hne, if_true, add_zero] at this
    exact this
  have hback : ((ledger.SendCoins owner (moduleAddress ModuleName) queryInfo.Deposit).2.SendCoins
      (moduleAddress ModuleName) owner queryInfo.Deposit).1 = none :=
    Ledger.SendCoins_of_covered _ _ _ _ (fun d => by rw [hmod d]; omega)
  refine ⟨fun denom => ⟨hmod denom, hown denom⟩, ?_, ?_⟩
  · rw [MustPayOutDeposit_eq]
    simp only [hback]
  · rw [MustPayOutDeposit_eq]
    funext a d
    have h1 := Ledger.SendCoins_ok _ (moduleAddress ModuleName) owner queryInfo.Deposit hback a d
    have h2 := hsend a d
    simp only at h1 ⊢
    by_cases ha : a = owner
    · subst ha
      simp only [if_neg hne, if_true, add_zero] at h1 h2
      omega
    · by_cases hm : a = moduleAddress ModuleName
      · subst hm
        simp only [if_neg ha, if_true, add_zero] at h1 h2
        omega
      · simp only [if_neg ha, if_neg hm, add_zero] at h1 h2
        omega

/-- Instance of C17: the owner of query 7 holds 60 untrn, the deposit is 50
untrn. -/
theorem deposit_round_trip_witness :
    (CollectDeposit (Ledger.bank Wire.moduleAddress) Wire.AccAddressFromBech32 Wire.ledger7
      (Wire.query7 none)).1 = .returned none ∧
    (CollectDeposit (Ledger.bank Wire.moduleAddress) Wire.AccAddressFromBech32 Wire.ledger7
      (Wire.query7 none)).2 Wire.owner7 "untrn" = 10 ∧
    (MustPayOutDeposit (Ledger.bank Wire.moduleAddress)
      (CollectDeposit (Ledger.bank Wire.moduleAddress) Wire.AccAddressFromBech32 Wire.ledger7
        (Wire.query7 none)).2 (Wire.query7 none).Deposit Wire.owner7).2 = Wire.ledger7 :=
  ⟨rfl, by decide,
    (deposit_round_trip Wire.moduleAddress Wire.AccAddressFromBech32 Wire.ledger7
      (Wire.query7 none) Wire.owner7 rfl (by decide) rfl).2.2⟩

/-- C18: with a well-formed owner, when the bank transfer returns an error,
`CollectDeposit` returns that error (it does not panic) and leaves the bank
state the failed transfer left, which over the ledger is the state before the
call.  `MustPayOutDeposit` panics exactly when the module-to-account transfer
returns an error, and returns exactly when it returns none. -/
theorem deposit_failure_modes {σ : Type} (bank : BankKeeper σ)
    (AccAddressFromBech32 : String → Except Error AccAddress) (state : σ)
    (queryInfo : RegisteredQuery) (deposit : List Coin) (sender : AccAddress) :
    (∀ owner err, queryInfo.GetOwnerAddress AccAddressFromBech32 = .ok owner →
      (bank.SendCoinsFromAccountToModule state owner ModuleName queryInfo.Deposit).1 =
        some err →
      (CollectDeposit bank AccAddressFromBech32 state queryInfo).1 = .returned (some err) ∧
      (CollectDeposit bank AccAddressFromBech32 state queryInfo).2 =
        (bank.SendCoinsFromAccountToModule state owner ModuleName queryInfo.Deposit).2) ∧
    (∀ (moduleAddress : String → AccAddress) (ledger : Ledger) owner err,
      queryInfo.GetOwnerAddress AccAddressFromBech32 = .ok owner →
      (CollectDeposit (Ledger.bank moduleAddress) AccAddressFromBech32 ledger queryInfo).1 =
        .returned (some err) →
      (CollectDeposit (Ledger.bank moduleAddress) AccAddressFromBech32 ledger queryInfo).2 =
        ledger) ∧
    ((∃ message, (MustPayOutDeposit bank state deposit sender).1 = .panicked message) ↔
      (bank.SendCoinsFromModuleToAccount state ModuleName sender deposit).1 ≠ none) ∧
    ((MustPayOutDeposit bank state deposit sender).1 = .returned () ↔
      (bank.SendCoinsFromModuleToAccount state ModuleName sender deposit).1 = none) := by
  refine ⟨?_, ?_, ?_, ?_⟩
  · intro owner err howner hfail
    rw [CollectDeposit_eq _ _ _ _ owner howner, hfail]
    exact ⟨rfl, rfl⟩
  · intro moduleAddress ledger owner err howner hfail
    rw [CollectDeposit_eq _ _ _ _ owner howner] at hfail ⊢
    simp only [Ledger.bank, Outcome.returned.injEq] at hfail ⊢
    exact Ledger.SendCoins_error ledger _ _ _ err hfail
  · rw [MustPayOutDeposit_eq]
    cases (bank.SendCoinsFromModuleToAccount state ModuleName sender deposit).1 <;> simp
  · rw [MustPayOutDeposit_eq]
    cases (bank.SendCoinsFromModuleToAccount state ModuleName sender deposit).1 <;> simp

/-- Instance of C18: the owner of query 7 holds 60 untrn and the deposit is 100
untrn; the module account holds 5 untrn and the refund is 50 untrn. -/
theorem deposit_failure_modes_witness :
    (CollectDeposit (Ledger.bank Wire.moduleAddress) Wire.AccAddressFromBech32 Wire.ledger7
      { Wire.query7 none with Deposit := [{ Denom := "untrn", Amount := 100 }] }).1 =
      .returned (some .ErrInsufficientFunds) ∧
    (CollectDeposit (Ledger.bank Wire.moduleAddress) Wire.AccAddressFromBech32 Wire.ledger7
      { Wire.query7 none with Deposit := [{ Denom := "untrn", Amount := 100 }] }).2 =
      Wire.ledger7 ∧
    ∃ message, (MustPayOutDeposit (Ledger.bank Wire.moduleAddress) Wire.ledger7
      [{ Denom := "untrn", Amount := 50 }] Wire.owner7).1 = .panicked message :=
  ⟨rfl,
    (deposit_failure_modes (Ledger.bank Wire.moduleAddress) Wire.AccAddressFromBech32
      Wire.ledger7 { Wire.query7 none with Deposit := [{ Denom := "untrn", Amount := 100 }] }
      [{ Denom := "untrn", Amount := 50 }] Wire.owner7).2.1 Wire.moduleAddress Wire.ledger7
      Wire.owner7 .ErrInsufficientFunds rfl rfl,
    (deposit_failure_modes (Ledger.bank Wire.moduleAddress) Wire.AccAddressFromBech32
      Wire.ledger7 { Wire.query7 none with Deposit := [{ Denom := "untrn", Amount := 100 }] }
      [{ Denom := "untrn", Amount := 50 }] Wire.owner7).2.2.1.2 (by decide)⟩

end Neutron

namespace Neutron

/-! ## Listing the registry (C19) -/

theorem Except.eq_ok_of_toOption {ε α : Type} (e : Except ε α) (a : α)
    (h : e.toOption = some a) : e = .ok a := by
  cases e with
  | error err => simp [Except.toOption] at h
  | ok b =>
    simp only [Except.toOption, Option.some.injEq] at h
    rw [h]

/-- When every value decodes, the loop of `GetAllRegisteredQueries` returns the
decoded values in order. -/
theorem unmarshalQueries_of_decodable (k : Keeper) (pre : Bytes)
    (entries : List (Bytes × Bytes))
    (h : ∀ e ∈ entries, ∃ q, k.cdc.UnmarshalQuery e.2 = .ok q) :
    unmarshalQueries k (entries.map fun kv => (kv.1.drop pre.length, kv.2)) =
      .returned (entries.filterMap fun e => (k.cdc.UnmarshalQuery e.2).toOption) := by
  induction entries with
  | nil => rfl
  | cons e rest ih =>
    obtain ⟨q, hq⟩ := h e (List.mem_cons_self _ _)
    have hrest := ih (fun e2 he2 => h e2 (List.mem_cons_of_mem _ he2))
    simp only [List.map_cons, unmarshalQueries, hq, hrest, List.filterMap_cons, Except.toOption]

/-- The listing of a store that satisfies the invariant: it returns, in
ascending key order, exactly the queries that `GetQueryByID` returns. -/
theorem GetAllRegisteredQueries_of_inv (k : Keeper) (store : KVStore)
    (hinv : StoreInv k store) :
    ∃ queries, GetAllRegisteredQueries k store = .returned queries ∧
      (∀ id query, GetQueryByID k store id = .ok query → query ∈ queries) ∧
      (∀ query ∈ queries, GetQueryByID k store query.Id = .ok query) ∧
      queries.Pairwise (fun a b =>
        k.types.GetRegisteredQueryByIDKey a.Id < k.types.GetRegisteredQueryByIDKey b.Id) := by
  have hentry : ∀ e ∈ store.filter (fun kv => k.types.RegisteredQueryKey.isPrefixOf kv.1),
      e ∈ store ∧ ∃ q, e.1 = k.types.GetRegisteredQueryByIDKey q.Id ∧
        k.cdc.UnmarshalQuery e.2 = .ok q := by
    intro e he
    obtain ⟨hmem, hpre⟩ := List.mem_filter.1 he
    obtain ⟨q, hkey, -, hdec, -⟩ := hinv.2 e.1 e.2 hmem (List.isPrefixOf_iff_prefix.1 hpre)
    exact ⟨hmem, q, hkey, hdec⟩
  refine ⟨_, unmarshalQueries_of_decodable k _ _
    (fun e he => (hentry e he).2.imp fun q hq => hq.2), ?_, ?_, ?_⟩
  · intro id query hget
    unfold GetQueryByID at hget
    cases hs : store.Get (k.types.GetRegisteredQueryByIDKey id) with
    | none => simp [hs] at hget
    | some bz =>
      simp only [hs] at hget
      cases hd : k.cdc.UnmarshalQuery bz with
      | error e => simp [hd] at hget
      | ok q =>
        simp only [hd, Except.ok.injEq] at hget
        subst hget
        refine List.mem_filterMap.2 ⟨(k.types.GetRegisteredQueryByIDKey id, bz), ?_, ?_⟩
        · refine List.mem_filter.2 ⟨KVStore.mem_of_Get store _ bz hs, ?_⟩
          exact List.isPrefixOf_iff_prefix.2 (List.prefix_append _ _)
        · simp [hd, Except.toOption]
  · intro query hq
    obtain ⟨e, he, hdec⟩ := List.mem_filterMap.1 hq
    obtain ⟨hmem, q, hkey, hdec2⟩ := hentry e he
    have hqq : q = query := by
      have := Except.eq_ok_of_toOption _ _ hdec
      rw [hdec2] at this
      exact Except.ok.inj this
    subst hqq
    unfold GetQueryByID
    rw [← hkey, KVStore.Get_of_mem store e.1 e.2 hinv.1 hmem]
    simp only [hdec2]
  · have hsorted : (store.filter fun kv => k.types.RegisteredQueryKey.isPrefixOf kv.1).Pairwise
        (fun a b => a.1 < b.1) := (List.pairwise_map.1 hinv.1).filter _
    refine List.Pairwise.filterMap _ ?_ (List.Pairwise.and_mem.1 hsorted)
    intro a b hab qa hqa qb hqb
    obtain ⟨ha, hb, hlt⟩ := hab
    obtain ⟨-, q1, hk1, hd1⟩ := hentry a ha
    obtain ⟨-, q2, hk2, hd2⟩ := hentry b hb
    have h1 : q1 = qa := by
      have := Except.eq_ok_of_toOption _ _ hqa
      rw [hd1] at this
      exact Except.ok.inj this
    have h2 : q2 = qb := by
      have := Except.eq_ok_of_toOption _ _ hqb
      rw [hd2] at this
      exact Except.ok.inj this
    subst h1; subst h2
    rw [← hk1, ← hk2]
    exact hlt

theorem GetQueryByID_SaveQuery_self (k : Keeper) (store : KVStore) (query : RegisteredQuery)
    (hrt : k.cdc.RoundTripsQuery) (hok : (SaveQuery k store query).1 = none) :
    GetQueryByID k (SaveQuery k store query).2 query.Id = .ok query.withSentinel := by
  obtain ⟨bz, hm, hst⟩ := SaveQuery_ok_store k store query hok
  rw [hst]
  unfold GetQueryByID
  rw [KVStore.Get_Set_self]
  simp only [hrt _ _ hm]

/-- C19: on every store the keeper built (codec that decodes what it encoded,
separate key spaces), `GetAllRegisteredQueries` returns, without a panic and in
ascending key order, a list whose entries are exactly the queries
`GetQueryByID` returns: every stored query is listed, every entry is the stored
query of its own id (so no entry comes from a stored result, a replay marker or
the counter), and no two entries share an id.  A query just saved with
`SaveQuery` is listed; after `RemoveQueryByID` no entry has the key of the
removed id. -/
theorem GetAllRegisteredQueries_is_registry (k : Keeper) (store : KVStore)
    (hrt : k.cdc.RoundTripsQuery) (hpf : k.types.PrefixFree) (hreach : Reachable k store) :
    (∃ queries, GetAllRegisteredQueries k store = .returned queries ∧
      (∀ id query, GetQueryByID k store id = .ok query → query ∈ queries) ∧
      (∀ query ∈ queries, GetQueryByID k store query.Id = .ok query) ∧
      (queries.map fun q => q.Id).Nodup ∧
      queries.Pairwise (fun a b =>
        k.types.GetRegisteredQueryByIDKey a.Id < k.types.GetRegisteredQueryByIDKey b.Id)) ∧
    (∀ query, query.Id < 2 ^ 64 → (SaveQuery k store query).1 = none →
      ∃ queries, GetAllRegisteredQueries k (SaveQuery k store query).2 = .returned queries ∧
        query.withSentinel ∈ queries) ∧
    (∀ id, ∃ queries, GetAllRegisteredQueries k (RemoveQueryByID k store id) =
        .returned queries ∧
      ∀ query ∈ queries,
        k.types.GetRegisteredQueryByIDKey query.Id ≠ k.types.GetRegisteredQueryByIDKey id) := by
  have hinv := Reachable.storeInv k store hrt hpf hreach
  refine ⟨?_, ?_, ?_⟩
  · obtain ⟨queries, hall, hin, hout, hord⟩ := GetAllRegisteredQueries_of_inv k store hinv
    refine ⟨queries, hall, hin, hout, ?_, hord⟩
    rw [List.Nodup, List.pairwise_map]
    refine hord.imp ?_
    intro a b hlt heq
    rw [heq] at hlt
    exact lt_irrefl _ hlt
  · intro query hlt hok
    obtain ⟨queries, hall, hin, -, -⟩ := GetAllRegisteredQueries_of_inv k _
      (StoreInv_SaveQuery k store query hrt hlt hinv)
    exact ⟨queries, hall, hin _ _ (GetQueryByID_SaveQuery_self k store query hrt hok)⟩
  · intro id
    obtain ⟨queries, hall, -, hout, -⟩ := GetAllRegisteredQueries_of_inv k _
      (StoreInv_Delete k store (k.types.GetRegisteredQueryByIDKey id) hinv)
    refine ⟨queries, hall, ?_⟩
    intro query hq hkey
    have hget := hout query hq
    unfold GetQueryByID at hget
    rw [hkey] at hget
    simp only [KVStore.Get_Delete_self] at hget
    simp at hget

/-- Instance of C19: the store that holds query 7, a result for it and a replay
marker lists query 7 alone. -/
theorem GetAllRegisteredQueries_is_registry_witness :
    Reachable Wire.keeper
      ((KeeperCall.SaveTransactionAsProcessed 7 [10, 11]).run Wire.keeper
        ((KeeperCall.SaveKVQueryResult ⟨30⟩ 7 (Wire.result7 1 150)).run Wire.keeper
          ((KeeperCall.SaveQuery (Wire.query7 (some ⟨1, 100⟩))).run Wire.keeper []))) ∧
    GetAllRegisteredQueries Wire.keeper
      ((KeeperCall.SaveTransactionAsProcessed 7 [10, 11]).run Wire.keeper
        ((KeeperCall.SaveKVQueryResult ⟨30⟩ 7 (Wire.result7 1 150)).run Wire.keeper
          ((KeeperCall.SaveQuery (Wire.query7 (some ⟨1, 100⟩))).run Wire.keeper []))) =
      .returned [{ Wire.query7 (some ⟨1, 150⟩) with LastSubmittedResultLocalHeight := 30 }] ∧
    ∃ queries, GetAllRegisteredQueries Wire.keeper
        ((KeeperCall.SaveTransactionAsProcessed 7 [10, 11]).run Wire.keeper
          ((KeeperCall.SaveKVQueryResult ⟨30⟩ 7 (Wire.result7 1 150)).run Wire.keeper
            ((KeeperCall.SaveQuery (Wire.query7 (some ⟨1, 100⟩))).run Wire.keeper []))) =
        .returned queries ∧
      (queries.map fun q => q.Id).Nodup := by
  have hreach : Reachable Wire.keeper
      ((KeeperCall.SaveTransactionAsProcessed 7 [10, 11]).run Wire.keeper
        ((KeeperCall.SaveKVQueryResult ⟨30⟩ 7 (Wire.result7 1 150)).run Wire.keeper
          ((KeeperCall.SaveQuery (Wire.query7 (some ⟨1, 100⟩))).run Wire.keeper []))) :=
    .step _ (.step _ (.step _ .empty (show (7 : Nat) < 2 ^ 64 by decide)) trivial) trivial
  refine ⟨hreach, rfl, ?_⟩
  obtain ⟨queries, h1, -, -, h2, -⟩ :=
    (GetAllRegisteredQueries_is_registry Wire.keeper _ Wire.codec_roundTripsQuery
      Wire.keeper_prefixFree hreach).1
  exact ⟨queries, h1, h2⟩

end Neutron

namespace Neutron

/-! ## Errors of `SaveKVQueryResult` (C20) -/

theorem RegisteredQuery.withSentinel_of_some (query : RegisteredQuery) (height : Height)
    (h : query.LastSubmittedResultRemoteHeight = some height) : query.withSentinel = query := by
  cases query
  simp only at h
  simp [RegisteredQuery.withSentinel, h]

/-- C20, as the code behaves: `SaveKVQueryResult` can return an error and leave
a changed store.  The codec cannot encode a registered query; the call for the
registered id 7 returns an error, yet the cleared result, absent before, is
stored after the call. -/
theorem SaveKVQueryResult_error_keeps_result :
    GetQueryByID Wire.failingKeeper (Wire.store7 ⟨1, 100⟩) 7 =
      .ok (Wire.query7 (some ⟨1, 100⟩)) ∧
    GetQueryResultByID Wire.failingKeeper (Wire.store7 ⟨1, 100⟩) 7 = .error .ErrNoQueryResult ∧
    (SaveKVQueryResult Wire.failingKeeper ⟨30⟩ (Wire.store7 ⟨1, 100⟩) 7
      (Wire.result7 1 150)).1 ≠ none ∧
    (SaveKVQueryResult Wire.failingKeeper ⟨30⟩ (Wire.store7 ⟨1, 100⟩) 7
      (Wire.result7 1 150)).2 ≠ Wire.store7 ⟨1, 100⟩ ∧
    GetQueryResultByID Wire.failingKeeper
      (SaveKVQueryResult Wire.failingKeeper ⟨30⟩ (Wire.store7 ⟨1, 100⟩) 7
        (Wire.result7 1 150)).2 7 = .ok (clearQueryResult (Wire.result7 1 150)) :=
  ⟨rfl, rfl, by decide, by decide, rfl⟩

/-- C20, amended: whenever `SaveKVQueryResult` returns an error, every registry
record reads as before (the query's heights have not changed), and the store
after the call is the store before it unless the error comes from encoding the
query: then the encoding of the cleared result has been written under the
result key of the stored query, and nothing else has changed.  When no record
is stored under the id the error is `ErrInvalidQueryID`. -/
theorem SaveKVQueryResult_error_frame (k : Keeper) (ctx : Context) (store : KVStore) (id : Nat)
    (r : QueryResult) (err : Error)
    (hkeys : k.types.RegisteredQueryKey ≠ k.types.RegisteredQueryResultKey)
    (hfail : (SaveKVQueryResult k ctx store id r).1 = some err) :
    (store.Get (k.types.GetRegisteredQueryByIDKey id) = none →
      err.Cause = .ErrInvalidQueryID ∧ (SaveKVQueryResult k ctx store id r).2 = store) ∧
    (∀ j, GetQueryByID k (SaveKVQueryResult k ctx store id r).2 j = GetQueryByID k store j) ∧
    ((SaveKVQueryResult k ctx store id r).2 = store ∨
      ∃ query bz e, getRegisteredQueryByID k store id = .ok query ∧
        k.cdc.MarshalResult (clearQueryResult r) = .ok bz ∧
        k.cdc.MarshalQuery
          { query with
            LastSubmittedResultRemoteHeight := some (NewHeight r.Revision r.Height)
            LastSubmittedResultLocalHeight := uint64 ctx.BlockHeight } = .error e ∧
        (SaveKVQueryResult k ctx store id r).2 =
          store.Set (k.types.GetRegisteredQueryResultByIDKey query.Id) bz) := by
  have hshape : (SaveKVQueryResult k ctx store id r).2 = store ∨
      ∃ query bz e, getRegisteredQueryByID k store id = .ok query ∧
        k.cdc.MarshalResult (clearQueryResult r) = .ok bz ∧
        k.cdc.MarshalQuery
          { query with
            LastSubmittedResultRemoteHeight := some (NewHeight r.Revision r.Height)
            LastSubmittedResultLocalHeight := uint64 ctx.BlockHeight } = .error e ∧
        (SaveKVQueryResult k ctx store id r).2 =
          store.Set (k.types.GetRegisteredQueryResultByIDKey query.Id) bz := by
    unfold SaveKVQueryResult at hfail ⊢
    cases hq : getRegisteredQueryByID k store id with
    | error e => exact Or.inl rfl
    | ok query =>
      simp only [hq] at hfail ⊢
      rw [saveKVQueryResult_store]
      cases hm : k.cdc.MarshalResult (clearQueryResult r) with
      | error e => exact Or.inl rfl
      | ok bz =>
        right
        have hsq := SaveQuery_eq k (store.Set (k.types.GetRegisteredQueryResultByIDKey query.Id) bz)
          (updateLastLocalHeight (updateLastRemoteHeight query (NewHeight r.Revision r.Height))
            (uint64 ctx.BlockHeight))
        rw [RegisteredQuery.withSentinel_of_some _ (NewHeight r.Revision r.Height) rfl] at hsq
        cases hmq : k.cdc.MarshalQuery
            (updateLastLocalHeight (updateLastRemoteHeight query
              (NewHeight r.Revision r.Height)) (uint64 ctx.BlockHeight)) with
        | error e =>
          rw [hmq] at hsq
          refine ⟨query, bz, e, rfl, rfl, hmq, ?_⟩
          dsimp only
          rw [hsq]
        | ok bzQ =>
          rw [hmq] at hsq
          unfold saveKVQueryResult at hfail
          simp only [hm, hsq] at hfail
          simp at hfail
  refine ⟨?_, ?_, hshape⟩
  · intro hnone
    unfold SaveKVQueryResult getRegisteredQueryByID at hfail ⊢
    simp only [hnone, Option.some.injEq] at hfail ⊢
    subst hfail
    exact ⟨rfl, trivial⟩
  · intro j
    rcases hshape with h | ⟨query, bz, e, -, -, -, h⟩
    · rw [h]
    · rw [h]
      unfold GetQueryByID
      rw [KVStore.Get_Set_of_ne _ _ _ _ (Types.queryKey_ne_resultKey k.types hkeys j query.Id)]

/-- Instance of C20, amended: an unregistered id, and the failing codec. -/
theorem SaveKVQueryResult_error_frame_witness :
    (SaveKVQueryResult Wire.keeper ⟨30⟩ (Wire.store7 ⟨1, 100⟩) 9 (Wire.result7 1 150)).1 =
      some (.Wrap (.Wrap .ErrInvalidQueryID "query with ID 9 not found")
        "failed to get registered query") ∧
    (SaveKVQueryResult Wire.keeper ⟨30⟩ (Wire.store7 ⟨1, 100⟩) 9 (Wire.result7 1 150)).2 =
      Wire.store7 ⟨1, 100⟩ :=
  ⟨rfl,
    ((SaveKVQueryResult_error_frame Wire.keeper ⟨30⟩ (Wire.store7 ⟨1, 100⟩) 9
      (Wire.result7 1 150) _ Wire.keeper_prefixes_ne rfl).1 (by decide)).2⟩

end Neutron

namespace Neutron

/-! ## Scope of a replay marker (C21) -/

theorem Types.markerKey_injective (types : Types) (q q2 : Nat) (h h2 : Bytes)
    (hq : q < 2 ^ 64) (hq2 : q2 < 2 ^ 64)
    (heq : types.GetSubmittedTransactionIDForQueryKey q h =
      types.GetSubmittedTransactionIDForQueryKey q2 h2) : q = q2 ∧ h = h2 := by
  simp only [Types.GetSubmittedTransactionIDForQueryKey, List.append_assoc] at heq
  have h1 := List.append_cancel_left heq
  have h3 := List.append_inj h1 (by simp [Uint64ToBigEndian_length])
  exact ⟨Uint64ToBigEndian_injective q q2 hq hq2 h3.1, h3.2⟩

/-- C21: with the marker key `SubmittedTxKey ++ bigEndian(queryID) ++ txHash`
and separate key spaces, for `uint64` query ids and (q, h) different from
(q2, h2), `SaveTransactionAsProcessed` for (q, h) leaves
`CheckTransactionIsAlreadyProcessed` for (q2, h2) as it was, and leaves every
stored query and every stored query result as it was. -/
theorem SaveTransactionAsProcessed_scoped (k : Keeper) (store : KVStore) (q q2 : Nat)
    (h h2 : Bytes) (hpf : k.types.PrefixFree) (hq : q < 2 ^ 64) (hq2 : q2 < 2 ^ 64)
    (hne : (q, h) ≠ (q2, h2)) :
    k.types.GetSubmittedTransactionIDForQueryKey q h =
      k.types.SubmittedTxKey ++ Uint64ToBigEndian q ++ h ∧
    CheckTransactionIsAlreadyProcessed k (SaveTransactionAsProcessed k store q h) q2 h2 =
      CheckTransactionIsAlreadyProcessed k store q2 h2 ∧
    (∀ id, (SaveTransactionAsProcessed k store q h).Get (k.types.GetRegisteredQueryByIDKey id) =
        store.Get (k.types.GetRegisteredQueryByIDKey id) ∧
      GetQueryByID k (SaveTransactionAsProcessed k store q h) id = GetQueryByID k store id) ∧
    (∀ id, (SaveTransactionAsProcessed k store q h).Get
          (k.types.GetRegisteredQueryResultByIDKey id) =
        store.Get (k.types.GetRegisteredQueryResultByIDKey id) ∧
      GetQueryResultByID k (SaveTransactionAsProcessed k store q h) id =
        GetQueryResultByID k store id) := by
  obtain ⟨hmq, hmr, -⟩ := Types.markerKey_outside k.types hpf q h
  have hkey : k.types.GetSubmittedTransactionIDForQueryKey q2 h2 ≠
      k.types.GetSubmittedTransactionIDForQueryKey q h := by
    intro heq
    obtain ⟨h1, h3⟩ := Types.markerKey_injective k.types q2 q h2 h hq2 hq heq
    exact hne (by rw [h1, h3])
  refine ⟨rfl, ?_, fun id => ?_, fun id => ?_⟩
  · simp only [CheckTransactionIsAlreadyProcessed, SaveTransactionAsProcessed, KVStore.Has]
    rw [KVStore.Get_Set_of_ne _ _ _ _ hkey]
  · have hraw : (SaveTransactionAsProcessed k store q h).Get
        (k.types.GetRegisteredQueryByIDKey id) = store.Get (k.types.GetRegisteredQueryByIDKey id) :=
      KVStore.Get_Set_of_ne _ _ _ _ (fun e => hmq id e.symm)
    refine ⟨hraw, ?_⟩
    unfold GetQueryByID
    rw [hraw]
  · have hraw : (SaveTransactionAsProcessed k store q h).Get
        (k.types.GetRegisteredQueryResultByIDKey id) =
        store.Get (k.types.GetRegisteredQueryResultByIDKey id) :=
      KVStore.Get_Set_of_ne _ _ _ _ (fun e => hmr id e.symm)
    refine ⟨hraw, ?_⟩
    unfold GetQueryResultByID
    rw [hraw]

/-- Instance of C21: the marker (7, [10, 11]) is saved; the marker (7, [10]) and
the marker (8, [10, 11]) stay absent. -/
theorem SaveTransactionAsProcessed_scoped_witness :
    CheckTransactionIsAlreadyProcessed Wire.keeper
      (SaveTransactionAsProcessed Wire.keeper (Wire.store7 ⟨1, 100⟩) 7 [10, 11]) 7 [10] =
      CheckTransactionIsAlreadyProcessed Wire.keeper (Wire.store7 ⟨1, 100⟩) 7 [10] ∧
    CheckTransactionIsAlreadyProcessed Wire.keeper
      (SaveTransactionAsProcessed Wire.keeper (Wire.store7 ⟨1, 100⟩) 7 [10, 11]) 8 [10, 11] =
      CheckTransactionIsAlreadyProcessed Wire.keeper (Wire.store7 ⟨1, 100⟩) 8 [10, 11] :=
  ⟨(SaveTransactionAsProcessed_scoped Wire.keeper (Wire.store7 ⟨1, 100⟩) 7 7 [10, 11] [10]
      Wire.keeper_prefixFree (by decide) (by decide) (by decide)).2.1,
    (SaveTransactionAsProcessed_scoped Wire.keeper (Wire.store7 ⟨1, 100⟩) 7 8 [10, 11] [10, 11]
      Wire.keeper_prefixFree (by decide) (by decide) (by decide)).2.1⟩

/-! ## Frame of `UpdateLastLocalHeight` (C22) -/

/-- C22, as the code behaves: `UpdateLastLocalHeight` can fail for a registered
id.  Query 7 is registered, the codec cannot encode a registered query, and the
call returns an error whose root is `ErrProtoMarshal`. -/
theorem UpdateLastLocalHeight_fails_on_registered :
    GetQueryByID Wire.failingKeeper (Wire.store7 ⟨1, 100⟩) 7 =
      .ok (Wire.query7 (some ⟨1, 100⟩)) ∧
    (UpdateLastLocalHeight Wire.failingKeeper (Wire.store7 ⟨1, 100⟩) 7 50).1 =
      some (.Wrap .ErrProtoMarshal "failed to marshal registered query: marshal failure") ∧
    (UpdateLastLocalHeight Wire.failingKeeper (Wire.store7 ⟨1, 100⟩) 7 50).1 ≠ none :=
  ⟨rfl, rfl, by decide⟩

/-- C22, amended: in a store the keeper built (codec that decodes what it
encoded, separate key spaces), for a registered id with stored query `query`:
when the codec encodes the query with the new local height,
`UpdateLastLocalHeight` returns no error and afterwards `GetQueryByID` for the
id returns `query` with only `LastSubmittedResultLocalHeight` replaced, every
other `uint64` id reads as before and every result reads as before; when the
codec fails to encode it, the call fails with `ErrProtoMarshal` and leaves the
store unchanged.  For an id with no record the call fails with
`ErrInvalidQueryID` and leaves the store unchanged. -/
theorem UpdateLastLocalHeight_frame (k : Keeper) (store : KVStore) (id n : Nat)
    (hrt : k.cdc.RoundTripsQuery) (hpf : k.types.PrefixFree) (hreach : Reachable k store) :
    (∀ query, GetQueryByID k store id = .ok query →
      (∀ bz, k.cdc.MarshalQuery { query with LastSubmittedResultLocalHeight := n } = .ok bz →
        (UpdateLastLocalHeight k store id n).1 = none ∧
        GetQueryByID k (UpdateLastLocalHeight k store id n).2 id =
          .ok { query with LastSubmittedResultLocalHeight := n } ∧
        (∀ j, j < 2 ^ 64 → id < 2 ^ 64 → j ≠ id →
          GetQueryByID k (UpdateLastLocalHeight k store id n).2 j = GetQueryByID k store j) ∧
        (∀ j, GetQueryResultByID k (UpdateLastLocalHeight k store id n).2 j =
          GetQueryResultByID k store j)) ∧
      (∀ e, k.cdc.MarshalQuery { query with LastSubmittedResultLocalHeight := n } = .error e →
        (∃ err, (UpdateLastLocalHeight k store id n).1 = some err ∧
          err.Cause = .ErrProtoMarshal) ∧
        (UpdateLastLocalHeight k store id n).2 = store)) ∧
    (store.Get (k.types.GetRegisteredQueryByIDKey id) = none →
      (∃ err, (UpdateLastLocalHeight k store id n).1 = some err ∧
        err.Cause = .ErrInvalidQueryID) ∧
      (UpdateLastLocalHeight k store id n).2 = store) := by
  have hinv := Reachable.storeInv k store hrt hpf hreach
  constructor
  · intro query hget
    have hget2 := (getRegisteredQueryByID_eq_ok_iff k store id query).2 hget
    obtain ⟨-, hrem, hkey⟩ := StoreInv_getRegisteredQueryByID k store id query hinv hget2
    obtain ⟨height, hheight⟩ := Option.ne_none_iff_exists'.1 hrem
    have hsent : RegisteredQuery.withSentinel { query with LastSubmittedResultLocalHeight := n } =
        { query with LastSubmittedResultLocalHeight := n } :=
      RegisteredQuery.withSentinel_of_some _ height hheight
    have hupd : UpdateLastLocalHeight k store id n =
        SaveQuery k store { query with LastSubmittedResultLocalHeight := n } := by
      simp only [UpdateLastLocalHeight, hget2]
    have hsq := SaveQuery_eq k store { query with LastSubmittedResultLocalHeight := n }
    rw [hsent] at hsq
    constructor
    · intro bz hm
      rw [hm] at hsq
      rw [hupd, hsq]
      dsimp only
      refine ⟨rfl, ?_, ?_, ?_⟩
      · unfold GetQueryByID
        rw [← hkey, KVStore.Get_Set_self]
        simp only [hrt _ _ hm]
      · intro j hj hid hne
        unfold GetQueryByID
        rw [← hkey, KVStore.Get_Set_of_ne _ _ _ _ (Types.queryKey_ne_of_ne k.types j id hj hid hne)]
      · intro j
        unfold GetQueryResultByID
        rw [KVStore.Get_Set_of_ne _ _ _ _
          (fun e => Types.queryKey_ne_resultKey k.types hpf.1.ne query.Id j e.symm)]
    · intro e hm
      rw [hm] at hsq
      rw [hupd, hsq]
      exact ⟨⟨_, rfl, rfl⟩, rfl⟩
  · intro hnone
    simp only [UpdateLastLocalHeight, getRegisteredQueryByID, hnone]
    exact ⟨⟨_, rfl, rfl⟩, trivial⟩

/-- Instance of C22, amended: the local height of query 7 is set to 50. -/
theorem UpdateLastLocalHeight_frame_witness :
    Reachable Wire.keeper
      ((KeeperCall.SaveQuery (Wire.query7 (some ⟨1, 100⟩))).run Wire.keeper []) ∧
    (UpdateLastLocalHeight Wire.keeper
      ((KeeperCall.SaveQuery (Wire.query7 (some ⟨1, 100⟩))).run Wire.keeper []) 7 50).1 = none ∧
    GetQueryByID Wire.keeper
      (UpdateLastLocalHeight Wire.keeper
        ((KeeperCall.SaveQuery (Wire.query7 (some ⟨1, 100⟩))).run Wire.keeper []) 7 50).2 7 =
      .ok { Wire.query7 (some ⟨1, 100⟩) with LastSubmittedResultLocalHeight := 50 } := by
  have hreach : Reachable Wire.keeper
      ((KeeperCall.SaveQuery (Wire.query7 (some ⟨1, 100⟩))).run Wire.keeper []) :=
    .step _ .empty (show (7 : Nat) < 2 ^ 64 by decide)
  have h := ((UpdateLastLocalHeight_frame Wire.keeper _ 7 50 Wire.codec_roundTripsQuery
    Wire.keeper_prefixFree hreach).1 (Wire.query7 (some ⟨1, 100⟩)) rfl).1 _ rfl
  exact ⟨hreach, h.1, h.2.1⟩

end Neutron

/-! ## The wasm binding: admin proposals -/

namespace Neutron

/-- C23. `validateProposalQty` accepts exactly the proposals with one field
set: it returns nil if and only if exactly one of `ParamChangeProposal`,
`ClientUpdateProposal`, `UpgradeProposal` and `ProposalExecuteMessage` is
non-nil; with none set it returns the error "no admin proposal type is present
in message", and with two or more set the error "more than one admin proposal
type is present in message". -/
theorem validateProposalQty_exactly_one (proposal : AdminProposal) :
    (validateProposalQty proposal = none ↔
      proposal.ParamChangeProposal.isSome.toNat + proposal.ClientUpdateProposal.isSome.toNat +
        proposal.UpgradeProposal.isSome.toNat +
        proposal.ProposalExecuteMessage.isSome.toNat = 1) ∧
    (proposal.ParamChangeProposal.isSome.toNat + proposal.ClientUpdateProposal.isSome.toNat +
        proposal.UpgradeProposal.isSome.toNat +
        proposal.ProposalExecuteMessage.isSome.toNat = 0 ↔
      validateProposalQty proposal =
        some (.Errorf "no admin proposal type is present in message")) ∧
    (2 ≤ proposal.ParamChangeProposal.isSome.toNat + proposal.ClientUpdateProposal.isSome.toNat +
        proposal.UpgradeProposal.isSome.toNat +
        proposal.ProposalExecuteMessage.isSome.toNat ↔
      validateProposalQty proposal =
        some (.Errorf "more than one admin proposal type is present in message")) := by
  rcases proposal with ⟨a, b, c, d⟩
  cases a <;> cases b <;> cases c <;> cases d <;>
    simp [validateProposalQty]

end Neutron

namespace Neutron

/-- The default branch of `performSubmitAdminProposalLegacy` is taken exactly
when none of the three legacy fields is set. -/
theorem performSubmitAdminProposalLegacy_default_iff {σ : Type} (m : Messenger σ)
    (x : Externals) (state : σ) (contractAddr : AccAddress) (proposal : AdminProposal) :
    (performSubmitAdminProposalLegacy m x state contractAddr proposal).1 =
        .error (.Wrap .ErrInvalidRequest "unexpected legacy admin proposal structure") ↔
      proposal.ParamChangeProposal = none ∧ proposal.UpgradeProposal = none ∧
        proposal.ClientUpdateProposal = none := by
  have tail : ∀ (r : Except Error MsgSubmitProposalLegacy),
      (∀ err, r = .error err → ∃ cause description, err = .Wrap cause description ∧
        description ≠ "unexpected legacy admin proposal structure") →
      (match r with
        | .error err => ((.error err : Except Error Response), state)
        | .ok msg =>
          match x.ValidateBasicSubmitProposalLegacy msg with
          | some err =>
            (.error (.Wrap err "failed to validate incoming SubmitAdminProposal message"), state)
          | none =>
            match m.Adminserver.SubmitProposalLegacy state msg with
            | (.error err, state) => (.error (.Wrap err "failed to submit proposal"), state)
            | (.ok response, state) => (.ok response, state)).1 ≠
        .error (.Wrap .ErrInvalidRequest "unexpected legacy admin proposal structure") := by
    intro r hr
    cases r with
    | error err =>
      obtain ⟨cause, description, rfl, hd⟩ := hr err rfl
      intro h
      simp only [Except.error.injEq, Error.Wrap.injEq] at h
      exact hd h.2
    | ok msg =>
      dsimp only
      cases x.ValidateBasicSubmitProposalLegacy msg with
      | some err => simp
      | none =>
        dsimp only
        rcases hs : m.Adminserver.SubmitProposalLegacy state msg with ⟨_ | _, s⟩ <;> simp
  have wrapped : ∀ (r : Except Error MsgSubmitProposalLegacy) (d : String),
      d ≠ "unexpected legacy admin proposal structure" →
      ∀ err, ((match r with
        | .error err => .error (.Wrap err d)
        | .ok msg => .ok msg) : Except Error MsgSubmitProposalLegacy) = .error err →
      ∃ cause description, err = .Wrap cause description ∧
        description ≠ "unexpected legacy admin proposal structure" := by
    intro r d hd err h
    cases r with
    | error e =>
      simp only [Except.error.injEq] at h
      exact ⟨e, d, h.symm, hd⟩
    | ok msg => simp at h
  rcases proposal with ⟨a, b, c, d⟩
  cases a with
  | some p =>
    simp only [reduceCtorEq, false_and, iff_false]
    exact tail _ (wrapped _ "failed to set content on ParameterChangeProposal" (by decide))
  | none =>
    cases b with
    | some p =>
      simp only [reduceCtorEq, false_and, and_false, iff_false]
      exact tail _ (wrapped _ "failed to set content on UpgradeProposal" (by decide))
    | none =>
      cases c with
      | some p =>
        simp only [reduceCtorEq, and_false, iff_false]
        exact tail _ (wrapped _ "failed to set content on ClientUpdateProposal" (by decide))
      | none => simp [performSubmitAdminProposalLegacy]

/-- A proposal that `validateProposalQty` accepts is legacy exactly when it has
no message to execute. -/
theorem isLegacyProposal_of_valid (proposal : AdminProposal)
    (hvalid : validateProposalQty proposal = none) :
    (isLegacyProposal proposal = true ∧ proposal.ProposalExecuteMessage = none ∧
        ¬ (proposal.ParamChangeProposal = none ∧ proposal.UpgradeProposal = none ∧
          proposal.ClientUpdateProposal = none)) ∨
      (isLegacyProposal proposal = false ∧ proposal.ProposalExecuteMessage ≠ none) := by
  rcases proposal with ⟨a, b, c, d⟩
  revert hvalid
  cases a <;> cases b <;> cases c <;> cases d <;>
    simp [validateProposalQty, isLegacyProposal]

/-- C24. Admin-proposal routing is safe.  For every proposal on which
`validateProposalQty` returns nil, `submitAdminProposal` either takes the legacy
path (it continues from the result of `performSubmitAdminProposalLegacy`), and
that call does not end in the default branch "unexpected legacy admin proposal
structure", or it takes the non-legacy path (it continues from the result of
`performSubmitAdminProposal`), where `ProposalExecuteMessage` is non-nil and the
call does not panic on the dereference.  In both cases `submitAdminProposal`
returns. -/
theorem submitAdminProposal_routing_safe {σ : Type} (m : Messenger σ) (x : Externals)
    (state : σ) (contractAddr : AccAddress) (proposal : AdminProposal)
    (hvalid : validateProposalQty proposal = none) :
    ((isLegacyProposal proposal = true ∧
        submitAdminProposal m x state contractAddr proposal =
          (match performSubmitAdminProposalLegacy m x state contractAddr proposal with
            | (.error err, state) =>
              (.returned ⟨[], [], some (.Wrap err "failed to submit admin proposal legacy")⟩,
                state)
            | (.ok resp, state) =>
              match x.jsonMarshal Response resp with
              | .error err => (.returned ⟨[], [], some (.Wrap err "marshal json failed")⟩, state)
              | .ok data => (.returned ⟨[], [data], none⟩, state)) ∧
        (performSubmitAdminProposalLegacy m x state contractAddr proposal).1 ≠
          .error (.Wrap .ErrInvalidRequest "unexpected legacy admin proposal structure")) ∨
      (isLegacyProposal proposal = false ∧
        proposal.ProposalExecuteMessage ≠ none ∧
        submitAdminProposal m x state contractAddr proposal =
          (match performSubmitAdminProposal m x state contractAddr proposal with
            | (.panicked message, state) => (.panicked message, state)
            | (.returned (.error err), state) =>
              (.returned ⟨[], [], some (.Wrap err "failed to submit admin proposal")⟩, state)
            | (.returned (.ok resp), state) =>
              match x.jsonMarshal Response resp with
              | .error err => (.returned ⟨[], [], some (.Wrap err "marshal json failed")⟩, state)
              | .ok data => (.returned ⟨[], [data], none⟩, state)) ∧
        ∃ result, (performSubmitAdminProposal m x state contractAddr proposal).1 =
          .returned result)) ∧
    ∃ result, (submitAdminProposal m x state contractAddr proposal).1 = .returned result := by
  have hperform : proposal.ProposalExecuteMessage ≠ none →
      ∃ result, (performSubmitAdminProposal m x state contractAddr proposal).1 =
        .returned result := by
    intro hne
    cases hmsg : proposal.ProposalExecuteMessage with
    | none => exact absurd hmsg hne
    | some executeMessage =>
      simp only [performSubmitAdminProposal, hmsg]
      cases m.AdminKeeper.UnmarshalInterfaceJSON executeMessage.Message with
      | error err => exact ⟨_, rfl⟩
      | ok sdkMsg =>
        dsimp only
        rcases x.GetSigners sdkMsg with _ | ⟨signer, _ | ⟨signer2, rest⟩⟩
        · exact ⟨_, rfl⟩
        · dsimp only
          split
          · exact ⟨_, rfl⟩
          · cases x.NewMsgSubmitProposal [sdkMsg] contractAddr with
            | error err => exact ⟨_, rfl⟩
            | ok msg =>
              dsimp only
              cases x.ValidateBasicSubmitProposal msg with
              | some err => exact ⟨_, rfl⟩
              | none =>
                dsimp only
                rcases m.Adminserver.SubmitProposal state msg with ⟨_ | _, s⟩ <;>
                  exact ⟨_, rfl⟩
        · exact ⟨_, rfl⟩
  rcases isLegacyProposal_of_valid proposal hvalid with ⟨hlegacy, _, hsome⟩ | ⟨hlegacy, hmsg⟩
  · have hstep : submitAdminProposal m x state contractAddr proposal =
        (match performSubmitAdminProposalLegacy m x state contractAddr proposal with
          | (.error err, state) =>
            (.returned ⟨[], [], some (.Wrap err "failed to submit admin proposal legacy")⟩,
              state)
          | (.ok resp, state) =>
            match x.jsonMarshal Response resp with
            | .error err => (.returned ⟨[], [], some (.Wrap err "marshal json failed")⟩, state)
            | .ok data => (.returned ⟨[], [data], none⟩, state)) := by
      simp only [submitAdminProposal, hvalid, hlegacy, if_true]
    refine ⟨Or.inl ⟨hlegacy, hstep, ?_⟩, ?_⟩
    · intro h
      exact hsome ((performSubmitAdminProposalLegacy_default_iff m x state contractAddr
        proposal).1 h)
    · rw [hstep]
      rcases performSubmitAdminProposalLegacy m x state contractAddr proposal with
        ⟨_ | resp, s⟩
      · exact ⟨_, rfl⟩
      · dsimp only
        cases x.jsonMarshal Response resp <;> exact ⟨_, rfl⟩
  · have hstep : submitAdminProposal m x state contractAddr proposal =
        (match performSubmitAdminProposal m x state contractAddr proposal with
          | (.panicked message, state) => (.panicked message, state)
          | (.returned (.error err), state) =>
            (.returned ⟨[], [], some (.Wrap err "failed to submit admin proposal")⟩, state)
          | (.returned (.ok resp), state) =>
            match x.jsonMarshal Response resp with
            | .error err => (.returned ⟨[], [], some (.Wrap err "marshal json failed")⟩, state)
            | .ok data => (.returned ⟨[], [data], none⟩, state)) := by
      simp only [submitAdminProposal, hvalid, hlegacy, Bool.false_eq_true, if_false]
    refine ⟨Or.inr ⟨hlegacy, hmsg, hstep, hperform hmsg⟩, ?_⟩
    rw [hstep]
    obtain ⟨result, hresult⟩ := hperform hmsg
    rcases hp : performSubmitAdminProposal m x state contractAddr proposal with ⟨o, s⟩
    rw [hp] at hresult
    dsimp only at hresult
    subst hresult
    rcases result with _ | resp
    · exact ⟨_, rfl⟩
    · dsimp only
      cases x.jsonMarshal Response resp <;> exact ⟨_, rfl⟩

/-- Witness for C24 at a proposal with the parameter change alone, on the
journal messenger. -/
theorem submitAdminProposal_routing_safe_witness :
    validateProposalQty Wire.paramChangeOnly = none ∧
    isLegacyProposal Wire.paramChangeOnly = true ∧
    (submitAdminProposal Wire.messenger Wire.externals [] Wire.owner7 Wire.paramChangeOnly).2 =
      ["SubmitProposalLegacy from neutron1owner"] ∧
    ∃ result, (submitAdminProposal Wire.messenger Wire.externals [] Wire.owner7
      Wire.paramChangeOnly).1 = .returned result :=
  ⟨rfl, rfl, rfl,
    (submitAdminProposal_routing_safe Wire.messenger Wire.externals [] Wire.owner7
      Wire.paramChangeOnly rfl).2⟩

end Neutron

/-! ## The wasm binding: burning -/

namespace Neutron

/-- C27. Burn is restricted to the caller's own funds.  For every contract
address `c` and `BurnTokens` message `b`: if `b.BurnFromAddress` is non-empty and
differs from the string form of `c`, then `PerformBurn` returns the
`InvalidRequest` error "BurnFromAddress must be \"\"" and leaves the chain state
as it was, whatever the token-factory message server is, so the `Burn` handler
is not invoked.  In every case the only request the `Burn` handler can receive
is `NewMsgBurn(c.String(), coin)`: either `PerformBurn` ends before the handler
with a result that does not depend on the server, or its result is that of
`Burn` on this request; the request has `Sender = c` as soon as the constructor
`NewMsgBurn` puts its first argument in `Sender`. -/
theorem PerformBurn_restricted_to_caller {σ : Type} (x : Externals) (state : σ)
    (contractAddr : AccAddress) (burn : BindingBurnTokens)
    (hNew : ∀ sender coin, (x.NewMsgBurn sender coin).Sender = sender) :
    (burn.BurnFromAddress ≠ "" → burn.BurnFromAddress ≠ x.addrString contractAddr →
      ∀ f : TokenFactoryMsgServer σ, PerformBurn x f state contractAddr burn =
        (some (.InvalidRequest "BurnFromAddress must be \"\""), state)) ∧
    ∃ sdkMsg : MsgBurn,
      sdkMsg = x.NewMsgBurn (x.addrString contractAddr)
        { Denom := burn.Denom, Amount := burn.Amount } ∧
      sdkMsg.Sender = x.addrString contractAddr ∧
      ((∃ err, ∀ f : TokenFactoryMsgServer σ,
          PerformBurn x f state contractAddr burn = (some err, state)) ∨
        ((burn.BurnFromAddress = "" ∨ burn.BurnFromAddress = x.addrString contractAddr) ∧
          ∀ f : TokenFactoryMsgServer σ, PerformBurn x f state contractAddr burn =
            match f.Burn state sdkMsg with
            | (.error err, state) => (some (.Wrap err "burning coins from message"), state)
            | (.ok _, state) => (none, state))) := by
  refine ⟨?_, _, rfl, hNew _ _, ?_⟩
  · intro h1 h2 f
    rw [PerformBurn, if_pos ⟨h1, h2⟩]
  · by_cases hguard : burn.BurnFromAddress ≠ "" ∧ burn.BurnFromAddress ≠ x.addrString contractAddr
    · exact Or.inl ⟨.InvalidRequest "BurnFromAddress must be \"\"", fun f => by
        rw [PerformBurn, if_pos hguard]⟩
    · cases hv : x.ValidateBasicBurn (x.NewMsgBurn (x.addrString contractAddr)
          { Denom := burn.Denom, Amount := burn.Amount }) with
      | some err =>
        exact Or.inl ⟨err, fun f => by rw [PerformBurn, if_neg hguard]; simp only [hv]⟩
      | none =>
        refine Or.inr ⟨?_, fun f => by rw [PerformBurn, if_neg hguard]; simp only [hv]⟩
        by_cases h1 : burn.BurnFromAddress = ""
        · exact Or.inl h1
        · by_cases h2 : burn.BurnFromAddress = x.addrString contractAddr
          · exact Or.inr h2
          · exact absurd ⟨h1, h2⟩ hguard

/-- Witness for C27 on the journal messenger: a burn that names another account
is refused with an empty journal, and a burn of the caller's own funds reaches
the handler with the caller as sender. -/
theorem PerformBurn_restricted_to_caller_witness :
    (∀ sender coin, (Wire.externals.NewMsgBurn sender coin).Sender = sender) ∧
    PerformBurn Wire.externals Wire.messenger.TokenFactory [] Wire.owner7 Wire.burnOther =
      (some (.InvalidRequest "BurnFromAddress must be \"\""), []) ∧
    PerformBurn Wire.externals Wire.messenger.TokenFactory [] Wire.owner7 Wire.burnOwn =
      (none, ["Burn from neutron1owner"]) :=
  ⟨fun _ _ => rfl,
    (PerformBurn_restricted_to_caller Wire.externals ([] : Wire.Journal) Wire.owner7
      Wire.burnOther (fun _ _ => rfl)).1 (by decide) (by decide) Wire.messenger.TokenFactory,
    rfl⟩

end Neutron

/-! ## The wasm binding: the sender of a request -/

namespace Neutron

/-- The loop of `performSubmitTx` appends the packed messages in order. -/
theorem performSubmitTx_loop (msgs : List ProtobufAny) (tx : MsgSubmitTx) :
    msgs.foldl
        (fun tx msg => { tx with Msgs := tx.Msgs ++ [{ TypeUrl := msg.TypeURL, Value := msg.Value }] })
        tx =
      { tx with Msgs := tx.Msgs ++ msgs.map fun msg => { TypeUrl := msg.TypeURL, Value := msg.Value } } := by
  induction msgs generalizing tx with
  | nil => simp
  | cons msg rest ih => simp [List.foldl_cons, ih]

/-- C25. A contract cannot spoof the sender.  For every contract address:

* for every register, update or remove interchain-query binding there is one
  request, whose `Sender` is the string form of the contract address and whose
  other fields are those of the binding, such that the binding either ends
  before the ICQ message server is called, with a result that does not depend
  on the server and with the state unchanged, or returns what the server
  returns on this request;
* likewise `performSubmitTx` with `FromAddress`;
* `dispatchDexMsg` does not depend on the creators written in the binding, and
  the request it hands to `handleDexMsg` has the contract address as `Creator`,
  its other fields being those of the binding. -/
theorem contract_cannot_spoof_sender {σ : Type} (x : Externals) (state : σ)
    (contractAddr : AccAddress) :
    (∀ reg : BindingRegisterInterchainQuery, ∃ msg : MsgRegisterInterchainQuery,
      msg = { QueryType := reg.QueryType, Keys := reg.Keys
              TransactionsFilter := reg.TransactionsFilter, ConnectionId := reg.ConnectionId
              UpdatePeriod := reg.UpdatePeriod, Sender := x.addrString contractAddr } ∧
      ((∃ err, ∀ m : Messenger σ,
          performRegisterInterchainQuery m x state contractAddr reg = (.error err, state)) ∨
        ∀ m : Messenger σ, performRegisterInterchainQuery m x state contractAddr reg =
          match m.Icqmsgserver.RegisterInterchainQuery state msg with
          | (.error err, state) =>
            (.error (.Wrap err "failed to register interchain query"), state)
          | (.ok response, state) => (.ok response, state))) ∧
    (∀ updateQuery : BindingUpdateInterchainQuery, ∃ msg : MsgUpdateInterchainQueryRequest,
      msg = { QueryId := updateQuery.QueryId, NewKeys := updateQuery.NewKeys
              NewUpdatePeriod := updateQuery.NewUpdatePeriod
              NewTransactionsFilter := updateQuery.NewTransactionsFilter
              Sender := x.addrString contractAddr } ∧
      ((∃ err, ∀ m : Messenger σ,
          performUpdateInterchainQuery m x state contractAddr updateQuery =
            (.error err, state)) ∨
        ∀ m : Messenger σ, performUpdateInterchainQuery m x state contractAddr updateQuery =
          match m.Icqmsgserver.UpdateInterchainQuery state msg with
          | (.error err, state) => (.error (.Wrap err "failed to update interchain query"), state)
          | (.ok response, state) => (.ok response, state))) ∧
    (∀ removeQuery : BindingRemoveInterchainQuery, ∃ msg : MsgRemoveInterchainQueryRequest,
      msg = { QueryId := removeQuery.QueryId, Sender := x.addrString contractAddr } ∧
      ((∃ err, ∀ m : CustomMessenger σ,
          performRemoveInterchainQuery m x.ValidateBasicRemoveInterchainQuery x.addrString state
            contractAddr removeQuery = (.returned (.error err), state)) ∨
        ∀ m : CustomMessenger σ,
          performRemoveInterchainQuery m x.ValidateBasicRemoveInterchainQuery x.addrString state
            contractAddr removeQuery =
          match m.Icqmsgserver.RemoveInterchainQuery state msg with
          | (.panicked message, state) => (.panicked message, state)
          | (.returned (.error err), state) =>
            (.returned (.error (.Wrap err "failed to remove interchain query")), state)
          | (.returned (.ok response), state) => (.returned (.ok response), state))) ∧
    (∀ submitTx : BindingSubmitTx, ∃ tx : MsgSubmitTx,
      tx = { FromAddress := x.addrString contractAddr
             ConnectionId := submitTx.ConnectionId, Memo := submitTx.Memo
             InterchainAccountId := submitTx.InterchainAccountId
             Timeout := submitTx.Timeout, Fee := submitTx.Fee
             Msgs := submitTx.Msgs.map fun msg =>
               { TypeUrl := msg.TypeURL, Value := msg.Value } } ∧
      ((∃ err, ∀ m : Messenger σ,
          performSubmitTx m x state contractAddr submitTx = (.error err, state)) ∨
        ∀ m : Messenger σ, performSubmitTx m x state contractAddr submitTx =
          match m.Ictxmsgserver.SubmitTx state tx with
          | (.error err, state) =>
            (.error (.Wrap err "failed to submit interchain transaction"), state)
          | (.ok response, state) => (.ok response, state))) ∧
    (∀ (m : Messenger σ) (dex : BindingDex) (creator : String),
      dispatchDexMsg m x state contractAddr (dex.withCreator creator) =
        dispatchDexMsg m x state contractAddr dex) ∧
    (∀ (m : Messenger σ) (dex : BindingDex),
      (∀ msg, dex.Deposit = some msg →
        dispatchDexMsg m x state contractAddr dex =
          handleDexMsg x x.ValidateBasicDeposit "*types.MsgDeposit" "*types.MsgDepositResponse"
            state { Creator := x.addrString contractAddr, Fields := msg.Fields }
            m.DexMsgServer.Deposit) ∧
      (∀ msg, dex.Deposit = none → dex.Withdrawal = some msg →
        dispatchDexMsg m x state contractAddr dex =
          handleDexMsg x x.ValidateBasicWithdrawal "*types.MsgWithdrawal"
            "*types.MsgWithdrawalResponse" state
            { Creator := x.addrString contractAddr, Fields := msg.Fields }
            m.DexMsgServer.Withdrawal) ∧
      (∀ msg, dex.Deposit = none → dex.Withdrawal = none → dex.PlaceLimitOrder = some msg →
        (x.LimitOrderType_value msg.OrderType = none ∧
          dispatchDexMsg m x state contractAddr dex =
            (.error (.Wrap .ErrInvalidOrderType
              ("got \"" ++ msg.OrderType ++ "\", expeted one of " ++ x.LimitOrderTypeNames)),
              state)) ∨
        ∃ orderTypeInt, x.LimitOrderType_value msg.OrderType = some orderTypeInt ∧
          dispatchDexMsg m x state contractAddr dex =
            handleDexMsg x x.ValidateBasicPlaceLimitOrder "*types.MsgPlaceLimitOrder"
              "*types.MsgPlaceLimitOrderResponse" state
              { Creator := x.addrString contractAddr, Receiver := msg.Receiver
                TokenIn := msg.TokenIn, TokenOut := msg.TokenOut
                TickIndexInToOut := msg.TickIndexInToOut, AmountIn := msg.AmountIn
                OrderType := orderTypeInt
                ExpirationTime := msg.ExpirationTime.map toInt64
                MaxAmountOut := msg.MaxAmountOut }
              m.DexMsgServer.PlaceLimitOrder) ∧
      (∀ msg, dex.Deposit = none → dex.Withdrawal = none → dex.PlaceLimitOrder = none →
        dex.CancelLimitOrder = some msg →
        dispatchDexMsg m x state contractAddr dex =
          handleDexMsg x x.ValidateBasicCancelLimitOrder "*types.MsgCancelLimitOrder"
            "*types.MsgCancelLimitOrderResponse" state
            { Creator := x.addrString contractAddr, Fields := msg.Fields }
            m.DexMsgServer.CancelLimitOrder) ∧
      (∀ msg, dex.Deposit = none → dex.Withdrawal = none → dex.PlaceLimitOrder = none →
        dex.CancelLimitOrder = none → dex.WithdrawFilledLimitOrder = some msg →
        dispatchDexMsg m x state contractAddr dex =
          handleDexMsg x x.ValidateBasicWithdrawFilledLimitOrder
            "*types.MsgWithdrawFilledLimitOrder" "*types.MsgWithdrawFilledLimitOrderResponse"
            state { Creator := x.addrString contractAddr, Fields := msg.Fields }
            m.DexMsgServer.WithdrawFilledLimitOrder) ∧
      (∀ msg, dex.Deposit = none → dex.Withdrawal = none → dex.PlaceLimitOrder = none →
        dex.CancelLimitOrder = none → dex.WithdrawFilledLimitOrder = none →
        dex.MultiHopSwap = some msg →
        dispatchDexMsg m x state contractAddr dex =
          handleDexMsg x x.ValidateBasicMultiHopSwap "*types.MsgMultiHopSwap"
            "*types.MsgMultiHopSwapResponse" state
            { Creator := x.addrString contractAddr, Fields := msg.Fields }
            m.DexMsgServer.MultiHopSwap)) ∧
    (∀ (T : Type) (ValidateBasic : T → Option Error) (typeName respName : String) (msg : T),
      (∃ err, ∀ handler : σ → T → Except Error Response × σ,
          handleDexMsg x ValidateBasic typeName respName state msg handler =
            (.error err, state)) ∨
        ∀ handler : σ → T → Except Error Response × σ,
          handleDexMsg x ValidateBasic typeName respName state msg handler =
            match handler state msg with
            | (.error err, state) => (.error (.Wrap err ("failed to execute " ++ typeName)), state)
            | (.ok resp, state) =>
              match x.jsonMarshal Response resp with
              | .error err => (.error (.Wrap err ("marshal " ++ respName ++ " failed")), state)
              | .ok data => (.ok [data], state)) := by
  refine ⟨?_, ?_, ?_, ?_, ?_, ?_, ?_⟩
  · intro reg
    refine ⟨_, rfl, ?_⟩
    cases hv : x.ValidateBasicRegisterInterchainQuery
        { QueryType := reg.QueryType, Keys := reg.Keys
          TransactionsFilter := reg.TransactionsFilter, ConnectionId := reg.ConnectionId
          UpdatePeriod := reg.UpdatePeriod, Sender := x.addrString contractAddr } with
    | some err =>
      exact Or.inl ⟨.Wrap err "failed to validate incoming RegisterInterchainQuery message",
        fun m => by simp only [performRegisterInterchainQuery, hv]⟩
    | none => exact Or.inr fun m => by simp only [performRegisterInterchainQuery, hv]
  · intro updateQuery
    refine ⟨_, rfl, ?_⟩
    cases hv : x.ValidateBasicUpdateInterchainQuery
        { QueryId := updateQuery.QueryId, NewKeys := updateQuery.NewKeys
          NewUpdatePeriod := updateQuery.NewUpdatePeriod
          NewTransactionsFilter := updateQuery.NewTransactionsFilter
          Sender := x.addrString contractAddr } with
    | some err =>
      exact Or.inl ⟨.Wrap err "failed to validate incoming UpdateInterchainQuery message",
        fun m => by simp only [performUpdateInterchainQuery, hv]⟩
    | none => exact Or.inr fun m => by simp only [performUpdateInterchainQuery, hv]
  · intro removeQuery
    refine ⟨_, rfl, ?_⟩
    cases hv : x.ValidateBasicRemoveInterchainQuery
        { QueryId := removeQuery.QueryId, Sender := x.addrString contractAddr } with
    | some err =>
      exact Or.inl ⟨.Wrap err "failed to validate incoming RemoveInterchainQuery message",
        fun m => by simp only [performRemoveInterchainQuery, hv]⟩
    | none => exact Or.inr fun m => by simp only [performRemoveInterchainQuery, hv]
  · intro submitTx
    refine ⟨_, rfl, ?_⟩
    cases hv : x.ValidateBasicSubmitTx
        { FromAddress := x.addrString contractAddr
          ConnectionId := submitTx.ConnectionId, Memo := submitTx.Memo
          InterchainAccountId := submitTx.InterchainAccountId
          Timeout := submitTx.Timeout, Fee := submitTx.Fee
          Msgs := submitTx.Msgs.map fun msg =>
            { TypeUrl := msg.TypeURL, Value := msg.Value } } with
    | some err =>
      exact Or.inl ⟨.Wrap err "failed to validate incoming SubmitTx message", fun m => by
        simp only [performSubmitTx, performSubmitTx_loop, List.nil_append, hv]⟩
    | none =>
      exact Or.inr fun m => by
        simp only [performSubmitTx, performSubmitTx_loop, List.nil_append, hv]
  · intro m dex creator
    rcases dex with ⟨a, b, c, d, e, f⟩
    cases a with
    | some v => rfl
    | none =>
      cases b with
      | some v => rfl
      | none =>
        cases c with
        | some v => rfl
        | none =>
          cases d with
          | some v => rfl
          | none =>
            cases e with
            | some v => rfl
            | none =>
              cases f with
              | some v => rfl
              | none => rfl
  · intro m dex
    rcases dex with ⟨a, b, c, d, e, f⟩
    refine ⟨?_, ?_, ?_, ?_, ?_, ?_⟩
    · intro msg h
      dsimp only at h
      subst h
      rfl
    · intro msg h1 h2
      dsimp only at h1 h2
      subst h1 h2
      rfl
    · intro msg h1 h2 h3
      dsimp only at h1 h2 h3
      subst h1 h2 h3
      cases hv : x.LimitOrderType_value msg.OrderType with
      | none =>
        refine Or.inl ⟨rfl, ?_⟩
        simp only [dispatchDexMsg, hv]
      | some orderTypeInt =>
        refine Or.inr ⟨_, rfl, ?_⟩
        simp only [dispatchDexMsg, hv]
        cases msg.ExpirationTime <;> rfl
    · intro msg h1 h2 h3 h4
      dsimp only at h1 h2 h3 h4
      subst h1 h2 h3 h4
      rfl
    · intro msg h1 h2 h3 h4 h5
      dsimp only at h1 h2 h3 h4 h5
      subst h1 h2 h3 h4 h5
      rfl
    · intro msg h1 h2 h3 h4 h5 h6
      dsimp only at h1 h2 h3 h4 h5 h6
      subst h1 h2 h3 h4 h5 h6
      rfl
  · intro T ValidateBasic typeName respName msg
    cases hv : ValidateBasic msg with
    | some err =>
      exact Or.inl ⟨.Wrap err ("failed to validate " ++ typeName), fun handler => by
        simp only [handleDexMsg, hv]⟩
    | none => exact Or.inr fun handler => by simp only [handleDexMsg, hv]

/-- Witness for C25 on the journal messenger: a deposit that names another
creator reaches the dex server with the contract as creator. -/
theorem contract_cannot_spoof_sender_witness :
    Wire.dexDeposit.Deposit = some { Creator := "neutron1victim", Fields := [1, 2, 3] } ∧
    dispatchDexMsg Wire.messenger Wire.externals [] Wire.owner7 Wire.dexDeposit =
      handleDexMsg Wire.externals Wire.externals.ValidateBasicDeposit "*types.MsgDeposit"
        "*types.MsgDepositResponse" [] { Creator := "neutron1owner", Fields := [1, 2, 3] }
        Wire.messenger.DexMsgServer.Deposit ∧
    (dispatchDexMsg Wire.messenger Wire.externals [] Wire.owner7 Wire.dexDeposit).2 =
      ["Deposit from neutron1owner"] :=
  ⟨rfl,
    ((contract_cannot_spoof_sender Wire.externals ([] : Wire.Journal) Wire.owner7).2.2.2.2.2.1
      Wire.messenger Wire.dexDeposit).1 _ rfl,
    rfl⟩

end Neutron

/-! ## The wasm binding: routing -/

namespace Neutron

/-- C26. `DispatchMsg` routing.  For every `CosmosMsg`:

* if `Custom` is nil, the message is forwarded unchanged to the wrapped
  messenger and its result is returned;
* if `Custom` fails to decode, the decoding error is returned, wrapped, with the
  chain state unchanged, whatever the collaborators are: nothing is dispatched;
* if `Custom` decodes to a `NeutronMsg`, the result is that of the handler of
  the first non-nil field in the order `SubmitTx`, `RegisterInterchainAccount`,
  `RegisterInterchainQuery`, `UpdateInterchainQuery`, `RemoveInterchainQuery`,
  `IBCTransfer`, `SubmitAdminProposal`, `CreateDenom`, `MintTokens`,
  `SetBeforeSendHook`, `ChangeAdmin`, `BurnTokens`, `AddSchedule`,
  `RemoveSchedule`, `ResubmitFailure`, `Dex`, run on the state of the call, and,
  when no field is set, that of the wrapped messenger on the unchanged
  message. -/
theorem DispatchMsg_routing {σ : Type} (m : Messenger σ) (x : Externals) (state : σ)
    (contractAddr : AccAddress) (contractIBCPortID : String) (msg : CosmosMsg) :
    (msg.Custom = none →
      DispatchMsg m x state contractAddr contractIBCPortID msg =
        Outcome.ofResult (m.Wrapped state contractAddr contractIBCPortID msg)) ∧
    (∀ custom err, msg.Custom = some custom → x.jsonUnmarshal custom = .error err →
      ∀ m2 : Messenger σ, DispatchMsg m2 x state contractAddr contractIBCPortID msg =
        (.returned ⟨[], [], some (.Wrap err "failed to decode incoming custom cosmos message")⟩,
          state)) ∧
    (∀ custom, msg.Custom = some custom → x.jsonUnmarshal custom = .ok Wire.noFields →
      DispatchMsg m x state contractAddr contractIBCPortID msg =
        Outcome.ofResult (m.Wrapped state contractAddr contractIBCPortID msg)) ∧
    (∀ custom contractMsg, msg.Custom = some custom →
      x.jsonUnmarshal custom = .ok contractMsg →
      DispatchMsg m x state contractAddr contractIBCPortID msg =
        (List.findSome? id
          [contractMsg.SubmitTx.map fun v =>
              Outcome.ofResult (submitTx m x state contractAddr v),
            contractMsg.RegisterInterchainAccount.map fun v =>
              Outcome.ofResult (registerInterchainAccount m x state contractAddr v),
            contractMsg.RegisterInterchainQuery.map fun v =>
              Outcome.ofResult (registerInterchainQuery m x state contractAddr v),
            contractMsg.UpdateInterchainQuery.map fun v =>
              Outcome.ofResult (updateInterchainQuery m x state contractAddr v),
            contractMsg.RemoveInterchainQuery.map fun v =>
              removeInterchainQuery m x state contractAddr v,
            contractMsg.IBCTransfer.map fun v =>
              Outcome.ofResult (ibcTransfer m x state contractAddr v),
            contractMsg.SubmitAdminProposal.map fun v =>
              submitAdminProposal m x state contractAddr v.AdminProposal,
            contractMsg.CreateDenom.map fun v =>
              Outcome.ofResult (createDenom m x state contractAddr v),
            contractMsg.MintTokens.map fun v =>
              Outcome.ofResult (mintTokens m x state contractAddr v),
            contractMsg.SetBeforeSendHook.map fun v =>
              Outcome.ofResult (setBeforeSendHook m x state contractAddr v),
            contractMsg.ChangeAdmin.map fun v =>
              Outcome.ofResult (changeAdmin m x state contractAddr v),
            contractMsg.BurnTokens.map fun v =>
              Outcome.ofResult (burnTokens m x state contractAddr v),
            contractMsg.AddSchedule.map fun v =>
              Outcome.ofResult (addSchedule m x state contractAddr v),
            contractMsg.RemoveSchedule.map fun v =>
              Outcome.ofResult (removeSchedule m x state contractAddr v),
            contractMsg.ResubmitFailure.map fun v =>
              Outcome.ofResult (resubmitFailure m x state contractAddr v),
            contractMsg.Dex.map fun v =>
              match dispatchDexMsg m x state contractAddr v with
              | (.error err, state) => (.returned ⟨[], [], some err⟩, state)
              | (.ok data, state) => (.returned ⟨[], data, none⟩, state)]).getD
          (Outcome.ofResult (m.Wrapped state contractAddr contractIBCPortID msg))) := by
  refine ⟨?_, ?_, ?_, ?_⟩
  · intro h
    simp only [DispatchMsg, h]
  · intro custom err h hdec m2
    simp only [DispatchMsg, h, hdec]
  · intro custom h hdec
    simp only [DispatchMsg, h, hdec]
    rfl
  · intro custom contractMsg h hdec
    simp only [DispatchMsg, h, hdec]
    rcases contractMsg with ⟨a1, a2, a3, a4, a5, a6, a7, a8, a9, a10, a11, a12, a13, a14, a15, a16⟩
    cases a1 <;> [skip; rfl]
    cases a2 <;> [skip; rfl]
    cases a3 <;> [skip; rfl]
    cases a4 <;> [skip; rfl]
    cases a5 <;> [skip; rfl]
    cases a6 <;> [skip; rfl]
    cases a7 <;> [skip; rfl]
    cases a8 <;> [skip; rfl]
    cases a9 <;> [skip; rfl]
    cases a10 <;> [skip; rfl]
    cases a11 <;> [skip; rfl]
    cases a12 <;> [skip; rfl]
    cases a13 <;> [skip; rfl]
    cases a14 <;> [skip; rfl]
    cases a15 <;> [skip; rfl]
    cases a16 <;> rfl

/-- Witness for C26 on the journal messenger: a payload that decodes to a
message with `BurnTokens` and `Dex` set runs the burn handler alone, and a
payload that does not decode leaves the journal empty. -/
theorem DispatchMsg_routing_witness :
    (⟨some [1], []⟩ : CosmosMsg).Custom = some [1] ∧
    Wire.externals.jsonUnmarshal [1] = .ok Wire.burnAndDex ∧
    DispatchMsg Wire.messenger Wire.externals [] Wire.owner7 "wasm.port" ⟨some [1], []⟩ =
      (.returned ⟨[], [], none⟩, ["Burn from neutron1owner"]) ∧
    DispatchMsg Wire.messenger Wire.externals [] Wire.owner7 "wasm.port" ⟨some [], []⟩ =
      (.returned ⟨[], [], some (.Wrap (.Errorf "unexpected end of JSON input")
        "failed to decode incoming custom cosmos message")⟩, []) :=
  ⟨rfl, rfl,
    ((DispatchMsg_routing Wire.messenger Wire.externals [] Wire.owner7 "wasm.port"
      ⟨some [1], []⟩).2.2.2 [1] Wire.burnAndDex rfl rfl).trans rfl,
    rfl⟩

end Neutron
